import Mathlib

/-!
DIS_TDAQ: the acquisition executable `demo/acquireImages.cpp`, the pulse emitter
`demo/emulateTrigger/emulateTrigger.cpp` and `prepareCameras` of `demo/prepareCamera.cpp`

A shallow embedding of the three programs, one namespace for each.  A program is a
sequence of calls into the camera SDK, the GPIO library, the C library and the clock; the
embedding keeps every such call as an event of a trace and takes the answers of the
outside world from an environment `Env`, which may depend on everything that happened
before.  A C++ exception is an explicit result (`Res.raise`), so that the `try`/`catch`
blocks of the source and the absence of one are both visible.  The definitions of the
three programs come first, then the statements about them.
-/

namespace acquireImages

/-! ## Machine integers -/

/-- The value of a C++ `int` (32 bit, two's complement) holding the mathematical
integer `x` modulo `2^32`. -/
def wrapInt (x : Int) : Int :=
  (x + 2147483648) % 4294967296 - 2147483648

/-- The bit pattern of an `int` as an unsigned 32 bit number. -/
def toUnsigned (x : Int) : Nat :=
  (x % 4294967296).toNat

/-- The `int` with the given 32 bit pattern. -/
def toSigned (u : Nat) : Int :=
  if u < 2147483648 then (u : Int) else (u : Int) - 4294967296

/-- The operator `|` of C++ on two `int` values. -/
def bitOr (a b : Int) : Int :=
  toSigned (toUnsigned a ||| toUnsigned b)

/-! ## Calls, events and the environment -/

/-- The two node maps of a camera: `pCam->GetNodeMap()` and
`pCam->GetTLDeviceNodeMap()`. -/
inductive NodeMapKind where
  | device
  | tlDevice
  deriving DecidableEq

/-- The calls the program makes to the outside world (SDK, C library, clock).  A camera
is named by its index in the camera list and a node by its node map and name.  Three
are not calls to the outside: `call_AcquireImages`, `ret_AcquireImages` and
`ret_GrabNextImageByTrigger` mark, at the place of the call, that `AcquireImages` is
called with these arguments, that it returned this code, and that
`GrabNextImageByTrigger` returned this code.  The calls from `fopen` on are made by the
start-up only; an entry of an enumeration node is named by the camera, the node and the
entry, and `SetIntValue cam node entry` writes the value of that entry to the node. -/
inductive Call where
  | getchar
  | sleep_for (ms : Int)
  | now
  | GetNode (cam : Nat) (map : NodeMapKind) (name : String)
  | IsAvailable (cam : Nat) (map : NodeMapKind) (name : String)
  | IsReadable (cam : Nat) (map : NodeMapKind) (name : String)
  | IsWritable (cam : Nat) (map : NodeMapKind) (name : String)
  | GetValue (cam : Nat) (name : String)
  | Execute (cam : Nat) (name : String)
  | GetNextImage (cam : Nat) (timeout : Nat)
  | IsIncomplete (cam : Nat)
  | Convert (cam : Nat)
  | Save (cam : Nat) (filename : String)
  | Release (cam : Nat)
  | EndAcquisition (cam : Nat)
  | DeInit (cam : Nat)
  | Clear
  | ReleaseInstance
  | call_AcquireImages (cam : Nat) (imageCnt : Int) (triggerSource : String)
  | ret_AcquireImages (cam : Nat) (result : Int)
  | ret_GrabNextImageByTrigger (cam : Nat) (result : Int)
  | fopen
  | fclose
  | remove
  | GetInstance
  | GetLibraryVersion
  | GetCameras
  | Init (cam : Nat)
  | BeginAcquisition (cam : Nat)
  | GetEntryByName (cam : Nat) (node entry : String)
  | EntryIsAvailable (cam : Nat) (node entry : String)
  | EntryIsReadable (cam : Nat) (node entry : String)
  | EntryGetValue (cam : Nat) (node entry : String)
  | SetIntValue (cam : Nat) (node entry : String)
  deriving DecidableEq

/-- How a call ended: it returned nothing of interest, it raised `Spinnaker::Exception`,
or it returned a truth value, a string or a clock reading. -/
inductive Answer where
  | done
  | raised
  | bool (b : Bool)
  | string (s : String)
  | time (t : Int)
  deriving DecidableEq

/-- One entry of the trace: a call and how it ended. -/
structure Event where
  call : Call
  answer : Answer
  deriving DecidableEq

/-- The history of a run, oldest event first. -/
abbrev Trace := List Event

/-- The outside world.  Every answer may depend on the whole history.
* `throws h c`: the SDK call `c`, made after history `h`, raises `Spinnaker::Exception`;
* `answerBool h c`: what a predicate (`IsAvailable`, `IsReadable`, `IsWritable`,
  `IsIncomplete`) returns;
* `answerString h c`: what `GetValue` returns on a string node;
* `clock h`: the reading of `std::chrono::system_clock::now()`, in clock ticks;
* `ticksPerMinute`: how many clock ticks `std::chrono::minutes(1)` converts to;
* `leftOperandFirst`: whether the compiler evaluates the left operand of the comparison
  in the stop condition before the right one (C++ leaves the order open). -/
structure Env where
  throws : Trace → Call → Bool
  answerBool : Trace → Call → Bool
  answerString : Trace → Call → String
  clock : Trace → Int
  ticksPerMinute : Int
  leftOperandFirst : Bool

/-- The C++ exceptions of the program: those of the camera SDK, which the `catch` blocks
of the source handle, and those of the JSON library, which nothing handles. -/
inductive Exn where
  | Spinnaker
  | Json
  deriving DecidableEq

/-- What running a piece of the program gives: a value, or an exception in flight; in
both cases with the history up to that point. -/
inductive Res (α : Type) where
  | ok (val : α) (tr : Trace)
  | raise (e : Exn) (tr : Trace)
  deriving DecidableEq

/-- The history at the end of a run. -/
def Res.trace {α : Type} : Res α → Trace
  | .ok _ tr => tr
  | .raise _ tr => tr

/-- A piece of program: from the history so far to its result. -/
def Prog (α : Type) : Type := Trace → Res α

/-- Return a value without doing anything. -/
def Prog.pure {α : Type} (a : α) : Prog α :=
  fun tr => .ok a tr

/-- Continue after a result: an exception in flight skips the continuation. -/
def Res.andThen {α β : Type} (r : Res α) (f : α → Prog β) : Res β :=
  match r with
  | .ok a tr1 => f a tr1
  | .raise e tr1 => .raise e tr1

/-- Sequencing: an exception of the first part skips the second. -/
def Prog.bind {α β : Type} (m : Prog α) (f : α → Prog β) : Prog β :=
  fun tr => (m tr).andThen f

instance : Monad Prog where
  pure := Prog.pure
  bind := Prog.bind

/-- A call that cannot raise and returns nothing (C library, markers). -/
def emit (c : Call) : Prog Unit :=
  fun tr => .ok () (tr ++ [⟨c, .done⟩])

/-- A call into the camera SDK: it is recorded, and raises when the environment says so. -/
def sdk (env : Env) (c : Call) : Prog Unit :=
  fun tr =>
    if env.throws tr c then .raise .Spinnaker (tr ++ [⟨c, .raised⟩])
    else .ok () (tr ++ [⟨c, .done⟩])

/-- A predicate of the SDK: it is recorded with the truth value it returns. -/
def ask (env : Env) (c : Call) : Prog Bool :=
  fun tr => .ok (env.answerBool tr c) (tr ++ [⟨c, .bool (env.answerBool tr c)⟩])

/-- An SDK call that returns a string, or raises. -/
def sdkString (env : Env) (c : Call) : Prog String :=
  fun tr =>
    if env.throws tr c then .raise .Spinnaker (tr ++ [⟨c, .raised⟩])
    else .ok (env.answerString tr c) (tr ++ [⟨c, .string (env.answerString tr c)⟩])

/-- One reading of the clock: `std::chrono::system_clock::now()`. -/
def readClock (env : Env) : Prog Int :=
  fun tr => .ok (env.clock tr) (tr ++ [⟨.now, .time (env.clock tr)⟩])

/-- Handle a result: an SDK exception in flight is stopped and the handler runs; a
JSON exception stays in flight. -/
def Res.orCatch {α : Type} (r : Res α) (handler : Prog α) : Res α :=
  match r with
  | .ok a tr1 => .ok a tr1
  | .raise .Spinnaker tr1 => handler tr1
  | .raise .Json tr1 => .raise .Json tr1

/-- The block `try body catch (Spinnaker::Exception&) handler`: only SDK exceptions
are caught. -/
def tryCatchSpinnaker {α : Type} (body : Prog α) (handler : Prog α) : Prog α :=
  fun tr => (body tr).orCatch handler

/-- The conversion of a JSON value to `std::string`; `none` stands for a key that is
absent or null, on which the conversion raises a JSON `type_error`. -/
def jsonToString (v : Option String) : Prog String :=
  fun tr =>
    match v with
    | some s => .ok s tr
    | none => .raise .Json tr

/-- The parsed configuration file.  The three string keys may be absent or null (`none`);
the other keys hold a value of the type the program converts them to. -/
structure Config where
  TriggerSelector : Option String
  TriggerSource : Option String
  TriggerActivationType : Option String
  TriggerTiming : Int
  RunUntil : Int
  ExitOnError : Bool

/-! ## The functions of `acquireImages.cpp` -/

/-- Source: `GrabNextImageByTrigger` (acquireImages.cpp, lines 168-218).  In the
condition of line 193 the operator `||` asks `IsWritable` only when `IsAvailable`
returned true. -/
def GrabNextImageByTrigger (env : Env) (pCam : Nat) (triggerSource : String) : Prog Int :=
  tryCatchSpinnaker
    (if triggerSource = "Software" then do
      emit .getchar
      sdk env (.GetNode pCam .device "TriggerSoftware")
      let available ← ask env (.IsAvailable pCam .device "TriggerSoftware")
      let unusable ←
        (if !available then pure true
        else do
          let writable ← ask env (.IsWritable pCam .device "TriggerSoftware")
          pure (!writable))
      let result : Int := if unusable then -1 else 0
      sdk env (.Execute pCam "TriggerSoftware")
      pure result
    else if triggerSource = "Hardware" then
      pure 0
    else
      pure (-1))
    (pure (-1))

/-- The name of the image file, as lines 271-278 of `AcquireImages` build it in the
`ostringstream`. -/
def imageFilename (deviceSerialNumber : String) (imageCnt : Int) : String :=
  "Trigger-"
    ++ (if deviceSerialNumber != "" then deviceSerialNumber ++ "-" else "")
    ++ toString imageCnt ++ ".jpg"

/-- Lines 231-241 of `AcquireImages`: the device serial number for the file name, empty
when the node cannot be read.  In the condition of line 235 the operator `&&` asks
`IsReadable` only when `IsAvailable` returned true. -/
def readSerialNumber (env : Env) (pCam : Nat) : Prog String := do
  sdk env (.GetNode pCam .tlDevice "DeviceSerialNumber")
  let available ← ask env (.IsAvailable pCam .tlDevice "DeviceSerialNumber")
  let usable ←
    (if available then ask env (.IsReadable pCam .tlDevice "DeviceSerialNumber")
    else pure false)
  (if usable then sdkString env (.GetValue pCam "DeviceSerialNumber")
  else pure "")

/-- Lines 246-289 of `AcquireImages`: one image is requested from the buffer, converted
and saved when it is complete, and released. -/
def retrieveImage (env : Env) (pCam : Nat) (imageCnt : Int) (deviceSerialNumber : String) :
    Prog Unit := do
  sdk env (.GetNextImage pCam 1)
  let incomplete ← ask env (.IsIncomplete pCam)
  (if incomplete then
    pure ()
  else do
    sdk env (.Convert pCam)
    sdk env (.Save pCam (imageFilename deviceSerialNumber imageCnt)))
  sdk env (.Release pCam)

/-- Source: `AcquireImages` (acquireImages.cpp, lines 222-300): inside one `try` block,
the serial number, the trigger wait (line 244, `result = result | ...` with `result`
still 0), the image; the `catch` block sets the result to -1. -/
def AcquireImages (env : Env) (pCam : Nat) (imageCnt : Int) (triggerSource : String) :
    Prog Int :=
  tryCatchSpinnaker
    (do
      let deviceSerialNumber ← readSerialNumber env pCam
      let grabbed ← GrabNextImageByTrigger env pCam triggerSource
      emit (.ret_GrabNextImageByTrigger pCam grabbed)
      let result := bitOr 0 grabbed
      retrieveImage env pCam imageCnt deviceSerialNumber
      pure result)
    (pure (-1))

/-! ## The acquisition loop of `main` (acquireImages.cpp, lines 448-502) -/

/-- The two variables of `main` that the loop changes. -/
structure LoopState where
  errorFlag : Int
  imageCnt : Int
  deriving DecidableEq

/-- The `for` loop of lines 459-469 over the cameras `0, ..., numCameras - 1`, started
with the given `errorFlag`; its value is the `errorFlag` after the loop.  The recursion
peels off the last camera: the cameras before it are drained first, then camera `n`.
The conversion of `configJson["TriggerSource"]` to the `string` parameter is part of
every call. -/
def drainCameras (env : Env) (cfg : Config) (imageCnt : Int) : Nat → Int → Prog Int
  | 0, errorFlag => pure errorFlag
  | n + 1, errorFlag => do
    let flag ← drainCameras env cfg imageCnt n errorFlag
    let triggerSource ← jsonToString cfg.TriggerSource
    emit (.call_AcquireImages n imageCnt triggerSource)
    let result ← AcquireImages env n imageCnt triggerSource
    emit (.ret_AcquireImages n result)
    pure (bitOr flag result)

/-- The deadline comparison of line 472,
`system_clock::now() > EXPERIMENT_START + minutes(RunUntil)`, where the macro
`EXPERIMENT_START` (line 26) expands to a second `system_clock::now()`.  Both readings
are taken here, in the order the compiler chose. -/
def deadlinePassed (env : Env) (cfg : Config) : Prog Bool :=
  if env.leftOperandFirst then do
    let current ← readClock env
    let experimentStart ← readClock env
    pure (decide (current > experimentStart + cfg.RunUntil * env.ticksPerMinute))
  else do
    let experimentStart ← readClock env
    let current ← readClock env
    pure (decide (current > experimentStart + cfg.RunUntil * env.ticksPerMinute))

/-- The condition of the `if` of line 472; `&&` and `||` do not evaluate their right
operand when the left one decides. -/
def stopCondition (env : Env) (cfg : Config) (errorFlag : Int) : Prog Bool :=
  if errorFlag != 0 && cfg.ExitOnError then
    pure true
  else
    deadlinePassed env cfg

/-- The `for` loop of lines 474-483: `EndAcquisition` then `DeInit` for the cameras
`0, ..., numCameras - 1`.  No `try` block surrounds it. -/
def releaseCameras (env : Env) : Nat → Prog Unit
  | 0 => pure ()
  | n + 1 => do
    releaseCameras env n
    sdk env (.EndAcquisition n)
    sdk env (.DeInit n)

/-- The body of the `if` of line 472 up to the `break` (lines 473-492). -/
def teardown (env : Env) (numCameras : Nat) : Prog Unit := do
  releaseCameras env numCameras
  sdk env .Clear
  sdk env .ReleaseInstance

/-- One pass through the body of `while (true)` (lines 451-498).  The value is `none`
when the pass ends with `break`, and the variables for the next pass otherwise.  The
counter is an `int`: the model takes the two's complement wrap-around for `imageCnt++`. -/
def loopBody (env : Env) (cfg : Config) (numCameras : Nat) (st : LoopState) :
    Prog (Option LoopState) := do
  emit (.sleep_for cfg.TriggerTiming)
  let errorFlag ← drainCameras env cfg st.imageCnt numCameras st.errorFlag
  let stop ← stopCondition env cfg errorFlag
  (if stop then do
    teardown env numCameras
    pure none
  else
    pure (some { errorFlag := errorFlag, imageCnt := wrapInt (st.imageCnt + 1) }))

/-- How the part of `main` from line 448 on ends: it returns a code, it is left by an
exception nothing catches, or it is still in the loop when the fuel is used up. -/
inductive Outcome where
  | returned (code : Int) (tr : Trace)
  | uncaught (e : Exn) (tr : Trace)
  | running (st : LoopState) (tr : Trace)
  deriving DecidableEq

/-- The history at the end of a run of the loop. -/
def Outcome.trace : Outcome → Trace
  | .returned _ tr => tr
  | .uncaught _ tr => tr
  | .running _ tr => tr

/-- The loop `while (true)` followed by `return 0` (lines 451-502), for at most `fuel`
passes. -/
def whileLoop (env : Env) (cfg : Config) (numCameras : Nat) :
    Nat → LoopState → Trace → Outcome
  | 0, st, tr => .running st tr
  | fuel + 1, st, tr =>
    match loopBody env cfg numCameras st tr with
    | .ok none tr1 => .returned 0 tr1
    | .ok (some st1) tr1 => whileLoop env cfg numCameras fuel st1 tr1
    | .raise e tr1 => .uncaught e tr1

/-- The variables when the loop is entered: `errorFlag` is 0 there (line 438 returns
otherwise) and line 448 sets `imageCnt` to 1. -/
def loopEntry : LoopState :=
  { errorFlag := 0, imageCnt := 1 }

/-- The part of `main` from line 448 to the end, started after history `tr`. -/
def mainLoop (env : Env) (cfg : Config) (numCameras fuel : Nat) (tr : Trace) : Outcome :=
  whileLoop env cfg numCameras fuel loopEntry tr

/-- The variables and the history at the start of pass `k + 1` of the loop, when the run
gets that far (`none` when the loop was left before). -/
def passStart (env : Env) (cfg : Config) (numCameras : Nat) (tr : Trace) :
    Nat → Option (LoopState × Trace)
  | 0 => some (loopEntry, tr)
  | k + 1 =>
    match passStart env cfg numCameras tr k with
    | none => none
    | some (st, tr1) =>
      match loopBody env cfg numCameras st tr1 with
      | .ok (some st1) tr2 => some (st1, tr2)
      | _ => none

/-! ## The start-up of `main` (acquireImages.cpp, lines 28-162 and 304-446) -/

/-- The condition `!IsAvailable(p) || !IsReadable(p)` of the checks of `ConfigureTrigger`
(with `IsWritable` for the second predicate where the source has it): the operator `||`
asks the second predicate only when the first returned true.  The value is true when the
check fails. -/
def notUsable (env : Env) (first second : Call) : Prog Bool := do
  let available ← ask env first
  (if !available then pure true
  else do
    let usable ← ask env second
    pure (!usable))

/-- The block of lines 45-52, which `ConfigureTrigger` repeats at lines 68-75, 100-107,
122-129, 135-142 and 149-156: the entry `entry` of the enumeration node `node` is looked
up with `GetEntryByName`, checked with `IsAvailable` and `IsReadable`, and its value is
written to the node with `SetIntValue`.  The value is false when the check fails, which
is where the source returns -1. -/
def setEnumEntry (env : Env) (pCam : Nat) (node entry : String) : Prog Bool := do
  sdk env (.GetEntryByName pCam node entry)
  let missing ← notUsable env (.EntryIsAvailable pCam node entry)
    (.EntryIsReadable pCam node entry)
  (if missing then pure false
  else do
    sdk env (.EntryGetValue pCam node entry)
    sdk env (.SetIntValue pCam node entry)
    pure true)

/-- Lines 148-160 of `ConfigureTrigger`: the trigger mode is switched on again and the
function returns 0. -/
def enableTriggerMode (env : Env) (pCam : Nat) : Prog Int := do
  let enabled ← setEnumEntry env pCam "TriggerMode" "On"
  (if !enabled then pure (-1) else pure 0)

/-- Lines 97-146 of `ConfigureTrigger`, followed by lines 148-160: the branch on the
trigger source.  Only the string "Hardware" takes the first branch; every other string
takes the `else` branch of line 133, which selects the entry "Software". -/
def selectTriggerSource (env : Env) (pCam : Nat) (cfg : Config) (triggerSource : String) :
    Prog Int :=
  if triggerSource = "Hardware" then do
    let line ← setEnumEntry env pCam "TriggerSource" "Line3"
    (if !line then pure (-1)
    else do
      let triggerActivationType := cfg.TriggerActivationType.getD "RisingEdge"
      sdk env (.GetNode pCam .device "TriggerActivation")
      let noActivation ← notUsable env (.IsAvailable pCam .device "TriggerActivation")
        (.IsWritable pCam .device "TriggerActivation")
      (if noActivation then pure (-1)
      else do
        let activation ← setEnumEntry env pCam "TriggerActivation" triggerActivationType
        (if !activation then pure (-1) else enableTriggerMode env pCam)))
  else do
    let software ← setEnumEntry env pCam "TriggerSource" "Software"
    (if !software then pure (-1) else enableTriggerMode env pCam)

/-- Source: `ConfigureTrigger` (acquireImages.cpp, lines 28-162).  The strings taken from
the configuration have the defaults of lines 65, 87 and 113 when the key is absent or
null.  Every failed check returns -1; an SDK exception leaves the function. -/
def ConfigureTrigger (env : Env) (pCam : Nat) (cfg : Config) : Prog Int := do
  sdk env (.GetNode pCam .device "TriggerMode")
  let noMode ← notUsable env (.IsAvailable pCam .device "TriggerMode")
    (.IsReadable pCam .device "TriggerMode")
  (if noMode then pure (-1)
  else do
    let off ← setEnumEntry env pCam "TriggerMode" "Off"
    (if !off then pure (-1)
    else do
      sdk env (.GetNode pCam .device "TriggerSelector")
      let noSelector ← notUsable env (.IsAvailable pCam .device "TriggerSelector")
        (.IsWritable pCam .device "TriggerSelector")
      (if noSelector then pure (-1)
      else do
        let triggerSelector := cfg.TriggerSelector.getD "FrameStart"
        let selector ← setEnumEntry env pCam "TriggerSelector" triggerSelector
        (if !selector then pure (-1)
        else do
          let triggerSource := cfg.TriggerSource.getD "Software"
          sdk env (.GetNode pCam .device "TriggerSource")
          let noSource ← notUsable env (.IsAvailable pCam .device "TriggerSource")
            (.IsWritable pCam .device "TriggerSource")
          (if noSource then pure (-1)
          else selectTriggerSource env pCam cfg triggerSource)))))

/-- The `for` loop of lines 309-317 of `InitializeAndConfigure` over the cameras
`0, ..., numCameras - 1`, started with the given `result`: `Init`, then
`result |= ConfigureTrigger(...)`.  The recursion peels off the last camera. -/
def configureCameras (env : Env) (cfg : Config) : Nat → Int → Prog Int
  | 0, result => pure result
  | n + 1, result => do
    let result1 ← configureCameras env cfg n result
    sdk env (.Init n)
    let code ← ConfigureTrigger env n cfg
    pure (bitOr result1 code)

/-- The `for` loop of lines 320-325: `DeInit` for every camera. -/
def deinitCameras (env : Env) : Nat → Prog Unit
  | 0 => pure ()
  | n + 1 => do
    deinitCameras env n
    sdk env (.DeInit n)

/-- The `for` loop of lines 333-338: `BeginAcquisition` for every camera. -/
def beginAcquisition (env : Env) : Nat → Prog Unit
  | 0 => pure ()
  | n + 1 => do
    beginAcquisition env n
    sdk env (.BeginAcquisition n)

/-- Source: `InitializeAndConfigure` (acquireImages.cpp, lines 304-348).  The `catch`
block computes `result |= -1`, which is -1 whatever `result` held when the exception was
raised. -/
def InitializeAndConfigure (env : Env) (cfg : Config) (numCameras : Nat) : Prog Int :=
  tryCatchSpinnaker
    (do
      let result ← configureCameras env cfg numCameras 0
      (if result != 0 then do
        deinitCameras env numCameras
        pure result
      else do
        beginAcquisition env numCameras
        pure result))
    (pure (-1))

/-- Source: `checkPermissions` (acquireImages.cpp, lines 353-367).  The answer of `fopen`
is whether the file could be created. -/
def checkPermissions (env : Env) : Prog Int := do
  let created ← ask env .fopen
  (if !created then do
    emit .getchar
    pure (-1)
  else do
    emit .fclose
    emit .remove
    pure 0)

/-- What `json::parse` (line 426) finds in the configuration file: text that is not
JSON, on which the parser of the JSON library raises `parse_error`; the JSON value
`null`; another JSON value that is not an object, on which the subscript of line 433
raises `type_error`; or an object, kept as a `Config`. -/
inductive ConfigFile where
  | unparsable
  | null
  | other
  | object (cfg : Config)

/-- An exception of the JSON library is raised. -/
def raiseJson {α : Type} : Prog α :=
  fun tr => .raise .Json tr

/-- Lines 396-446 of `main`, for `numCameras` cameras in the list that `GetCameras`
returned and the content `file` of the configuration file.  The value `none` stands for
`return -1`; otherwise the loop is entered with the parsed configuration.  The return of
line 430 is the only one that is not preceded by `Clear` and `ReleaseInstance`. -/
def configureSystem (env : Env) (numCameras : Nat) (file : ConfigFile) :
    Prog (Option Config) :=
  if numCameras = 0 then do
    sdk env .Clear
    sdk env .ReleaseInstance
    emit .getchar
    pure none
  else
    match file with
    | .unparsable => raiseJson
    | .null => pure none
    | .other => raiseJson
    | .object cfg => do
      let code ← InitializeAndConfigure env cfg numCameras
      let errorFlag := bitOr 0 code
      (if errorFlag != 0 then do
        sdk env .Clear
        sdk env .ReleaseInstance
        emit .getchar
        pure none
      else pure (some cfg))

/-- Lines 372-446 of `main`: the permission check, the system instance, the library
version and the camera list (lines 375-392), then `configureSystem`.  No `try` block
surrounds any of these lines. -/
def startup (env : Env) (numCameras : Nat) (file : ConfigFile) : Prog (Option Config) := do
  let permission ← checkPermissions env
  (if permission != 0 then pure none
  else do
    sdk env .GetInstance
    sdk env .GetLibraryVersion
    sdk env .GetCameras
    configureSystem env numCameras file)

/-- Source: `main` (acquireImages.cpp, lines 372-503), started with an empty history, for
at most `fuel` passes of the loop. -/
def main (env : Env) (numCameras : Nat) (file : ConfigFile) (fuel : Nat) : Outcome :=
  match startup env numCameras file [] with
  | .ok none tr => .returned (-1) tr
  | .ok (some cfg) tr => mainLoop env cfg numCameras fuel tr
  | .raise e tr => .uncaught e tr

/-! ## Vocabulary of the statements

The shapes a run of each function can take, written as the events it adds to the
history, and a small program logic to derive them from the definitions above. -/

/-- The statement `Sat p base out Qok Qraise`: run after the history `base ++ out`, the
program `p` only adds events, and the events after `base` together with the value (or with the
exception in flight) satisfy `Qok` (or `Qraise`). -/
def Sat {α : Type} (p : Prog α) (base out : Trace) (Qok : α → Trace → Prop)
    (Qraise : Exn → Trace → Prop) : Prop :=
  match p (base ++ out) with
  | .ok a t => ∃ ext, t = base ++ ext ∧ Qok a ext
  | .raise e t => ∃ ext, t = base ++ ext ∧ Qraise e ext

/-- What a `try` block asks of an exception leaving its body: the handler runs on an
SDK exception, a JSON exception goes on to the enclosing code. -/
def catchPost {α : Type} (handler : Prog α) (base : Trace) (Qok : α → Trace → Prop)
    (Qraise : Exn → Trace → Prop) (e : Exn) (ext : Trace) : Prop :=
  match e with
  | .Spinnaker => Sat handler base ext Qok Qraise
  | .Json => Qraise .Json ext

/-- The runs of `readSerialNumber` for camera `pCam`: the serial number it gives, or
`none` when an SDK exception leaves it, and the events of the run. -/
inductive SerialRun (pCam : Nat) : Option String → Trace → Prop where
  | nodeRaised : SerialRun pCam none
      [⟨.GetNode pCam .tlDevice "DeviceSerialNumber", .raised⟩]
  | unavailable : SerialRun pCam (some "")
      [⟨.GetNode pCam .tlDevice "DeviceSerialNumber", .done⟩,
       ⟨.IsAvailable pCam .tlDevice "DeviceSerialNumber", .bool false⟩]
  | unreadable : SerialRun pCam (some "")
      [⟨.GetNode pCam .tlDevice "DeviceSerialNumber", .done⟩,
       ⟨.IsAvailable pCam .tlDevice "DeviceSerialNumber", .bool true⟩,
       ⟨.IsReadable pCam .tlDevice "DeviceSerialNumber", .bool false⟩]
  | valueRaised : SerialRun pCam none
      [⟨.GetNode pCam .tlDevice "DeviceSerialNumber", .done⟩,
       ⟨.IsAvailable pCam .tlDevice "DeviceSerialNumber", .bool true⟩,
       ⟨.IsReadable pCam .tlDevice "DeviceSerialNumber", .bool true⟩,
       ⟨.GetValue pCam "DeviceSerialNumber", .raised⟩]
  | value (s : String) : SerialRun pCam (some s)
      [⟨.GetNode pCam .tlDevice "DeviceSerialNumber", .done⟩,
       ⟨.IsAvailable pCam .tlDevice "DeviceSerialNumber", .bool true⟩,
       ⟨.IsReadable pCam .tlDevice "DeviceSerialNumber", .bool true⟩,
       ⟨.GetValue pCam "DeviceSerialNumber", .string s⟩]

/-- The runs of `GrabNextImageByTrigger` for camera `pCam`: the trigger source, the
returned code and the events of the run. -/
inductive GrabRun (pCam : Nat) : String → Int → Trace → Prop where
  | hardware : GrabRun pCam "Hardware" 0 []
  | invalid (src : String) (h1 : src ≠ "Software") (h2 : src ≠ "Hardware") :
      GrabRun pCam src (-1) []
  | nodeRaised : GrabRun pCam "Software" (-1)
      [⟨.getchar, .done⟩, ⟨.GetNode pCam .device "TriggerSoftware", .raised⟩]
  | unavailableExecuted : GrabRun pCam "Software" (-1)
      [⟨.getchar, .done⟩, ⟨.GetNode pCam .device "TriggerSoftware", .done⟩,
       ⟨.IsAvailable pCam .device "TriggerSoftware", .bool false⟩,
       ⟨.Execute pCam "TriggerSoftware", .done⟩]
  | unavailableRaised : GrabRun pCam "Software" (-1)
      [⟨.getchar, .done⟩, ⟨.GetNode pCam .device "TriggerSoftware", .done⟩,
       ⟨.IsAvailable pCam .device "TriggerSoftware", .bool false⟩,
       ⟨.Execute pCam "TriggerSoftware", .raised⟩]
  | unwritableExecuted : GrabRun pCam "Software" (-1)
      [⟨.getchar, .done⟩, ⟨.GetNode pCam .device "TriggerSoftware", .done⟩,
       ⟨.IsAvailable pCam .device "TriggerSoftware", .bool true⟩,
       ⟨.IsWritable pCam .device "TriggerSoftware", .bool false⟩,
       ⟨.Execute pCam "TriggerSoftware", .done⟩]
  | unwritableRaised : GrabRun pCam "Software" (-1)
      [⟨.getchar, .done⟩, ⟨.GetNode pCam .device "TriggerSoftware", .done⟩,
       ⟨.IsAvailable pCam .device "TriggerSoftware", .bool true⟩,
       ⟨.IsWritable pCam .device "TriggerSoftware", .bool false⟩,
       ⟨.Execute pCam "TriggerSoftware", .raised⟩]
  | executeRaised : GrabRun pCam "Software" (-1)
      [⟨.getchar, .done⟩, ⟨.GetNode pCam .device "TriggerSoftware", .done⟩,
       ⟨.IsAvailable pCam .device "TriggerSoftware", .bool true⟩,
       ⟨.IsWritable pCam .device "TriggerSoftware", .bool true⟩,
       ⟨.Execute pCam "TriggerSoftware", .raised⟩]
  | triggered : GrabRun pCam "Software" 0
      [⟨.getchar, .done⟩, ⟨.GetNode pCam .device "TriggerSoftware", .done⟩,
       ⟨.IsAvailable pCam .device "TriggerSoftware", .bool true⟩,
       ⟨.IsWritable pCam .device "TriggerSoftware", .bool true⟩,
       ⟨.Execute pCam "TriggerSoftware", .done⟩]

/-- The runs of `retrieveImage` for camera `pCam` and a file name: whether the block was
run to its end (`true`) or left by an SDK exception (`false`), and the events. -/
inductive ImageRun (pCam : Nat) (filename : String) : Bool → Trace → Prop where
  | noImage : ImageRun pCam filename false [⟨.GetNextImage pCam 1, .raised⟩]
  | incomplete : ImageRun pCam filename true
      [⟨.GetNextImage pCam 1, .done⟩, ⟨.IsIncomplete pCam, .bool true⟩,
       ⟨.Release pCam, .done⟩]
  | incompleteReleaseRaised : ImageRun pCam filename false
      [⟨.GetNextImage pCam 1, .done⟩, ⟨.IsIncomplete pCam, .bool true⟩,
       ⟨.Release pCam, .raised⟩]
  | convertRaised : ImageRun pCam filename false
      [⟨.GetNextImage pCam 1, .done⟩, ⟨.IsIncomplete pCam, .bool false⟩,
       ⟨.Convert pCam, .raised⟩]
  | saveRaised : ImageRun pCam filename false
      [⟨.GetNextImage pCam 1, .done⟩, ⟨.IsIncomplete pCam, .bool false⟩,
       ⟨.Convert pCam, .done⟩, ⟨.Save pCam filename, .raised⟩]
  | saved : ImageRun pCam filename true
      [⟨.GetNextImage pCam 1, .done⟩, ⟨.IsIncomplete pCam, .bool false⟩,
       ⟨.Convert pCam, .done⟩, ⟨.Save pCam filename, .done⟩, ⟨.Release pCam, .done⟩]
  | releaseRaised : ImageRun pCam filename false
      [⟨.GetNextImage pCam 1, .done⟩, ⟨.IsIncomplete pCam, .bool false⟩,
       ⟨.Convert pCam, .done⟩, ⟨.Save pCam filename, .done⟩, ⟨.Release pCam, .raised⟩]

/-- The runs of `AcquireImages`: the returned code and the events of the run. -/
inductive AcquireRun (pCam : Nat) (imageCnt : Int) (src : String) : Int → Trace → Prop where
  | serialRaised (sext : Trace) (hs : SerialRun pCam none sext) :
      AcquireRun pCam imageCnt src (-1) sext
  | imageRaised (s : String) (sext : Trace) (g : Int) (gext iext : Trace)
      (hs : SerialRun pCam (some s) sext) (hg : GrabRun pCam src g gext)
      (hi : ImageRun pCam (imageFilename s imageCnt) false iext) :
      AcquireRun pCam imageCnt src (-1)
        (sext ++ gext ++ [⟨.ret_GrabNextImageByTrigger pCam g, .done⟩] ++ iext)
  | completed (s : String) (sext : Trace) (g : Int) (gext iext : Trace)
      (hs : SerialRun pCam (some s) sext) (hg : GrabRun pCam src g gext)
      (hi : ImageRun pCam (imageFilename s imageCnt) true iext) :
      AcquireRun pCam imageCnt src (bitOr 0 g)
        (sext ++ gext ++ [⟨.ret_GrabNextImageByTrigger pCam g, .done⟩] ++ iext)

/-- The part of the program a call belongs to. -/
inductive Origin where
  | serial
  | grab
  | image
  | marker
  | loop
  | setup
  deriving DecidableEq

/-- The part of a pass of the loop that makes a call: reading the serial number, waiting
for the trigger, retrieving the image, the marker of the trigger wait set by
`AcquireImages`, or the loop of `main` itself.  The calls that only the start-up makes
are classed `setup`. -/
def origin : Call → Origin
  | .getchar => .grab
  | .sleep_for _ => .loop
  | .now => .loop
  | .GetNode _ .device _ => .grab
  | .GetNode _ .tlDevice _ => .serial
  | .IsAvailable _ .device _ => .grab
  | .IsAvailable _ .tlDevice _ => .serial
  | .IsReadable _ _ _ => .serial
  | .IsWritable _ _ _ => .grab
  | .GetValue _ _ => .serial
  | .Execute _ _ => .grab
  | .GetNextImage _ _ => .image
  | .IsIncomplete _ => .image
  | .Convert _ => .image
  | .Save _ _ => .image
  | .Release _ => .image
  | .EndAcquisition _ => .loop
  | .DeInit _ => .loop
  | .Clear => .loop
  | .ReleaseInstance => .loop
  | .call_AcquireImages _ _ _ => .loop
  | .ret_AcquireImages _ _ => .loop
  | .ret_GrabNextImageByTrigger _ _ => .marker
  | .fopen => .setup
  | .fclose => .setup
  | .remove => .setup
  | .GetInstance => .setup
  | .GetLibraryVersion => .setup
  | .GetCameras => .setup
  | .Init _ => .setup
  | .BeginAcquisition _ => .setup
  | .GetEntryByName _ _ _ => .setup
  | .EntryIsAvailable _ _ _ => .setup
  | .EntryIsReadable _ _ _ => .setup
  | .EntryGetValue _ _ _ => .setup
  | .SetIntValue _ _ _ => .setup

/-! ## Sample environments and configurations -/

/-- An environment in which no call raises, every node can be read and written, every
image is complete, the serial number is "21234567", the clock advances by one tick with
every event, and the left operand of a comparison is evaluated first. -/
def quietEnv : Env where
  throws := fun _ _ => false
  answerBool := fun _ c =>
    match c with
    | .IsIncomplete _ => false
    | _ => true
  answerString := fun _ _ => "21234567"
  clock := fun h => (h.length : Int)
  ticksPerMinute := 60000000000
  leftOperandFirst := true

/-- The environment `quietEnv`, except that `Convert` raises for camera 0. -/
def convertFailsEnv : Env :=
  { quietEnv with throws := fun _ c => decide (c = .Convert 0) }

/-- The environment `quietEnv`, except that every image is incomplete. -/
def incompleteEnv : Env :=
  { quietEnv with answerBool := fun _ _ => true }

/-- A configuration with a hardware trigger, a sleep of 100 ms, `RunUntil` 0 and
`ExitOnError` set. -/
def hardwareConfig : Config where
  TriggerSelector := none
  TriggerSource := some "Hardware"
  TriggerActivationType := none
  TriggerTiming := 100
  RunUntil := 0
  ExitOnError := true

/-- The runs of the `for` loop over the cameras (`drainCameras`) that reach its end, for
sequence number `imageCnt` and trigger source `src`: the number of cameras, the
`errorFlag` before and after, and the events of the run. -/
inductive DrainRun (imageCnt : Int) (src : String) : Nat → Int → Int → Trace → Prop where
  | nil (flag : Int) : DrainRun imageCnt src 0 flag flag []
  | snoc (n : Nat) (flag flag1 code : Int) (out aout : Trace)
      (h : DrainRun imageCnt src n flag flag1 out)
      (ha : AcquireRun n imageCnt src code aout) :
      DrainRun imageCnt src (n + 1) flag (bitOr flag1 code)
        (out ++ [⟨.call_AcquireImages n imageCnt src, .done⟩] ++ aout
          ++ [⟨.ret_AcquireImages n code, .done⟩])

/-- The calls of `AcquireImages` recorded in a history, in order: the camera and the
sequence number of each. -/
def callMarkers (tr : Trace) : List (Nat × Int) :=
  tr.filterMap fun e =>
    match e.call with
    | .call_AcquireImages cam imageCnt _ => some (cam, imageCnt)
    | _ => none

/-- The calls of the loop of lines 474-483 for `numCameras` cameras: `EndAcquisition` and
`DeInit` for every camera, in list order. -/
def cameraCalls (numCameras : Nat) : List Call :=
  ((List.range numCameras).map fun i => [Call.EndAcquisition i, Call.DeInit i]).flatten

/-- The calls of the teardown for `numCameras` cameras, in the order of lines 474-489:
those of `cameraCalls`, then `Clear`, then `ReleaseInstance`. -/
def teardownCalls (numCameras : Nat) : List Call :=
  cameraCalls numCameras ++ [Call.Clear, Call.ReleaseInstance]

/-- The events of calls that all returned. -/
def allDone (calls : List Call) : Trace :=
  calls.map fun c => ⟨c, .done⟩

/-- A sequence of calls that was abandoned at its first exception: after history `tr`
the calls `pre` returned, the next call `c` raised, and the calls `post` were not made. -/
def StoppedAt (env : Env) (tr : Trace) (calls : List Call) (ext : Trace) : Prop :=
  ∃ pre c post, calls = pre ++ c :: post ∧ ext = allDone pre ++ [⟨c, .raised⟩]
    ∧ env.throws (tr ++ allDone pre) c = true

/-- The environment `quietEnv`, except that `GetNextImage` raises for camera 0 (no image
in the buffer). -/
def noImageEnv : Env :=
  { quietEnv with throws := fun _ c => decide (c = .GetNextImage 0 1) }

/-- The environment `quietEnv`, except that `EndAcquisition` raises for camera 0. -/
def endAcquisitionFailsEnv : Env :=
  { quietEnv with throws := fun _ c => decide (c = .EndAcquisition 0) }

/-- The number of sleeps in a history. -/
def sleepCount (tr : Trace) : Nat :=
  tr.countP fun e =>
    match e.call with
    | .sleep_for _ => true
    | _ => false

/-- The environment `quietEnv`, except that the clock is coarse: it advances by 1000
ticks during every sleep and not at all between two calls that follow each other; the
right operand of a comparison is evaluated first. -/
def coarseClockEnv : Env :=
  { quietEnv with
    clock := fun h => 1000 * (sleepCount h : Int)
    leftOperandFirst := false }

/-- The environment `quietEnv`, except that every sleep lasts 1000 seconds of a clock
that counts nanoseconds, and the right operand of a comparison is evaluated first. -/
def slowEnv : Env :=
  { quietEnv with
    clock := fun h => 1000000000000 * (sleepCount h : Int) + (h.length : Int)
    leftOperandFirst := false }

/-- The configuration `hardwareConfig` with `RunUntil` set to one minute. -/
def oneMinuteConfig : Config :=
  { hardwareConfig with RunUntil := 1 }

/-- The deadline test in the words of the specification: the current time is later than
the start time plus `RunUntil` minutes, the start time being one reading taken when the
run starts. -/
def deadlineBySpec (startTime current runUntil ticksPerMinute : Int) : Bool :=
  decide (current > startTime + runUntil * ticksPerMinute)

/-- The number of images handed out by `GetNextImage` in a history. -/
def acquireCount (tr : Trace) : Nat :=
  tr.countP fun e =>
    match e with
    | ⟨.GetNextImage _ _, .done⟩ => true
    | _ => false

/-- The number of calls of `Release` in a history. -/
def releaseCount (tr : Trace) : Nat :=
  tr.countP fun e =>
    match e.call with
    | .Release _ => true
    | _ => false

/-- The history of the first pass of the loop for one camera in `quietEnv` with
`hardwareConfig`. -/
def quietFirstPass : Trace :=
  [⟨.sleep_for 100, .done⟩,
   ⟨.call_AcquireImages 0 1 "Hardware", .done⟩,
   ⟨.GetNode 0 .tlDevice "DeviceSerialNumber", .done⟩,
   ⟨.IsAvailable 0 .tlDevice "DeviceSerialNumber", .bool true⟩,
   ⟨.IsReadable 0 .tlDevice "DeviceSerialNumber", .bool true⟩,
   ⟨.GetValue 0 "DeviceSerialNumber", .string "21234567"⟩,
   ⟨.ret_GrabNextImageByTrigger 0 0, .done⟩,
   ⟨.GetNextImage 0 1, .done⟩,
   ⟨.IsIncomplete 0, .bool false⟩,
   ⟨.Convert 0, .done⟩,
   ⟨.Save 0 "Trigger-21234567-1.jpg", .done⟩,
   ⟨.Release 0, .done⟩,
   ⟨.ret_AcquireImages 0 0, .done⟩,
   ⟨.now, .time 13⟩,
   ⟨.now, .time 14⟩]

/-- The events of `AcquireImages` for camera 0 with a hardware trigger when no call
raises, up to the request of the image. -/
def quietStart : Trace :=
  [⟨.GetNode 0 .tlDevice "DeviceSerialNumber", .done⟩,
   ⟨.IsAvailable 0 .tlDevice "DeviceSerialNumber", .bool true⟩,
   ⟨.IsReadable 0 .tlDevice "DeviceSerialNumber", .bool true⟩,
   ⟨.GetValue 0 "DeviceSerialNumber", .string "21234567"⟩,
   ⟨.ret_GrabNextImageByTrigger 0 0, .done⟩]

/-- The events of the pass of the loop for one camera in `noImageEnv` with
`hardwareConfig`, after the sleep: the call of `AcquireImages` that finds no image. -/
def noImagePass : Trace :=
  [⟨.call_AcquireImages 0 1 "Hardware", .done⟩,
   ⟨.GetNode 0 .tlDevice "DeviceSerialNumber", .done⟩,
   ⟨.IsAvailable 0 .tlDevice "DeviceSerialNumber", .bool true⟩,
   ⟨.IsReadable 0 .tlDevice "DeviceSerialNumber", .bool true⟩,
   ⟨.GetValue 0 "DeviceSerialNumber", .string "21234567"⟩,
   ⟨.ret_GrabNextImageByTrigger 0 0, .done⟩,
   ⟨.GetNextImage 0 1, .raised⟩,
   ⟨.ret_AcquireImages 0 (-1), .done⟩]

/-- The environment `quietEnv`, except that the serial number node of no camera can be
read. -/
def noSerialEnv : Env :=
  { quietEnv with
    answerBool := fun _ c =>
      match c with
      | .IsIncomplete _ => false
      | .IsReadable _ .tlDevice _ => false
      | _ => true }

/-- The events of `AcquireImages` for camera 0 at sequence number 5 with a hardware
trigger in `noSerialEnv`. -/
def noSerialRun : Trace :=
  [⟨.GetNode 0 .tlDevice "DeviceSerialNumber", .done⟩,
   ⟨.IsAvailable 0 .tlDevice "DeviceSerialNumber", .bool true⟩,
   ⟨.IsReadable 0 .tlDevice "DeviceSerialNumber", .bool false⟩,
   ⟨.ret_GrabNextImageByTrigger 0 0, .done⟩,
   ⟨.GetNextImage 0 1, .done⟩,
   ⟨.IsIncomplete 0, .bool false⟩,
   ⟨.Convert 0, .done⟩,
   ⟨.Save 0 "Trigger-5.jpg", .done⟩,
   ⟨.Release 0, .done⟩]

/-- The history of the pass of the loop for one camera in `slowEnv` with `hardwareConfig`
up to the stop condition, whose two readings of the clock are one tick apart. -/
def slowPass : Trace :=
  quietFirstPass.take 13 ++ [⟨.now, .time 1000000000013⟩, ⟨.now, .time 1000000000014⟩]

/-- The trigger waits and the frame requests recorded in a history, in order: the camera
with `false` for a return of `GrabNextImageByTrigger` and with `true` for a call of
`GetNextImage`. -/
def passSteps (tr : Trace) : List (Nat × Bool) :=
  tr.filterMap fun e =>
    match e.call with
    | .ret_GrabNextImageByTrigger cam _ => some (cam, false)
    | .GetNextImage cam _ => some (cam, true)
    | _ => none

/-- The codes returned by the calls of `AcquireImages` recorded in a history, in order. -/
def returnCodes (tr : Trace) : List Int :=
  tr.filterMap fun e =>
    match e.call with
    | .ret_AcquireImages _ code => some code
    | _ => none

/-- The environment `quietEnv` with two changes: the serial number node of camera 0
raises when it is looked up, and `GetNextImage` raises for camera 1. -/
def faultyEnv : Env :=
  { quietEnv with
    throws := fun _ c =>
      decide (c = .GetNode 0 .tlDevice "DeviceSerialNumber" ∨ c = .GetNextImage 1 1) }

/-- The statement `Emits p P`: run after any history, the program `p` only adds events,
and every event it adds satisfies `P`, whether it returns or is left by an exception. -/
def Emits {α : Type} (p : Prog α) (P : Event → Prop) : Prop :=
  ∀ tr, ∃ ext, (p tr).trace = tr ++ ext ∧ ∀ e ∈ ext, P e

/-- What the configuration `cfg` allows `ConfigureTrigger` to select on an enumeration
node: on "TriggerSelector" the entry named by `TriggerSelector`, or "FrameStart" when the
key is absent or null; on "TriggerActivation" the entry named by
`TriggerActivationType`, or "RisingEdge", and only with the trigger source "Hardware". -/
def entryAllowed (cfg : Config) (node entry : String) : Prop :=
  (node = "TriggerSelector" → entry = cfg.TriggerSelector.getD "FrameStart")
    ∧ (node = "TriggerActivation" →
        entry = cfg.TriggerActivationType.getD "RisingEdge"
          ∧ cfg.TriggerSource = some "Hardware")

/-- An event that respects `entryAllowed`: a lookup or a write of an entry is allowed by
the configuration, and the node "TriggerActivation" is looked up only with the trigger
source "Hardware". -/
def followsTriggerConfig (cfg : Config) (e : Event) : Prop :=
  match e.call with
  | .GetEntryByName _ node entry => entryAllowed cfg node entry
  | .SetIntValue _ node entry => entryAllowed cfg node entry
  | .GetNode _ _ name => name = "TriggerActivation" → cfg.TriggerSource = some "Hardware"
  | _ => True

/-- A configuration with a hardware trigger that names its entries: the selector
"AcquisitionStart" and the activation "FallingEdge". -/
def namedEntriesConfig : Config where
  TriggerSelector := some "AcquisitionStart"
  TriggerSource := some "Hardware"
  TriggerActivationType := some "FallingEdge"
  TriggerTiming := 100
  RunUntil := 0
  ExitOnError := true

/-- A configuration whose trigger source is neither "Software" nor "Hardware", with a
sleep of 100 ms, `RunUntil` one minute and `ExitOnError` not set. -/
def unknownSourceConfig : Config where
  TriggerSelector := none
  TriggerSource := some "Line0"
  TriggerActivationType := none
  TriggerTiming := 100
  RunUntil := 1
  ExitOnError := false

/-- The calls that belong to the acquisition loop and to nothing before it: the sleep,
the call of `AcquireImages` and the frame request. -/
def loopCall : Call → Bool
  | .sleep_for _ => true
  | .call_AcquireImages _ _ _ => true
  | .GetNextImage _ _ => true
  | _ => false

/-- The two calls that give the SDK back: `Clear` on the camera list and
`ReleaseInstance` on the system. -/
def releaseCall : Call → Bool
  | .Clear => true
  | .ReleaseInstance => true
  | _ => false

/-- An event of the start-up before the system is given back: its call is neither a call
of the loop nor one of the two release calls. -/
def setupEvent (e : Event) : Prop :=
  loopCall e.call = false ∧ releaseCall e.call = false

/-- The number of calls of `Clear` in a history. -/
def clearCount (tr : Trace) : Nat :=
  tr.countP fun e => decide (e.call = .Clear)

/-- The number of calls of `ReleaseInstance` in a history. -/
def releaseInstanceCount (tr : Trace) : Nat :=
  tr.countP fun e => decide (e.call = .ReleaseInstance)

/-- The events of lines 375-392 of `main` when the test file could be created and no call
raised: the permission check, the system instance, the library version and the camera
list. -/
def systemAcquired : Trace :=
  [⟨.fopen, .bool true⟩, ⟨.fclose, .done⟩, ⟨.remove, .done⟩, ⟨.GetInstance, .done⟩,
   ⟨.GetLibraryVersion, .done⟩, ⟨.GetCameras, .done⟩]

/-- The events of lines 400-407 and of lines 439-443: the camera list is cleared, the
system instance is released, and the program waits for the Enter key. -/
def systemReleased : Trace :=
  allDone [.Clear, .ReleaseInstance, .getchar]

/-- The environment `quietEnv`, except that the test file cannot be created in the
current directory. -/
def readOnlyEnv : Env :=
  { quietEnv with
    answerBool := fun _ c =>
      match c with
      | .IsIncomplete _ => false
      | .fopen => false
      | _ => true }

/-- The environment `quietEnv`, except that the node "TriggerMode" of no camera is
available. -/
def noTriggerModeEnv : Env :=
  { quietEnv with
    answerBool := fun _ c =>
      match c with
      | .IsIncomplete _ => false
      | .IsAvailable _ .device "TriggerMode" => false
      | _ => true }

/-- The environment `quietEnv`, except that the command node "TriggerSoftware" of no
camera is available. -/
def noTriggerCommandEnv : Env :=
  { quietEnv with
    answerBool := fun _ c =>
      match c with
      | .IsIncomplete _ => false
      | .IsAvailable _ .device "TriggerSoftware" => false
      | _ => true }

/-- The writes to enumeration nodes recorded in a history, in order: the node and the
entry of every call of `SetIntValue` that returned. -/
def enumWrites (tr : Trace) : List (String × String) :=
  tr.filterMap fun e =>
    match e with
    | ⟨.SetIntValue _ node entry, .done⟩ => some (node, entry)
    | _ => none

/-- The writes of `ConfigureTrigger` while the trigger mode is off, in the order of the
source: trigger mode off, the selector, the source, and for the source "Hardware" the
activation. -/
def pendingWrites (cfg : Config) : List (String × String) :=
  [("TriggerMode", "Off"), ("TriggerSelector", cfg.TriggerSelector.getD "FrameStart")]
    ++ (if cfg.TriggerSource.getD "Software" = "Hardware" then
          [("TriggerSource", "Line3"),
           ("TriggerActivation", cfg.TriggerActivationType.getD "RisingEdge")]
        else [("TriggerSource", "Software")])

/-- The writes of a run of `ConfigureTrigger` that returns 0: those of `pendingWrites`,
then trigger mode on. -/
def triggerWrites (cfg : Config) : List (String × String) :=
  pendingWrites cfg ++ [("TriggerMode", "On")]

/-- The calls made on a camera as a whole by `InitializeAndConfigure`: `Init`, `DeInit`
and `BeginAcquisition`. -/
def isCameraStep : Call → Bool
  | .Init _ => true
  | .DeInit _ => true
  | .BeginAcquisition _ => true
  | _ => false

/-- The calls of `Init`, `DeInit` and `BeginAcquisition` recorded in a history, in
order. -/
def cameraSteps (tr : Trace) : List Call :=
  (tr.map fun e => e.call).filter isCameraStep

/-- The runs of the first loop of `InitializeAndConfigure` (lines 309-317), started after
the history `tr`, in which no call raised: for the cameras `0, ..., n - 1` in this order,
`Init` and then a run of `ConfigureTrigger` that returned; with the codes that the runs of
`ConfigureTrigger` returned, in order, and the events of the loop. -/
inductive ConfiguredRun (env : Env) (cfg : Config) (tr : Trace) :
    Nat → List Int → Trace → Prop where
  | nil : ConfiguredRun env cfg tr 0 [] []
  | snoc (n : Nat) (codes : List Int) (out : Trace) (code : Int) (cext : Trace)
      (h : ConfiguredRun env cfg tr n codes out)
      (hc : ConfigureTrigger env n cfg (tr ++ out ++ [⟨.Init n, .done⟩])
        = .ok code (tr ++ out ++ [⟨.Init n, .done⟩] ++ cext)) :
      ConfiguredRun env cfg tr (n + 1) (codes ++ [code])
        (out ++ [⟨.Init n, .done⟩] ++ cext)

/-- The number that a string of decimal digits denotes. -/
def decimalValue (ds : List Char) : Nat :=
  ds.foldl (fun acc c => acc * 10 + (c.toNat - 48)) 0

end acquireImages

namespace emulateTrigger

/-! ## The pulse emitter `demo/emulateTrigger/emulateTrigger.cpp` -/

/-- The two levels of a pin: `PI_HIGH` and `PI_LOW`. -/
inductive Level where
  | high
  | low
  deriving DecidableEq

/-- The calls of the pulse emitter to the GPIO library and to the C++ library.  A
`gpioSetMode` is always to `PI_OUTPUT`, the only mode the program uses. -/
inductive Call where
  | gpioInitialise
  | gpioSetMode (pin : Nat)
  | gpioWrite (pin : Nat) (level : Level)
  | sleep_for (ms : Nat)
  | gpioTerminate
  deriving DecidableEq

/-- The macro `PIN` (line 23). -/
def PIN : Nat := 18

/-- The macro `N_SIGNALS` (line 24). -/
def N_SIGNALS : Nat := 10

/-- Source: `sendSignal` (emulateTrigger.cpp, lines 27-42): the calls it makes.  The
parameter `length` is an `unsigned int` and `length/2` is the integer division. -/
def sendSignal (pin length : Nat) : List Call :=
  [.gpioWrite pin .high, .sleep_for (length / 2), .gpioWrite pin .low,
   .sleep_for (length / 2)]

/-- What `json::parse` (line 65) finds in the configuration file: text that is not JSON,
on which the parser raises `parse_error`; the JSON value `null`; another JSON value that
is not an object, on which the subscript of line 72 raises `type_error`; or an object.  Of
an object only the key `TriggerTiming` is used: `none` when it is absent, null or not a
number, on which the conversion of line 77 raises `type_error`, and otherwise the number
it holds, read as a natural number. -/
inductive ConfigFile where
  | unparsable
  | null
  | other
  | object (TriggerTiming : Option Nat)
  deriving DecidableEq

/-- How `main` ends: it returns a code, or it is left by an exception of the JSON
library, which nothing catches; in both cases with the calls made so far. -/
inductive Outcome where
  | returned (code : Int) (calls : List Call)
  | uncaught (calls : List Call)
  deriving DecidableEq

/-- Lines 75-83 of `main`: the `for` loop with `remaining` iterations to go, after the
calls `calls`, then `gpioTerminate` and `return 0`.  Every iteration converts
`configJson["TriggerTiming"]` to the `unsigned int` parameter of `sendSignal`, which
takes the number modulo `2^32`. -/
def sendSignals (timing : Option Nat) : Nat → List Call → Outcome
  | 0, calls => .returned 0 (calls ++ [.gpioTerminate])
  | remaining + 1, calls =>
    match timing with
    | none => .uncaught calls
    | some p => sendSignals timing remaining (calls ++ sendSignal PIN (p % 4294967296))

/-- Source: `main` (emulateTrigger.cpp, lines 46-84), for the value `initialised` that
`gpioInitialise` returns and the content `file` of the configuration file. -/
def main (initialised : Int) (file : ConfigFile) : Outcome :=
  if initialised < 0 then .returned (-1) [.gpioInitialise]
  else
    match file with
    | .unparsable => .uncaught [.gpioInitialise, .gpioSetMode PIN]
    | .null => .returned (-1) [.gpioInitialise, .gpioSetMode PIN]
    | .other => .uncaught [.gpioInitialise, .gpioSetMode PIN]
    | .object timing => sendSignals timing N_SIGNALS [.gpioInitialise, .gpioSetMode PIN]

/-- The levels written to a pin in a sequence of calls, in order. -/
def pinWrites (pin : Nat) (calls : List Call) : List Level :=
  calls.filterMap fun c =>
    match c with
    | .gpioWrite q level => if q = pin then some level else none
    | _ => none

/-- One cycle of the emitter on pin `PIN` for the period `p`: high, hold for `p / 2`
milliseconds, low, hold for `p / 2` milliseconds. -/
def cycle (p : Nat) : List Call :=
  [.gpioWrite PIN .high, .sleep_for (p / 2), .gpioWrite PIN .low, .sleep_for (p / 2)]

end emulateTrigger

namespace prepareCamera

/-! ## The camera preparation `demo/prepareCamera.cpp`: `prepareCameras` -/

/-- A C++ `double`, kept as its 64 bit pattern (IEEE 754): the program only passes such
values on to the setter functions. -/
structure Double where
  bits : Nat
  deriving DecidableEq

/-- The `double` -1, the default of the trigger delay (line 1097). -/
def Double.minusOne : Double :=
  ⟨0xBFF0000000000000⟩

/-- A key of a camera entry that the program tests with `is_null()` and `is_number()`
(`Exposure`, `Gain`): absent or null, a number, or another JSON value. -/
inductive NumberField where
  | absent
  | number (x : Double)
  | other
  deriving DecidableEq

/-- One value of the mapping `Cameras` of the configuration file, a JSON object.  A key
that is absent or null is `none` (for `InUse`: also a value that is not a boolean, and for
`DeviceID`: also a value that is not a string); the other keys hold a value of the type
the program converts them to. -/
structure CameraEntry where
  DeviceID : Option String
  InUse : Option Bool
  AcquisitionMode : Option String
  Exposure : NumberField
  Gain : NumberField
  PixelFormat : Option String
  OffsetX : Option Int
  OffsetY : Option Int
  Width : Option Int
  Height : Option Int
  AdcBitDepth : Option String
  SensorShutterMode : Option String
  TriggerSource : Option String
  TriggerSelector : Option String
  TriggerActivation : Option String
  TriggerOverlap : Option String
  TriggerDelay : Option Double
  StreamBufferHandlingMode : Option String
  deriving DecidableEq

/-- What `json::parse` (line 971) finds in the configuration file: text that is not
JSON, on which the parser raises `parse_error`; the JSON value `null`; another JSON value
that is not an object, on which the subscript of line 974 raises `type_error`; or an
object, of which the mapping `Cameras` is kept as the list of its keys and values in the
order of iteration (empty when the key is absent). -/
inductive ConfigFile where
  | unparsable
  | null
  | other
  | object (cameras : List (String × CameraEntry))

/-- The calls of `prepareCameras` to the camera SDK and to the setter functions of the
same file, and the calls of the setter functions to the SDK.  A camera is named by its
index in the camera list.  In `prepareCameras` the call of a setter function stands for
the whole run of the function with these arguments.  `EntryIsReadable` is `IsReadable` on
an enumeration entry; `SetValue` writes an integer node and `SetFloatValue` a float
node. -/
inductive Call where
  | Init (cam : Nat)
  | GetNode (cam : Nat) (name : String)
  | IsReadable (cam : Nat) (name : String)
  | IsWritable (cam : Nat) (name : String)
  | GetValue (cam : Nat) (name : String)
  | GetMin (cam : Nat) (name : String)
  | GetMax (cam : Nat) (name : String)
  | GetInc (cam : Nat) (name : String)
  | SetValue (cam : Nat) (name : String) (value : Int)
  | SetFloatValue (cam : Nat) (name : String) (value : Double)
  | EntryIsReadable (cam : Nat) (node entry : String)
  | configureAcquisition (cam : Nat) (acquisitionMode : String)
  | setExposure (cam : Nat) (exposureTime : Double)
  | ResetExposure (cam : Nat)
  | setGain (cam : Nat) (gain : Double)
  | ResetGain (cam : Nat)
  | setPixelFormat (cam : Nat) (pixelFormat : String)
  | setOffsetX (cam : Nat) (offset : Int)
  | setOffsetY (cam : Nat) (offset : Int)
  | setWidth (cam : Nat) (width : Int)
  | setHeight (cam : Nat) (height : Int)
  | setADCBitDepth (cam : Nat) (bitDepth : String)
  | setShutterMode (cam : Nat) (shutterMode : String)
  | setTrigger (cam : Nat) (source triggerType activation overlap : String) (delay : Double)
  | enableChunkData (cam : Nat)
  | setBufferHandlingMode (cam : Nat) (bufferHandlingMode : String)
  | GetEntryByName (cam : Nat) (node entry : String)
  | EntryGetValue (cam : Nat) (node entry : String)
  | SetIntValue (cam : Nat) (node entry : String)
  | Execute (cam : Nat) (name : String)
  | GetSymbolic (cam : Nat) (node entry : String)
  | DeInit (cam : Nat)
  deriving DecidableEq

/-- How a call ended: it returned, it raised `Spinnaker::Exception`, or it returned a
truth value, a string, an integer (the code that a setter function returns, or the value
of an integer node) or a `double`. -/
inductive Answer where
  | done
  | raised
  | bool (b : Bool)
  | string (s : String)
  | int (v : Int)
  | double (x : Double)
  deriving DecidableEq

/-- One entry of the trace: a call and how it ended. -/
structure Event where
  call : Call
  answer : Answer
  deriving DecidableEq

/-- The history of a run, oldest event first. -/
abbrev Trace := List Event

/-- The outside world: whether a call made after a history raises
`Spinnaker::Exception`, what `IsReadable` and `IsWritable` return, what `GetValue`
returns on a string node, which code a setter function returns and what `GetMin`,
`GetMax`, `GetInc` and `GetValue` return on an integer node, and what `GetMin` and
`GetMax` return on a float node. -/
structure Env where
  throws : Trace → Call → Bool
  answerBool : Trace → Call → Bool
  answerString : Trace → Call → String
  answerInt : Trace → Call → Int
  answerDouble : Trace → Call → Double

/-- What ends a piece of the program early: an exception of the camera SDK, which the
`catch` blocks handle; an exception of the JSON library, which nothing handles; and an
integer division by zero, which is no C++ exception (the behaviour is undefined, in
practice the process is killed) and which no `catch` block handles. -/
inductive Exn where
  | Spinnaker
  | Json
  | Arithmetic
  deriving DecidableEq

/-- What running a piece of the program gives: a value, or an exception in flight; in
both cases with the history up to that point. -/
inductive Res (α : Type) where
  | ok (val : α) (tr : Trace)
  | raise (e : Exn) (tr : Trace)
  deriving DecidableEq

/-- The history at the end of a run. -/
def Res.trace {α : Type} : Res α → Trace
  | .ok _ tr => tr
  | .raise _ tr => tr

/-- A piece of program: from the history so far to its result. -/
def Prog (α : Type) : Type := Trace → Res α

/-- Continue after a result: an exception in flight skips the continuation. -/
def Res.andThen {α β : Type} (r : Res α) (f : α → Prog β) : Res β :=
  match r with
  | .ok a tr1 => f a tr1
  | .raise e tr1 => .raise e tr1

instance : Monad Prog where
  pure := fun a tr => .ok a tr
  bind := fun m f tr => (m tr).andThen f

/-- A call that can raise `Spinnaker::Exception`: an SDK call, or a setter function
without a `try` block of its own. -/
def sdk (env : Env) (c : Call) : Prog Unit :=
  fun tr =>
    if env.throws tr c then .raise .Spinnaker (tr ++ [⟨c, .raised⟩])
    else .ok () (tr ++ [⟨c, .done⟩])

/-- A call that can raise `Spinnaker::Exception` and returns an integer: a read of an
integer node, or a setter function without a `try` block of its own
(`configureAcquisition`, `setShutterMode`, `setBufferHandlingMode`), which returns its
code. -/
def sdkInt (env : Env) (c : Call) : Prog Int :=
  fun tr =>
    if env.throws tr c then .raise .Spinnaker (tr ++ [⟨c, .raised⟩])
    else .ok (env.answerInt tr c) (tr ++ [⟨c, .int (env.answerInt tr c)⟩])

/-- A call that can raise `Spinnaker::Exception` and returns a `double`: a read of a
float node. -/
def sdkDouble (env : Env) (c : Call) : Prog Double :=
  fun tr =>
    if env.throws tr c then .raise .Spinnaker (tr ++ [⟨c, .raised⟩])
    else .ok (env.answerDouble tr c) (tr ++ [⟨c, .double (env.answerDouble tr c)⟩])

/-- A call of a setter function whose whole body is a `try` block that catches
`Spinnaker::Exception`: it always returns, and the event records the code it returned. -/
def setter (env : Env) (c : Call) : Prog Int :=
  fun tr => .ok (env.answerInt tr c) (tr ++ [⟨c, .int (env.answerInt tr c)⟩])

/-- A predicate of the SDK: it is recorded with the truth value it returns. -/
def ask (env : Env) (c : Call) : Prog Bool :=
  fun tr => .ok (env.answerBool tr c) (tr ++ [⟨c, .bool (env.answerBool tr c)⟩])

/-- An SDK call that returns a string, or raises. -/
def sdkString (env : Env) (c : Call) : Prog String :=
  fun tr =>
    if env.throws tr c then .raise .Spinnaker (tr ++ [⟨c, .raised⟩])
    else .ok (env.answerString tr c) (tr ++ [⟨c, .string (env.answerString tr c)⟩])

/-- An exception of the JSON library is raised. -/
def raiseJson {α : Type} : Prog α :=
  fun tr => .raise .Json tr

/-- The block `try body catch (Spinnaker::Exception&) handler`. -/
def tryCatchSpinnaker {α : Type} (body : Prog α) (handler : Prog α) : Prog α :=
  fun tr =>
    match body tr with
    | .ok a tr1 => .ok a tr1
    | .raise .Spinnaker tr1 => handler tr1
    | .raise .Json tr1 => .raise .Json tr1
    | .raise .Arithmetic tr1 => .raise .Arithmetic tr1

/-- How the body of the `for` loop over the cameras ends: the loop goes on to the next
camera (the end of the body, or `continue`), or `prepareCameras` returns a code. -/
inductive Step where
  | next
  | exit (code : Int)
  deriving DecidableEq

/-- Lines 978-991: the camera is initialised and its serial number is read from the node
"DeviceSerialNumber"; `none` when the node is not readable, where the source returns
-1. -/
def readSerial (env : Env) (i : Nat) : Prog (Option String) := do
  sdk env (.Init i)
  sdk env (.GetNode i "DeviceSerialNumber")
  let readable ← ask env (.IsReadable i "DeviceSerialNumber")
  (if readable then do
    let deviceSerialNumber ← sdkString env (.GetValue i "DeviceSerialNumber")
    pure (some deviceSerialNumber)
  else pure none)

/-- Lines 993-1002: the loop over the mapping `Cameras`.  An entry is taken when its key
`DeviceID` equals the serial number of the camera; the key of the entry in the mapping is
only printed.  A later entry that matches replaces an earlier one; `none` is the JSON
null that `currentCam` holds when no entry matched. -/
def selectCamera (cameras : List (String × CameraEntry)) (deviceSerialNumber : String) :
    Option CameraEntry :=
  cameras.foldl
    (fun currentCam it =>
      if it.2.DeviceID = some deviceSerialNumber then some it.2 else currentCam)
    none

/-- Lines 1027-1048: a key that holds a number is passed to the setter, a key that holds
another value resets the attribute to automatic, an absent key does nothing.  The code
that the setter returns is dropped. -/
def setOrReset (env : Env) (field : NumberField) (set : Double → Call) (reset : Call) :
    Prog Unit :=
  match field with
  | .absent => pure ()
  | .number x => do
    let _ ← setter env (set x)
    pure ()
  | .other => do
    let _ ← setter env reset
    pure ()

/-- The pattern `if (!currentCam[key].is_null()) setX(nodeMap, currentCam[key])` of lines
1049-1080 for a setter with a `try` block of its own.  The code that the setter returns
is dropped. -/
def setIfPresent {α : Type} (env : Env) (field : Option α) (set : α → Call) : Prog Unit :=
  match field with
  | none => pure ()
  | some v => do
    let _ ← setter env (set v)
    pure ()

/-- The same pattern for a setter without a `try` block (`setShutterMode`,
`setBufferHandlingMode`), whose SDK exceptions reach the caller.  The code that the setter
returns is dropped. -/
def callIfPresent {α : Type} (env : Env) (field : Option α) (set : α → Call) : Prog Unit :=
  match field with
  | none => pure ()
  | some v => do
    let _ ← sdkInt env (set v)
    pure ()

/-- Lines 1019-1120: the settings of the entry `currentCam` are applied to camera `i`,
the settings are saved to the user set "UserSet0", which is made the default, and the
camera is deinitialised.  No setter function has its return code looked at. -/
def applySettings (env : Env) (i : Nat) (currentCam : CameraEntry) : Prog Step := do
  let _ ← sdkInt env
    (.configureAcquisition i (currentCam.AcquisitionMode.getD "Continuous"))
  setOrReset env currentCam.Exposure (.setExposure i) (.ResetExposure i)
  setOrReset env currentCam.Gain (.setGain i) (.ResetGain i)
  setIfPresent env currentCam.PixelFormat (.setPixelFormat i)
  setIfPresent env currentCam.OffsetX (.setOffsetX i)
  setIfPresent env currentCam.OffsetY (.setOffsetY i)
  setIfPresent env currentCam.Width (.setWidth i)
  setIfPresent env currentCam.Height (.setHeight i)
  setIfPresent env currentCam.AdcBitDepth (.setADCBitDepth i)
  callIfPresent env currentCam.SensorShutterMode (.setShutterMode i)
  let _ ← setter env (.setTrigger i (currentCam.TriggerSource.getD "")
    (currentCam.TriggerSelector.getD "") (currentCam.TriggerActivation.getD "")
    (currentCam.TriggerOverlap.getD "") (currentCam.TriggerDelay.getD Double.minusOne))
  let _ ← setter env (.enableChunkData i)
  callIfPresent env currentCam.StreamBufferHandlingMode (.setBufferHandlingMode i)
  sdk env (.GetNode i "UserSetSelector")
  sdk env (.GetEntryByName i "UserSetSelector" "UserSet0")
  sdk env (.EntryGetValue i "UserSetSelector" "UserSet0")
  sdk env (.SetIntValue i "UserSetSelector" "UserSet0")
  sdk env (.GetNode i "UserSetSave")
  sdk env (.Execute i "UserSetSave")
  sdk env (.GetNode i "UserSetDefault")
  sdk env (.GetEntryByName i "UserSetDefault" "UserSet0")
  sdk env (.EntryGetValue i "UserSetDefault" "UserSet0")
  sdk env (.SetIntValue i "UserSetDefault" "UserSet0")
  sdk env (.GetSymbolic i "UserSetDefault" "UserSet0")
  sdk env (.DeInit i)
  pure .next

/-- Lines 1008-1120: the test of `InUse` and what follows it.  A value that is not a
boolean skips the camera (line 1012).  For a boolean, lines 1015-1017 print a message
when it is false and do nothing else: there is no `continue`, and the settings are applied
for `false` as for `true`. -/
def configureCamera (env : Env) (i : Nat) (currentCam : CameraEntry) : Prog Step :=
  match currentCam.InUse with
  | none => pure .next
  | some _ => applySettings env i currentCam

/-- The body of the `for` loop of `prepareCameras` for camera `i` (lines 978-1120). -/
def cameraPass (env : Env) (cameras : List (String × CameraEntry)) (i : Nat) :
    Prog Step := do
  let serial ← readSerial env i
  match serial with
  | none => pure (.exit (-1))
  | some deviceSerialNumber =>
    match selectCamera cameras deviceSerialNumber with
    | none => pure .next
    | some currentCam => configureCamera env i currentCam

/-- The `for` loop of lines 976-1121 over the cameras `0, ..., numCameras - 1`.  The
recursion peels off the last camera; a `return` in the body of an earlier camera ends the
loop. -/
def prepareEach (env : Env) (cameras : List (String × CameraEntry)) : Nat → Prog Step
  | 0 => pure .next
  | n + 1 => do
    let step ← prepareEach env cameras n
    match step with
    | .exit code => pure (.exit code)
    | .next => cameraPass env cameras n

/-- Source: `prepareCameras` (prepareCamera.cpp, lines 968-1134), for `numCameras`
cameras in the list and the content `file` of the configuration file.  The `try` block
surrounds the loop over the cameras; the variable `result` is never changed, so the
function returns 0 unless it returns -1 from inside the loop or from the `catch`
block. -/
def prepareCameras (env : Env) (numCameras : Nat) (file : ConfigFile) : Prog Int :=
  match file with
  | .unparsable => raiseJson
  | .null => pure 0
  | .other => raiseJson
  | .object cameras =>
    tryCatchSpinnaker
      (do
        let step ← prepareEach env cameras numCameras
        match step with
        | .exit code => pure code
        | .next => pure 0)
      (pure (-1))

/-! ## Sample environment and configurations -/

/-- An environment in which no call raises, every node is readable and writable, every
camera has the serial number "21234567", every setter function returns 0, every integer
node reads 0 and every float node reads +0. -/
def quietEnv : Env where
  throws := fun _ _ => false
  answerBool := fun _ _ => true
  answerString := fun _ _ => "21234567"
  answerInt := fun _ _ => 0
  answerDouble := fun _ _ => ⟨0⟩

/-- A camera entry without any key. -/
def emptyEntry : CameraEntry where
  DeviceID := none
  InUse := none
  AcquisitionMode := none
  Exposure := .absent
  Gain := .absent
  PixelFormat := none
  OffsetX := none
  OffsetY := none
  Width := none
  Height := none
  AdcBitDepth := none
  SensorShutterMode := none
  TriggerSource := none
  TriggerSelector := none
  TriggerActivation := none
  TriggerOverlap := none
  TriggerDelay := none
  StreamBufferHandlingMode := none

/-- An entry for the device "21234567", in use, with the pixel format "Mono8". -/
def sampleEntry : CameraEntry :=
  { emptyEntry with DeviceID := some "21234567", InUse := some true,
                    PixelFormat := some "Mono8" }

/-- The events of `readSerial` for camera 0 in `quietEnv`. -/
def serialRead : Trace :=
  [⟨.Init 0, .done⟩, ⟨.GetNode 0 "DeviceSerialNumber", .done⟩,
   ⟨.IsReadable 0 "DeviceSerialNumber", .bool true⟩,
   ⟨.GetValue 0 "DeviceSerialNumber", .string "21234567"⟩]

/-- The events of `applySettings` for camera 0 and `sampleEntry` in `quietEnv`. -/
def sampleSettings : Trace :=
  [⟨.configureAcquisition 0 "Continuous", .int 0⟩,
   ⟨.setPixelFormat 0 "Mono8", .int 0⟩,
   ⟨.setTrigger 0 "" "" "" "" Double.minusOne, .int 0⟩,
   ⟨.enableChunkData 0, .int 0⟩,
   ⟨.GetNode 0 "UserSetSelector", .done⟩,
   ⟨.GetEntryByName 0 "UserSetSelector" "UserSet0", .done⟩,
   ⟨.EntryGetValue 0 "UserSetSelector" "UserSet0", .done⟩,
   ⟨.SetIntValue 0 "UserSetSelector" "UserSet0", .done⟩,
   ⟨.GetNode 0 "UserSetSave", .done⟩,
   ⟨.Execute 0 "UserSetSave", .done⟩,
   ⟨.GetNode 0 "UserSetDefault", .done⟩,
   ⟨.GetEntryByName 0 "UserSetDefault" "UserSet0", .done⟩,
   ⟨.EntryGetValue 0 "UserSetDefault" "UserSet0", .done⟩,
   ⟨.SetIntValue 0 "UserSetDefault" "UserSet0", .done⟩,
   ⟨.GetSymbolic 0 "UserSetDefault" "UserSet0", .done⟩,
   ⟨.DeInit 0, .done⟩]

/-- The calls of the configuration steps of `applySettings` for camera `i` and the entry
`currentCam`, in the order of lines 1019-1107: one call of a setter function per step
that the entry asks for. -/
def stepCalls (i : Nat) (currentCam : CameraEntry) : List Call :=
  [.configureAcquisition i (currentCam.AcquisitionMode.getD "Continuous")]
    ++ (match currentCam.Exposure with
        | .absent => []
        | .number x => [.setExposure i x]
        | .other => [.ResetExposure i])
    ++ (match currentCam.Gain with
        | .absent => []
        | .number x => [.setGain i x]
        | .other => [.ResetGain i])
    ++ (currentCam.PixelFormat.map (Call.setPixelFormat i)).toList
    ++ (currentCam.OffsetX.map (Call.setOffsetX i)).toList
    ++ (currentCam.OffsetY.map (Call.setOffsetY i)).toList
    ++ (currentCam.Width.map (Call.setWidth i)).toList
    ++ (currentCam.Height.map (Call.setHeight i)).toList
    ++ (currentCam.AdcBitDepth.map (Call.setADCBitDepth i)).toList
    ++ (currentCam.SensorShutterMode.map (Call.setShutterMode i)).toList
    ++ [.setTrigger i (currentCam.TriggerSource.getD "")
          (currentCam.TriggerSelector.getD "") (currentCam.TriggerActivation.getD "")
          (currentCam.TriggerOverlap.getD "") (currentCam.TriggerDelay.getD Double.minusOne),
        .enableChunkData i]
    ++ (currentCam.StreamBufferHandlingMode.map (Call.setBufferHandlingMode i)).toList

/-- The events of lines 1108-1118 when every call returns: the settings are saved to
"UserSet0", "UserSet0" is made the default, and the camera is deinitialised. -/
def savedAndClosed (i : Nat) : Trace :=
  [⟨.GetNode i "UserSetSelector", .done⟩,
   ⟨.GetEntryByName i "UserSetSelector" "UserSet0", .done⟩,
   ⟨.EntryGetValue i "UserSetSelector" "UserSet0", .done⟩,
   ⟨.SetIntValue i "UserSetSelector" "UserSet0", .done⟩,
   ⟨.GetNode i "UserSetSave", .done⟩,
   ⟨.Execute i "UserSetSave", .done⟩,
   ⟨.GetNode i "UserSetDefault", .done⟩,
   ⟨.GetEntryByName i "UserSetDefault" "UserSet0", .done⟩,
   ⟨.EntryGetValue i "UserSetDefault" "UserSet0", .done⟩,
   ⟨.SetIntValue i "UserSetDefault" "UserSet0", .done⟩,
   ⟨.GetSymbolic i "UserSetDefault" "UserSet0", .done⟩,
   ⟨.DeInit i, .done⟩]

/-- The runs of a list of setter calls after the history `tr`, each call answered with
the code the environment gives it after the events before it. -/
def codedRun (env : Env) (tr : Trace) : List Call → Trace
  | [] => []
  | c :: rest => ⟨c, .int (env.answerInt tr c)⟩
      :: codedRun env (tr ++ [⟨c, .int (env.answerInt tr c)⟩]) rest

/-- The statement `Shape env p calls suffix a`: run after any history, the program `p`
returns `a`, and the events it adds are the setter calls `calls`, each with the code the
environment gives it, followed by the events `suffix`. -/
def Shape {α : Type} (env : Env) (p : Prog α) (calls : List Call) (suffix : Trace)
    (a : α) : Prop :=
  ∀ tr, p tr = .ok a (tr ++ codedRun env tr calls ++ suffix)

/-- The environment `quietEnv`, except that `setPixelFormat` returns -1. -/
def pixelFormatFailsEnv : Env :=
  { quietEnv with
    answerInt := fun _ c =>
      match c with
      | .setPixelFormat _ _ => -1
      | _ => 0 }

/-- The events of `applySettings` for camera 0 and `sampleEntry` in
`pixelFormatFailsEnv`: those of `sampleSettings`, with the code -1 for `setPixelFormat`. -/
def failedSettings : Trace :=
  [⟨.configureAcquisition 0 "Continuous", .int 0⟩,
   ⟨.setPixelFormat 0 "Mono8", .int (-1)⟩,
   ⟨.setTrigger 0 "" "" "" "" Double.minusOne, .int 0⟩,
   ⟨.enableChunkData 0, .int 0⟩]
    ++ savedAndClosed 0

/-! ## The setter functions `setTrigger`, `setOffsetX`, `setOffsetY`, `setWidth`,
`setHeight` -/

/-- Whether a `double` is a NaN: the exponent bits are all 1 and the fraction is not 0. -/
def Double.isNaN (x : Double) : Bool :=
  decide (x.bits / 2 ^ 52 % 2 ^ 11 = 2047 ∧ x.bits % 2 ^ 52 ≠ 0)

/-- The place of a `double` that is not a NaN in the order of the reals: the magnitude
bits, negated when the sign bit is set, so that -0 and +0 share the place 0. -/
def Double.key (x : Double) : Int :=
  if x.bits / 2 ^ 63 % 2 = 1 then -((x.bits % 2 ^ 63 : Nat) : Int)
  else ((x.bits % 2 ^ 63 : Nat) : Int)

/-- The operator `<` of C++ on two `double` values: false when one of them is a NaN. -/
def Double.lt (x y : Double) : Bool :=
  !x.isNaN && !y.isNaN && decide (x.key < y.key)

/-- The operator `>=` of C++ on two `double` values: false when one of them is a NaN. -/
def Double.ge (x y : Double) : Bool :=
  !x.isNaN && !y.isNaN && decide (y.key ≤ x.key)

/-- The `double` +0. -/
def Double.zero : Double :=
  ⟨0⟩

/-- The condition `!IsReadable(p) || !IsWritable(p)` of the setter functions: the operator
`||` asks `IsWritable` only when `IsReadable` returned true. -/
def notAccessible (env : Env) (i : Nat) (name : String) : Prog Bool := do
  let readable ← ask env (.IsReadable i name)
  (if !readable then pure true
  else do
    let writable ← ask env (.IsWritable i name)
    pure (!writable))

/-- The pattern of `setTrigger` for writing an entry of an enumeration node: the entry
is looked up by name, `false` when it is not readable (where the source returns -1),
else its value is written to the node. -/
def writeEntry (env : Env) (i : Nat) (node entry : String) : Prog Bool := do
  sdk env (.GetEntryByName i node entry)
  let readable ← ask env (.EntryIsReadable i node entry)
  (if !readable then pure false
  else do
    sdk env (.EntryGetValue i node entry)
    sdk env (.SetIntValue i node entry)
    pure true)

/-- The pattern of `setTrigger` for an optional enumeration parameter (lines 749-790 and
816-833): the node is looked up, `false` when it is not readable and writable or the
entry is not readable (where the source returns -1), else the entry is written. -/
def writeNode (env : Env) (i : Nat) (node entry : String) : Prog Bool := do
  sdk env (.GetNode i node)
  let unusable ← notAccessible env i node
  (if unusable then pure false
  else writeEntry env i node entry)

/-- Lines 793-811 of `setTrigger`: the trigger delay; `false` where the source returns
-1.  The bound that a message prints is read from the node once more. -/
def writeDelay (env : Env) (i : Nat) (delay : Double) : Prog Bool := do
  sdk env (.GetNode i "TriggerDelay")
  let unusable ← notAccessible env i "TriggerDelay"
  (if unusable then pure false
  else do
    let min ← sdkDouble env (.GetMin i "TriggerDelay")
    (if delay.lt min then do
      let _ ← sdkDouble env (.GetMin i "TriggerDelay")
      pure false
    else do
      let max ← sdkDouble env (.GetMax i "TriggerDelay")
      (if max.lt delay then do
        let _ ← sdkDouble env (.GetMax i "TriggerDelay")
        pure false
      else do
        sdk env (.SetFloatValue i "TriggerDelay" delay)
        pure true)))

/-- Source: `setTrigger` (prepareCamera.cpp, lines 671-863), on the node map of camera
`i`.  The trigger mode is turned off first and turned on last, whatever the parameters
are; an empty string or a negative delay only skips the block of its own parameter. -/
def setTrigger (env : Env) (i : Nat) (source triggerType activation overlap : String)
    (delay : Double) : Prog Int :=
  tryCatchSpinnaker
    (do
      sdk env (.GetNode i "TriggerMode")
      let readable ← ask env (.IsReadable i "TriggerMode")
      (if !readable then pure (-1)
      else do
        let off ← writeEntry env i "TriggerMode" "Off"
        (if !off then pure (-1)
        else do
          sdk env (.GetNode i "TriggerSource")
          let unusable ← notAccessible env i "TriggerSource"
          (if unusable then pure (-1)
          else do
            let sourceSet ←
              (if source = "Software" then writeEntry env i "TriggerSource" "Software"
              else if source = "Hardware" then writeEntry env i "TriggerSource" "Line0"
              else pure true)
            (if !sourceSet then pure (-1)
            else do
              let selectorSet ←
                (if triggerType ≠ "" then writeNode env i "TriggerSelector" triggerType
                else pure true)
              (if !selectorSet then pure (-1)
              else do
                let overlapSet ←
                  (if overlap ≠ "" then writeNode env i "TriggerOverlap" overlap
                  else pure true)
                (if !overlapSet then pure (-1)
                else do
                  let delaySet ←
                    (if delay.ge Double.zero then writeDelay env i delay else pure true)
                  (if !delaySet then pure (-1)
                  else do
                    let activationSet ←
                      (if activation ≠ "" then
                        writeNode env i "TriggerActivation" activation
                      else pure true)
                    (if !activationSet then pure (-1)
                    else do
                      let enabled ← writeEntry env i "TriggerMode" "On"
                      (if !enabled then pure (-1)
                      else pure 0))))))))))
    (pure (-1))

/-- The entry that each enumeration node of camera `i` holds after a history, for nodes
that held `before`: a call of `SetIntValue` that returned stored the entry it names in
its node. -/
def enumAfter (i : Nat) (before : String → String) (tr : Trace) : String → String :=
  tr.foldl
    (fun nodes e =>
      match e with
      | ⟨.SetIntValue cam node entry, .done⟩ =>
        if cam = i then fun name => if name = node then entry else nodes name else nodes
      | _ => nodes)
    before

/-- The events of `setTrigger` for camera `i` without any trigger parameter, when no
call raises and every check succeeds. -/
def emptyTriggerRun (i : Nat) : Trace :=
  [⟨.GetNode i "TriggerMode", .done⟩,
   ⟨.IsReadable i "TriggerMode", .bool true⟩,
   ⟨.GetEntryByName i "TriggerMode" "Off", .done⟩,
   ⟨.EntryIsReadable i "TriggerMode" "Off", .bool true⟩,
   ⟨.EntryGetValue i "TriggerMode" "Off", .done⟩,
   ⟨.SetIntValue i "TriggerMode" "Off", .done⟩,
   ⟨.GetNode i "TriggerSource", .done⟩,
   ⟨.IsReadable i "TriggerSource", .bool true⟩,
   ⟨.IsWritable i "TriggerSource", .bool true⟩,
   ⟨.GetEntryByName i "TriggerMode" "On", .done⟩,
   ⟨.EntryIsReadable i "TriggerMode" "On", .bool true⟩,
   ⟨.EntryGetValue i "TriggerMode" "On", .done⟩,
   ⟨.SetIntValue i "TriggerMode" "On", .done⟩]

/-- The environment `quietEnv`, except that the node "TriggerSource" is not writable. -/
def noTriggerSourceEnv : Env :=
  { quietEnv with
    answerBool := fun _ c =>
      match c with
      | .IsWritable _ "TriggerSource" => false
      | _ => true }

/-- The events of `setTrigger` for camera 0 without any trigger parameter in
`noTriggerSourceEnv`. -/
def noTriggerSourceRun : Trace :=
  [⟨.GetNode 0 "TriggerMode", .done⟩,
   ⟨.IsReadable 0 "TriggerMode", .bool true⟩,
   ⟨.GetEntryByName 0 "TriggerMode" "Off", .done⟩,
   ⟨.EntryIsReadable 0 "TriggerMode" "Off", .bool true⟩,
   ⟨.EntryGetValue 0 "TriggerMode" "Off", .done⟩,
   ⟨.SetIntValue 0 "TriggerMode" "Off", .done⟩,
   ⟨.GetNode 0 "TriggerSource", .done⟩,
   ⟨.IsReadable 0 "TriggerSource", .bool true⟩,
   ⟨.IsWritable 0 "TriggerSource", .bool false⟩]

/-- The value of a C++ `int64_t` (two's complement) holding the mathematical integer `x`
modulo `2^64`. -/
def toInt64 (x : Int) : Int :=
  (x + 9223372036854775808) % 18446744073709551616 - 9223372036854775808

/-- The value of a C++ `int` (32 bit, two's complement) holding the mathematical integer
`x` modulo `2^32`. -/
def toInt32 (x : Int) : Int :=
  (x + 2147483648) % 4294967296 - 2147483648

/-- An integer division that the processor cannot carry out ends the run. -/
def raiseArithmetic {α : Type} : Prog α :=
  fun tr => .raise .Arithmetic tr

/-- The declaration `int incrementRemainder = (toSet - p->GetMin()) % p->GetInc();` of
the four functions (lines 317, 352, 385, 421).  The subtraction and the remainder are
those of `int64_t`, the remainder has the sign of the dividend, and the result is
narrowed to `int`.  The operands are read from left to right.  The remainder by 0, and
the one of the smallest `int64_t` by -1, end the run. -/
def incrementRemainder (env : Env) (i : Nat) (name : String) (toSet : Int) : Prog Int := do
  let min ← sdkInt env (.GetMin i name)
  let inc ← sdkInt env (.GetInc i name)
  (if inc = 0 ∨ (inc = -1 ∧ toInt64 (toSet - min) = -9223372036854775808) then
    raiseArithmetic
  else pure (toInt32 (Int.tmod (toInt64 (toSet - min)) inc)))

/-- Source: `setOffsetX` and `setOffsetY` (prepareCamera.cpp, lines 308-338 and 343-375),
which differ in the name of the node only.  A bound that replaces the offset is read from
the node once more, and the message prints it from a further read.  In the branch of
`incrementRemainder != 0` the message names the aligned value, and the offset is left as
it is. -/
def setOffset (env : Env) (i : Nat) (name : String) (offsetToSet : Int) : Prog Int :=
  tryCatchSpinnaker
    (do
      sdk env (.GetNode i name)
      let unusable ← notAccessible env i name
      (if unusable then pure (-1)
      else do
        let remainder ← incrementRemainder env i name offsetToSet
        let min ← sdkInt env (.GetMin i name)
        let written ←
          (if offsetToSet < min then do
            let bound ← sdkInt env (.GetMin i name)
            let _ ← sdkInt env (.GetMin i name)
            pure bound
          else do
            let max ← sdkInt env (.GetMax i name)
            (if offsetToSet > max then do
              let bound ← sdkInt env (.GetMax i name)
              let _ ← sdkInt env (.GetMax i name)
              pure bound
            else if remainder ≠ 0 then do
              let _ ← sdkInt env (.GetInc i name)
              pure offsetToSet
            else pure offsetToSet))
        sdk env (.SetValue i name written)
        pure 0))
    (pure (-1))

/-- Source: `setOffsetX` (prepareCamera.cpp, lines 308-338). -/
def setOffsetX (env : Env) (i : Nat) (OffsetXToSet : Int) : Prog Int :=
  setOffset env i "OffsetX" OffsetXToSet

/-- Source: `setOffsetY` (prepareCamera.cpp, lines 343-375). -/
def setOffsetY (env : Env) (i : Nat) (OffsetYToSet : Int) : Prog Int :=
  setOffset env i "OffsetY" OffsetYToSet

/-- Source: `setWidth` and `setHeight` (prepareCamera.cpp, lines 377-412 and 413-449),
which differ in the name of the node only.  The maximum is compared first.  In the branch
of `incrementRemainder != 0` the remainder is subtracted from the value, as `int64_t`.
The last message prints the value read back from the node. -/
def setExtent (env : Env) (i : Nat) (name : String) (toSet : Int) : Prog Int :=
  tryCatchSpinnaker
    (do
      sdk env (.GetNode i name)
      let unusable ← notAccessible env i name
      (if unusable then pure (-1)
      else do
        let remainder ← incrementRemainder env i name toSet
        let max ← sdkInt env (.GetMax i name)
        let written ←
          (if toSet > max then do
            let bound ← sdkInt env (.GetMax i name)
            let _ ← sdkInt env (.GetMax i name)
            pure bound
          else do
            let min ← sdkInt env (.GetMin i name)
            (if toSet < min then do
              let bound ← sdkInt env (.GetMin i name)
              let _ ← sdkInt env (.GetMin i name)
              pure bound
            else if remainder ≠ 0 then pure (toInt64 (toSet - remainder))
            else pure toSet))
        sdk env (.SetValue i name written)
        let _ ← sdkInt env (.GetValue i name)
        pure 0))
    (pure (-1))

/-- Source: `setWidth` (prepareCamera.cpp, lines 377-412). -/
def setWidth (env : Env) (i : Nat) (widthToSet : Int) : Prog Int :=
  setExtent env i "Width" widthToSet

/-- Source: `setHeight` (prepareCamera.cpp, lines 413-449). -/
def setHeight (env : Env) (i : Nat) (heightToSet : Int) : Prog Int :=
  setExtent env i "Height" heightToSet

/-- The writes to integer nodes that returned, in order: the node and the value. -/
def intWrites (tr : Trace) : List (String × Int) :=
  tr.filterMap fun e =>
    match e with
    | ⟨.SetValue _ name value, .done⟩ => some (name, value)
    | _ => none

/-- An environment in which no call raises, every node is readable and writable, and
every integer node has the minimum 8, the maximum 100 and the increment 4. -/
def boundedEnv : Env :=
  { quietEnv with
    answerInt := fun _ c =>
      match c with
      | .GetMin _ _ => 8
      | .GetMax _ _ => 100
      | .GetInc _ _ => 4
      | _ => 0 }

end prepareCamera

namespace prepareCameraTest

/-! # The preparation test `prepareCameraTest.cpp`

`ConfigureCamera` of `src/demo-usb/prepareCameraTest/prepareCameraTest.cpp`, embedded as a
function from a history of SDK calls to a result and a longer history.  The function has no
`try` block, so an exception of the SDK leaves it. -/

/-- The node maps that `ConfigureCamera` reads: `GetNodeMap` (line 22) and
`GetTLStreamNodeMap` (line 154). -/
inductive NodeMapKind where
  | camera
  | tlStream
  deriving DecidableEq, Repr

/-- The calls that `ConfigureCamera` makes on the camera it is given.  Nodes and entries
are named by the string they were looked up with; `CurrentIsAvailable` and
`CurrentIsReadable` are the checks on the entry that `GetCurrentEntry` returned. -/
inductive Call where
  | GetNode (map : NodeMapKind) (name : String)
  | IsAvailable (name : String)
  | IsReadable (name : String)
  | IsWritable (name : String)
  | GetEntryByName (node entry : String)
  | EntryIsAvailable (node entry : String)
  | EntryIsReadable (node entry : String)
  | EntryGetValue (node entry : String)
  | SetIntValue (node entry : String)
  | SetValue (node : String) (value : Int)
  | GetCurrentEntry (node : String)
  | CurrentIsAvailable (node : String)
  | CurrentIsReadable (node : String)
  deriving DecidableEq, Repr

/-- How a call ended: it returned, it raised a `Spinnaker::Exception`, or it returned a
boolean. -/
inductive Answer where
  | done
  | raised
  | bool (b : Bool)
  deriving DecidableEq, Repr

/-- A call together with the way it ended. -/
structure Event where
  call : Call
  answer : Answer
  deriving DecidableEq, Repr

/-- The history of calls, oldest first. -/
abbrev Trace := List Event

/-- The camera and the SDK: after a history, whether a call raises and what a check
answers. -/
structure Env where
  throws : Trace → Call → Bool
  answerBool : Trace → Call → Bool

/-- The result of a run: a value, or an exception that left the code, each with the
history at that point. -/
inductive Res (α : Type) where
  | ok (a : α) (tr : Trace)
  | raise (tr : Trace)
  deriving DecidableEq, Repr

/-- The history at the end of a run. -/
def Res.trace {α : Type} : Res α → Trace
  | .ok _ tr => tr
  | .raise tr => tr

/-- A piece of code: run after a history, it gives a result. -/
def Prog (α : Type) : Type := Trace → Res α

/-- Sequencing: an exception ends the run. -/
def Res.andThen {α β : Type} (r : Res α) (f : α → Prog β) : Res β :=
  match r with
  | .ok a tr => f a tr
  | .raise tr => .raise tr

instance : Monad Prog where
  pure a := fun tr => .ok a tr
  bind m f := fun tr => (m tr).andThen f

/-- A call of the SDK that can raise an exception. -/
def sdk (env : Env) (c : Call) : Prog Unit :=
  fun tr =>
    if env.throws tr c then .raise (tr ++ [⟨c, .raised⟩])
    else .ok () (tr ++ [⟨c, .done⟩])

/-- A check that returns a boolean. -/
def ask (env : Env) (c : Call) : Prog Bool :=
  fun tr =>
    let b := env.answerBool tr c
    .ok b (tr ++ [⟨c, .bool b⟩])

/-- The condition `!first(p) || !second(p)` of the `if` statements of `ConfigureCamera`:
the operator `||` asks the second check only when the first one returned true. -/
def notUsable (env : Env) (first second : Call) : Prog Bool := do
  let a ← ask env first
  (if !a then pure true
  else do
    let b ← ask env second
    pure (!b))

/-- Source: `ConfigureCamera` (prepareCameraTest.cpp, lines 20-171).  The condition of
line 108, after the node "TriggerDelay" was looked up in line 107, is the one of line 96:
it checks `ptrTriggerActivation`. -/
def ConfigureCamera (env : Env) : Prog Int := do
  sdk env (.GetNode .camera "TriggerMode")
  let noMode ← notUsable env (.IsAvailable "TriggerMode") (.IsReadable "TriggerMode")
  (if noMode then pure (-1)
  else do
    sdk env (.GetEntryByName "TriggerMode" "Off")
    let noOff ← notUsable env (.EntryIsAvailable "TriggerMode" "Off")
      (.EntryIsReadable "TriggerMode" "Off")
    (if noOff then pure (-1)
    else do
      sdk env (.EntryGetValue "TriggerMode" "Off")
      sdk env (.SetIntValue "TriggerMode" "Off")
      sdk env (.GetNode .camera "TriggerSelector")
      let noSelector ← notUsable env (.IsAvailable "TriggerSelector")
        (.IsWritable "TriggerSelector")
      (if noSelector then pure (-1)
      else do
        sdk env (.GetEntryByName "TriggerSelector" "FrameStart")
        let noFrameStart ← notUsable env (.EntryIsAvailable "TriggerSelector" "FrameStart")
          (.EntryIsReadable "TriggerSelector" "FrameStart")
        (if noFrameStart then pure (-1)
        else do
          sdk env (.EntryGetValue "TriggerSelector" "FrameStart")
          sdk env (.SetIntValue "TriggerSelector" "FrameStart")
          sdk env (.GetNode .camera "TriggerSource")
          let noSource ← notUsable env (.IsAvailable "TriggerSource")
            (.IsWritable "TriggerSource")
          (if noSource then pure (-1)
          else do
            sdk env (.GetEntryByName "TriggerSource" "Line3")
            let noLine3 ← notUsable env (.EntryIsAvailable "TriggerSource" "Line3")
              (.EntryIsReadable "TriggerSource" "Line3")
            (if noLine3 then pure (-1)
            else do
              sdk env (.EntryGetValue "TriggerSource" "Line3")
              sdk env (.SetIntValue "TriggerSource" "Line3")
              sdk env (.GetNode .camera "TriggerActivation")
              let noActivation ← notUsable env (.IsAvailable "TriggerActivation")
                (.IsWritable "TriggerActivation")
              (if noActivation then pure (-1)
              else do
                sdk env (.GetEntryByName "TriggerActivation" "RisingEdge")
                sdk env (.EntryGetValue "TriggerActivation" "RisingEdge")
                sdk env (.SetIntValue "TriggerActivation" "RisingEdge")
                sdk env (.GetNode .camera "TriggerDelay")
                let noDelay ← notUsable env (.IsAvailable "TriggerActivation")
                  (.IsWritable "TriggerActivation")
                (if noDelay then pure (-1)
                else do
                  sdk env (.SetValue "TriggerDelay" 65520)
                  sdk env (.GetEntryByName "TriggerMode" "On")
                  let noOn ← notUsable env (.EntryIsAvailable "TriggerMode" "On")
                    (.EntryIsReadable "TriggerMode" "On")
                  (if noOn then pure (-1)
                  else do
                    sdk env (.EntryGetValue "TriggerMode" "On")
                    sdk env (.SetIntValue "TriggerMode" "On")
                    sdk env (.GetNode .camera "AcquisitionMode")
                    let noAcquisition ← notUsable env (.IsAvailable "AcquisitionMode")
                      (.IsWritable "AcquisitionMode")
                    (if noAcquisition then pure (-1)
                    else do
                      sdk env (.GetEntryByName "AcquisitionMode" "Continuous")
                      let noContinuous ← notUsable env
                        (.EntryIsAvailable "AcquisitionMode" "Continuous")
                        (.EntryIsReadable "AcquisitionMode" "Continuous")
                      (if noContinuous then pure (-1)
                      else do
                        sdk env (.EntryGetValue "AcquisitionMode" "Continuous")
                        sdk env (.SetIntValue "AcquisitionMode" "Continuous")
                        sdk env (.GetNode .tlStream "StreamBufferHandlingMode")
                        let noHandling ← notUsable env
                          (.IsAvailable "StreamBufferHandlingMode")
                          (.IsWritable "StreamBufferHandlingMode")
                        (if noHandling then pure (-1)
                        else do
                          sdk env (.GetCurrentEntry "StreamBufferHandlingMode")
                          let noCurrent ← notUsable env
                            (.CurrentIsAvailable "StreamBufferHandlingMode")
                            (.CurrentIsReadable "StreamBufferHandlingMode")
                          (if noCurrent then pure (-1)
                          else do
                            sdk env (.GetEntryByName "StreamBufferHandlingMode" "OldestFirst")
                            sdk env (.EntryGetValue "StreamBufferHandlingMode" "OldestFirst")
                            sdk env (.SetIntValue "StreamBufferHandlingMode" "OldestFirst")
                            pure 0)))))))))))))

/-- The statement `Adds p P`: run after any history, the program `p` only adds events,
and every event it adds satisfies `P`, whether it returns or is left by an exception. -/
def Adds {α : Type} (p : Prog α) (P : Event → Prop) : Prop :=
  ∀ tr, ∃ ext, (p tr).trace = tr ++ ext ∧ ∀ e ∈ ext, P e

/-- An event asks whether the node "TriggerDelay" can be used. -/
def checksDelayNode (e : Event) : Prop :=
  e.call = .IsAvailable "TriggerDelay" ∨ e.call = .IsReadable "TriggerDelay"
    ∨ e.call = .IsWritable "TriggerDelay"

/-- An environment in which no call raises and every check answers true, except the
checks of the node "TriggerDelay": that node is not available, not readable and not
writable. -/
def noDelayNodeEnv : Env where
  throws := fun _ _ => false
  answerBool := fun _ c =>
    match c with
    | .IsAvailable "TriggerDelay" => false
    | .IsReadable "TriggerDelay" => false
    | .IsWritable "TriggerDelay" => false
    | _ => true

/-- The run of `ConfigureCamera` in `noDelayNodeEnv`. -/
def noDelayNodeRun : Trace :=
  [⟨.GetNode .camera "TriggerMode", .done⟩,
   ⟨.IsAvailable "TriggerMode", .bool true⟩,
   ⟨.IsReadable "TriggerMode", .bool true⟩,
   ⟨.GetEntryByName "TriggerMode" "Off", .done⟩,
   ⟨.EntryIsAvailable "TriggerMode" "Off", .bool true⟩,
   ⟨.EntryIsReadable "TriggerMode" "Off", .bool true⟩,
   ⟨.EntryGetValue "TriggerMode" "Off", .done⟩,
   ⟨.SetIntValue "TriggerMode" "Off", .done⟩,
   ⟨.GetNode .camera "TriggerSelector", .done⟩,
   ⟨.IsAvailable "TriggerSelector", .bool true⟩,
   ⟨.IsWritable "TriggerSelector", .bool true⟩,
   ⟨.GetEntryByName "TriggerSelector" "FrameStart", .done⟩,
   ⟨.EntryIsAvailable "TriggerSelector" "FrameStart", .bool true⟩,
   ⟨.EntryIsReadable "TriggerSelector" "FrameStart", .bool true⟩,
   ⟨.EntryGetValue "TriggerSelector" "FrameStart", .done⟩,
   ⟨.SetIntValue "TriggerSelector" "FrameStart", .done⟩,
   ⟨.GetNode .camera "TriggerSource", .done⟩,
   ⟨.IsAvailable "TriggerSource", .bool true⟩,
   ⟨.IsWritable "TriggerSource", .bool true⟩,
   ⟨.GetEntryByName "TriggerSource" "Line3", .done⟩,
   ⟨.EntryIsAvailable "TriggerSource" "Line3", .bool true⟩,
   ⟨.EntryIsReadable "TriggerSource" "Line3", .bool true⟩,
   ⟨.EntryGetValue "TriggerSource" "Line3", .done⟩,
   ⟨.SetIntValue "TriggerSource" "Line3", .done⟩,
   ⟨.GetNode .camera "TriggerActivation", .done⟩,
   ⟨.IsAvailable "TriggerActivation", .bool true⟩,
   ⟨.IsWritable "TriggerActivation", .bool true⟩,
   ⟨.GetEntryByName "TriggerActivation" "RisingEdge", .done⟩,
   ⟨.EntryGetValue "TriggerActivation" "RisingEdge", .done⟩,
   ⟨.SetIntValue "TriggerActivation" "RisingEdge", .done⟩,
   ⟨.GetNode .camera "TriggerDelay", .done⟩,
   ⟨.IsAvailable "TriggerActivation", .bool true⟩,
   ⟨.IsWritable "TriggerActivation", .bool true⟩,
   ⟨.SetValue "TriggerDelay" 65520, .done⟩,
   ⟨.GetEntryByName "TriggerMode" "On", .done⟩,
   ⟨.EntryIsAvailable "TriggerMode" "On", .bool true⟩,
   ⟨.EntryIsReadable "TriggerMode" "On", .bool true⟩,
   ⟨.EntryGetValue "TriggerMode" "On", .done⟩,
   ⟨.SetIntValue "TriggerMode" "On", .done⟩,
   ⟨.GetNode .camera "AcquisitionMode", .done⟩,
   ⟨.IsAvailable "AcquisitionMode", .bool true⟩,
   ⟨.IsWritable "AcquisitionMode", .bool true⟩,
   ⟨.GetEntryByName "AcquisitionMode" "Continuous", .done⟩,
   ⟨.EntryIsAvailable "AcquisitionMode" "Continuous", .bool true⟩,
   ⟨.EntryIsReadable "AcquisitionMode" "Continuous", .bool true⟩,
   ⟨.EntryGetValue "AcquisitionMode" "Continuous", .done⟩,
   ⟨.SetIntValue "AcquisitionMode" "Continuous", .done⟩,
   ⟨.GetNode .tlStream "StreamBufferHandlingMode", .done⟩,
   ⟨.IsAvailable "StreamBufferHandlingMode", .bool true⟩,
   ⟨.IsWritable "StreamBufferHandlingMode", .bool true⟩,
   ⟨.GetCurrentEntry "StreamBufferHandlingMode", .done⟩,
   ⟨.CurrentIsAvailable "StreamBufferHandlingMode", .bool true⟩,
   ⟨.CurrentIsReadable "StreamBufferHandlingMode", .bool true⟩,
   ⟨.GetEntryByName "StreamBufferHandlingMode" "OldestFirst", .done⟩,
   ⟨.EntryGetValue "StreamBufferHandlingMode" "OldestFirst", .done⟩,
   ⟨.SetIntValue "StreamBufferHandlingMode" "OldestFirst", .done⟩]

end prepareCameraTest

namespace acquireImages

/-! ## The program logic -/

theorem pure_apply {α : Type} (a : α) (tr : Trace) :
    (pure a : Prog α) tr = .ok a tr := rfl

theorem bind_apply {α β : Type} (m : Prog α) (f : α → Prog β) (tr : Trace) :
    (m >>= f) tr = (m tr).andThen f := rfl

theorem andThen_ok {α β : Type} (a : α) (tr : Trace) (f : α → Prog β) :
    (Res.ok a tr).andThen f = f a tr := rfl

theorem andThen_raise {α β : Type} (e : Exn) (tr : Trace) (f : α → Prog β) :
    (Res.raise e tr : Res α).andThen f = .raise e tr := rfl

theorem sat_pure {α : Type} (a : α) (base out : Trace) (Qok : α → Trace → Prop)
    (Qraise : Exn → Trace → Prop) (h : Qok a out) :
    Sat (pure a : Prog α) base out Qok Qraise :=
  ⟨out, rfl, h⟩

theorem sat_bind {α β : Type} (m : Prog α) (f : α → Prog β) (base out : Trace)
    (Qok : β → Trace → Prop) (Qraise : Exn → Trace → Prop)
    (h : Sat m base out (fun a ext => Sat (f a) base ext Qok Qraise) Qraise) :
    Sat (m >>= f) base out Qok Qraise := by
  unfold Sat at h ⊢
  show match (m (base ++ out)).andThen f with
    | .ok a t => _
    | .raise e t => _
  cases hm : m (base ++ out) with
  | ok a t =>
    rw [hm] at h
    obtain ⟨ext, rfl, h2⟩ := h
    exact h2
  | raise e t =>
    rw [hm] at h
    exact h

theorem sat_emit (c : Call) (base out : Trace) (Qok : Unit → Trace → Prop)
    (Qraise : Exn → Trace → Prop) (h : Qok () (out ++ [⟨c, .done⟩])) :
    Sat (emit c) base out Qok Qraise :=
  ⟨out ++ [⟨c, .done⟩], (List.append_assoc _ _ _), h⟩

theorem sat_sdk (env : Env) (c : Call) (base out : Trace) (Qok : Unit → Trace → Prop)
    (Qraise : Exn → Trace → Prop)
    (h1 : Qraise .Spinnaker (out ++ [⟨c, .raised⟩]))
    (h2 : Qok () (out ++ [⟨c, .done⟩])) :
    Sat (sdk env c) base out Qok Qraise := by
  unfold Sat sdk
  split_ifs
  · exact ⟨_, (List.append_assoc _ _ _), h1⟩
  · exact ⟨_, (List.append_assoc _ _ _), h2⟩

theorem sat_ask (env : Env) (c : Call) (base out : Trace) (Qok : Bool → Trace → Prop)
    (Qraise : Exn → Trace → Prop)
    (h1 : Qok true (out ++ [⟨c, .bool true⟩]))
    (h2 : Qok false (out ++ [⟨c, .bool false⟩])) :
    Sat (ask env c) base out Qok Qraise := by
  refine ⟨_, (List.append_assoc _ _ _), ?_⟩
  cases env.answerBool (base ++ out) c
  · exact h2
  · exact h1

theorem sat_sdkString (env : Env) (c : Call) (base out : Trace)
    (Qok : String → Trace → Prop) (Qraise : Exn → Trace → Prop)
    (h1 : Qraise .Spinnaker (out ++ [⟨c, .raised⟩]))
    (h2 : ∀ s, Qok s (out ++ [⟨c, .string s⟩])) :
    Sat (sdkString env c) base out Qok Qraise := by
  unfold Sat sdkString
  split_ifs
  · exact ⟨_, (List.append_assoc _ _ _), h1⟩
  · exact ⟨_, (List.append_assoc _ _ _), h2 _⟩

theorem sat_readClock (env : Env) (base out : Trace) (Qok : Int → Trace → Prop)
    (Qraise : Exn → Trace → Prop)
    (h : ∀ t, Qok t (out ++ [⟨.now, .time t⟩])) :
    Sat (readClock env) base out Qok Qraise :=
  ⟨_, (List.append_assoc _ _ _), h _⟩

theorem sat_tryCatch {α : Type} (body handler : Prog α) (base out : Trace)
    (Qok : α → Trace → Prop) (Qraise : Exn → Trace → Prop)
    (h : Sat body base out Qok (catchPost handler base Qok Qraise)) :
    Sat (tryCatchSpinnaker body handler) base out Qok Qraise := by
  unfold Sat at h ⊢
  show match (body (base ++ out)).orCatch handler with
    | .ok a t => _
    | .raise e t => _
  cases hm : body (base ++ out) with
  | ok a t =>
    rw [hm] at h
    exact h
  | raise e t =>
    rw [hm] at h
    obtain ⟨ext, rfl, h2⟩ := h
    cases e with
    | Spinnaker => exact h2
    | Json => exact ⟨ext, rfl, h2⟩

theorem catchPost_spinnaker {α : Type} (handler : Prog α) (base ext : Trace)
    (Qok : α → Trace → Prop) (Qraise : Exn → Trace → Prop)
    (h : Sat handler base ext Qok Qraise) :
    catchPost handler base Qok Qraise .Spinnaker ext := h

theorem catchPost_json {α : Type} (handler : Prog α) (base ext : Trace)
    (Qok : α → Trace → Prop) (Qraise : Exn → Trace → Prop)
    (h : Qraise .Json ext) :
    catchPost handler base Qok Qraise .Json ext := h

theorem sat_ite {α : Type} (c : Prop) [Decidable c] (x y : Prog α) (base out : Trace)
    (Qok : α → Trace → Prop) (Qraise : Exn → Trace → Prop)
    (h1 : c → Sat x base out Qok Qraise) (h2 : ¬c → Sat y base out Qok Qraise) :
    Sat (if c then x else y) base out Qok Qraise := by
  split_ifs with h
  · exact h1 h
  · exact h2 h

theorem sat_elim {α : Type} (p : Prog α) (tr : Trace) (Qok : α → Trace → Prop)
    (Qraise : Exn → Trace → Prop) (h : Sat p tr [] Qok Qraise) :
    (∃ a ext, p tr = .ok a (tr ++ ext) ∧ Qok a ext)
      ∨ (∃ e ext, p tr = .raise e (tr ++ ext) ∧ Qraise e ext) := by
  unfold Sat at h
  rw [List.append_nil] at h
  cases hm : p tr with
  | ok a t =>
    rw [hm] at h
    obtain ⟨ext, rfl, h2⟩ := h
    exact Or.inl ⟨a, ext, rfl, h2⟩
  | raise e t =>
    rw [hm] at h
    obtain ⟨ext, rfl, h2⟩ := h
    exact Or.inr ⟨e, ext, rfl, h2⟩

theorem sat_frame {α : Type} (p : Prog α) (base out : Trace) (Pok Qok : α → Trace → Prop)
    (Praise Qraise : Exn → Trace → Prop)
    (h : Sat p (base ++ out) [] Pok Praise)
    (hok : ∀ a ext, Pok a ext → Qok a (out ++ ext))
    (hraise : ∀ e ext, Praise e ext → Qraise e (out ++ ext)) :
    Sat p base out Qok Qraise := by
  rcases sat_elim p (base ++ out) Pok Praise h with ⟨a, ext, hp, hq⟩ | ⟨e, ext, hp, hq⟩
  · unfold Sat
    rw [hp]
    exact ⟨out ++ ext, (List.append_assoc _ _ _), hok a ext hq⟩
  · unfold Sat
    rw [hp]
    exact ⟨out ++ ext, (List.append_assoc _ _ _), hraise e ext hq⟩

/-! ## The shape of the runs -/

theorem readSerialNumber_sat (env : Env) (pCam : Nat) (tr : Trace) :
    Sat (readSerialNumber env pCam) tr []
      (fun s ext => SerialRun pCam (some s) ext)
      (fun e ext => e = .Spinnaker ∧ SerialRun pCam none ext) := by
  unfold readSerialNumber
  repeat' (with_reducible first
    | apply sat_bind | apply sat_sdk | apply sat_ask | apply sat_pure | apply sat_ite
    | apply sat_sdkString | intro _)
  all_goals first
    | exact ⟨rfl, by constructor⟩
    | (constructor; done)
    | contradiction

theorem GrabNextImageByTrigger_sat (env : Env) (pCam : Nat) (src : String) (tr : Trace) :
    Sat (GrabNextImageByTrigger env pCam src) tr []
      (fun g ext => GrabRun pCam src g ext) (fun _ _ => False) := by
  unfold GrabNextImageByTrigger
  repeat' (with_reducible first
    | apply sat_bind | apply sat_sdk | apply sat_ask | apply sat_pure | apply sat_ite
    | apply sat_emit | apply sat_tryCatch | apply catchPost_spinnaker | apply catchPost_json
    | intro _)
  all_goals first
    | (subst_vars; constructor; done)
    | (constructor <;> assumption)
    | contradiction

theorem retrieveImage_sat (env : Env) (pCam : Nat) (imageCnt : Int) (s : String)
    (tr : Trace) :
    Sat (retrieveImage env pCam imageCnt s) tr []
      (fun _ ext => ImageRun pCam (imageFilename s imageCnt) true ext)
      (fun e ext => e = .Spinnaker ∧ ImageRun pCam (imageFilename s imageCnt) false ext) := by
  unfold retrieveImage
  repeat' (with_reducible first
    | apply sat_bind | apply sat_sdk | apply sat_ask | apply sat_pure | apply sat_ite
    | intro _)
  all_goals first
    | exact ⟨rfl, by constructor⟩
    | (constructor; done)
    | contradiction

theorem sat_readSerialNumber (env : Env) (pCam : Nat) (base out : Trace)
    (Qok : String → Trace → Prop) (Qraise : Exn → Trace → Prop)
    (hraise : ∀ ext, SerialRun pCam none ext → Qraise .Spinnaker (out ++ ext))
    (hok : ∀ s ext, SerialRun pCam (some s) ext → Qok s (out ++ ext)) :
    Sat (readSerialNumber env pCam) base out Qok Qraise := by
  refine sat_frame _ _ _ _ _ _ _ (readSerialNumber_sat env pCam (base ++ out)) hok ?_
  rintro e ext ⟨rfl, h⟩
  exact hraise ext h

theorem sat_GrabNextImageByTrigger (env : Env) (pCam : Nat) (src : String)
    (base out : Trace) (Qok : Int → Trace → Prop) (Qraise : Exn → Trace → Prop)
    (hok : ∀ g ext, GrabRun pCam src g ext → Qok g (out ++ ext)) :
    Sat (GrabNextImageByTrigger env pCam src) base out Qok Qraise := by
  refine sat_frame _ _ _ _ _ _ _ (GrabNextImageByTrigger_sat env pCam src (base ++ out))
    hok ?_
  intro e ext h
  exact h.elim

theorem sat_retrieveImage (env : Env) (pCam : Nat) (imageCnt : Int) (s : String)
    (base out : Trace) (Qok : Unit → Trace → Prop) (Qraise : Exn → Trace → Prop)
    (hraise : ∀ ext, ImageRun pCam (imageFilename s imageCnt) false ext →
      Qraise .Spinnaker (out ++ ext))
    (hok : ∀ ext, ImageRun pCam (imageFilename s imageCnt) true ext → Qok () (out ++ ext)) :
    Sat (retrieveImage env pCam imageCnt s) base out Qok Qraise := by
  refine sat_frame _ _ _ _ _ _ _ (retrieveImage_sat env pCam imageCnt s (base ++ out))
    (fun _ ext h => hok ext h) ?_
  rintro e ext ⟨rfl, h⟩
  exact hraise ext h

theorem AcquireImages_sat (env : Env) (pCam : Nat) (imageCnt : Int) (src : String)
    (tr : Trace) :
    Sat (AcquireImages env pCam imageCnt src) tr []
      (fun code ext => AcquireRun pCam imageCnt src code ext) (fun _ _ => False) := by
  unfold AcquireImages
  repeat' (with_reducible first
    | apply sat_bind | apply sat_pure | apply sat_emit | apply sat_tryCatch
    | apply sat_readSerialNumber | apply sat_GrabNextImageByTrigger
    | apply sat_retrieveImage | apply catchPost_spinnaker | apply catchPost_json
    | intro _)
  all_goals first
    | exact AcquireRun.serialRaised _ (by assumption)
    | exact AcquireRun.imageRaised _ _ _ _ _ (by assumption) (by assumption) (by assumption)
    | exact AcquireRun.completed _ _ _ _ _ (by assumption) (by assumption) (by assumption)

/-- Every run of `AcquireImages` returns a code and has one of the shapes of
`AcquireRun`; no exception leaves the function. -/
theorem AcquireImages_run (env : Env) (pCam : Nat) (imageCnt : Int) (src : String)
    (tr : Trace) :
    ∃ code out, AcquireImages env pCam imageCnt src tr = .ok code (tr ++ out)
      ∧ AcquireRun pCam imageCnt src code out := by
  rcases sat_elim _ _ _ _ (AcquireImages_sat env pCam imageCnt src tr) with
    ⟨code, out, h1, h2⟩ | ⟨_, _, _, h2⟩
  · exact ⟨code, out, h1, h2⟩
  · exact h2.elim

/-! ## Facts about the shapes -/

theorem bitOr_zero_zero : bitOr 0 0 = 0 := by decide

theorem bitOr_zero_neg : bitOr 0 (-1) = -1 := by decide

theorem bitOr_neg_zero : bitOr (-1) 0 = -1 := by decide

theorem bitOr_neg_neg : bitOr (-1) (-1) = -1 := by decide

theorem not_mem_of_origin (l : Trace) (o : Origin) (h : ∀ e ∈ l, origin e.call = o)
    (e0 : Event) (h0 : origin e0.call ≠ o) : e0 ∉ l :=
  fun hmem => h0 (h e0 hmem)

theorem SerialRun.serial_origin_eq {pCam : Nat} {r : Option String} {ext : Trace}
    (h : SerialRun pCam r ext) : ∀ e ∈ ext, origin e.call = .serial := by
  cases h <;> simp [origin]

theorem GrabRun.grab_origin_eq {pCam : Nat} {src : String} {g : Int} {ext : Trace}
    (h : GrabRun pCam src g ext) : ∀ e ∈ ext, origin e.call = .grab := by
  cases h <;> simp [origin]

theorem ImageRun.image_origin_eq {pCam : Nat} {f : String} {b : Bool} {ext : Trace}
    (h : ImageRun pCam f b ext) : ∀ e ∈ ext, origin e.call = .image := by
  cases h <;> simp [origin]

theorem SerialRun.serial_not_raised {pCam : Nat} {s : String} {ext : Trace}
    (h : SerialRun pCam (some s) ext) : ∀ e ∈ ext, e.answer ≠ .raised := by
  cases h <;> simp

theorem SerialRun.serial_raised {pCam : Nat} {ext : Trace}
    (h : SerialRun pCam none ext) : ∃ e ∈ ext, e.answer = .raised := by
  cases h <;> simp

theorem GrabRun.code {pCam : Nat} {src : String} {g : Int} {ext : Trace}
    (h : GrabRun pCam src g ext) : g = 0 ∨ g = -1 := by
  cases h <;> simp

theorem GrabRun.grab_not_raised {pCam : Nat} {src : String} {ext : Trace}
    (h : GrabRun pCam src 0 ext) : ∀ e ∈ ext, e.answer ≠ .raised := by
  cases h <;> simp

theorem ImageRun.image_not_raised {pCam : Nat} {f : String} {ext : Trace}
    (h : ImageRun pCam f true ext) : ∀ e ∈ ext, e.answer ≠ .raised := by
  cases h <;> simp

theorem ImageRun.image_raised {pCam : Nat} {f : String} {ext : Trace}
    (h : ImageRun pCam f false ext) : ∃ e ∈ ext, e.answer = .raised := by
  cases h <;> simp

theorem AcquireRun.code_eq {pCam : Nat} {n : Int} {src : String} {code : Int} {out : Trace}
    (h : AcquireRun pCam n src code out) : code = 0 ∨ code = -1 := by
  cases h with
  | serialRaised => exact Or.inr rfl
  | imageRaised => exact Or.inr rfl
  | completed s sext g gext iext hs hg hi =>
    rcases hg.code with rfl | rfl
    · exact Or.inl bitOr_zero_zero
    · exact Or.inr bitOr_zero_neg

theorem AcquireRun.origin_ne_loop {pCam : Nat} {n : Int} {src : String} {code : Int}
    {out : Trace} (h : AcquireRun pCam n src code out) :
    ∀ e ∈ out, origin e.call ≠ .loop := by
  intro e he
  cases h with
  | serialRaised sext hs => simp [hs.serial_origin_eq e he]
  | imageRaised s sext g gext iext hs hg hi =>
    simp only [List.mem_append, List.mem_singleton] at he
    rcases he with ((he | he) | rfl) | he
    · simp [hs.serial_origin_eq e he]
    · simp [hg.grab_origin_eq e he]
    · simp [origin]
    · simp [hi.image_origin_eq e he]
  | completed s sext g gext iext hs hg hi =>
    simp only [List.mem_append, List.mem_singleton] at he
    rcases he with ((he | he) | rfl) | he
    · simp [hs.serial_origin_eq e he]
    · simp [hg.grab_origin_eq e he]
    · simp [origin]
    · simp [hi.image_origin_eq e he]

theorem AcquireRun.code_zero_iff {pCam : Nat} {n : Int} {src : String} {code : Int}
    {out : Trace} (h : AcquireRun pCam n src code out) :
    code = 0 ↔ (⟨.ret_GrabNextImageByTrigger pCam 0, .done⟩ : Event) ∈ out
      ∧ ∀ e ∈ out, e.answer ≠ .raised := by
  cases h with
  | serialRaised sext hs =>
    obtain ⟨e, he, hr⟩ := hs.serial_raised
    constructor
    · intro h0
      exact absurd h0 (by decide)
    · rintro ⟨_, hn⟩
      exact absurd hr (hn e he)
  | imageRaised s sext g gext iext hs hg hi =>
    obtain ⟨e, he, hr⟩ := hi.image_raised
    constructor
    · intro h0
      exact absurd h0 (by decide)
    · rintro ⟨_, hn⟩
      exact absurd hr (hn e (List.mem_append_right _ he))
  | completed s sext g gext iext hs hg hi =>
    have h1 := not_mem_of_origin _ _ hs.serial_origin_eq ⟨.ret_GrabNextImageByTrigger pCam 0, .done⟩
      (by simp [origin])
    have h2 := not_mem_of_origin _ _ hg.grab_origin_eq ⟨.ret_GrabNextImageByTrigger pCam 0, .done⟩
      (by simp [origin])
    have h3 := not_mem_of_origin _ _ hi.image_origin_eq ⟨.ret_GrabNextImageByTrigger pCam 0, .done⟩
      (by simp [origin])
    rcases hg.code with rfl | rfl
    · rw [bitOr_zero_zero]
      refine ⟨fun _ => ⟨?_, ?_⟩, fun _ => rfl⟩
      · simp
      · intro e he
        simp only [List.mem_append, List.mem_singleton] at he
        rcases he with ((he | he) | rfl) | he
        · exact hs.serial_not_raised e he
        · exact hg.grab_not_raised e he
        · simp
        · exact hi.image_not_raised e he
    · rw [bitOr_zero_neg]
      constructor
      · intro h0
        exact absurd h0 (by decide)
      · rintro ⟨hm, _⟩
        simp only [List.mem_append, List.mem_singleton] at hm
        rcases hm with ((hm | hm) | hm) | hm
        · exact absurd hm h1
        · exact absurd hm h2
        · simp at hm
        · exact absurd hm h3

/-! ## The trigger wait -/

/-- C7.  For every trigger-source string other than "Software",
`GrabNextImageByTrigger` adds no event to the history (no node lookup, no command, no wait
for input) and returns 0 when the string is "Hardware" and -1 otherwise. -/
theorem GrabNextImageByTrigger_without_software (env : Env) (pCam : Nat)
    (triggerSource : String) (tr : Trace) (h : triggerSource ≠ "Software") :
    GrabNextImageByTrigger env pCam triggerSource tr
      = .ok (if triggerSource = "Hardware" then 0 else -1) tr := by
  by_cases hh : triggerSource = "Hardware"
  · simp only [GrabNextImageByTrigger, tryCatchSpinnaker, h, hh, if_false, if_true]
    rfl
  · simp only [GrabNextImageByTrigger, tryCatchSpinnaker, h, hh, if_false]
    rfl

/-- C7 at the source "Line3", which is neither "Software" nor "Hardware": the code is
-1 and the history stays empty. -/
theorem GrabNextImageByTrigger_without_software_witness :
    "Line3" ≠ "Software"
      ∧ GrabNextImageByTrigger quietEnv 0 "Line3" [] = .ok (-1) [] :=
  ⟨by decide, GrabNextImageByTrigger_without_software quietEnv 0 "Line3" [] (by decide)⟩

/-! ## `AcquireImages` -/

/-- C8.  `AcquireImages` always returns a code: no exception leaves it.  The code is -1
as soon as one call inside it raised an SDK exception, and it is 0 exactly when the
trigger wait returned 0 and no call raised. -/
theorem AcquireImages_catches_sdk_exceptions (env : Env) (pCam : Nat) (imageCnt : Int)
    (triggerSource : String) (tr : Trace) :
    ∃ code out, AcquireImages env pCam imageCnt triggerSource tr = .ok code (tr ++ out)
      ∧ ((∃ e ∈ out, e.answer = .raised) → code = -1)
      ∧ (code = 0 ↔ (⟨.ret_GrabNextImageByTrigger pCam 0, .done⟩ : Event) ∈ out
            ∧ ∀ e ∈ out, e.answer ≠ .raised) := by
  obtain ⟨code, out, hrun, hshape⟩ := AcquireImages_run env pCam imageCnt triggerSource tr
  refine ⟨code, out, hrun, ?_, hshape.code_zero_iff⟩
  rintro ⟨e, he, hr⟩
  rcases hshape.code_eq with h0 | h1
  · exact absurd hr ((hshape.code_zero_iff.mp h0).2 e he)
  · exact h1

/-! ## The loop over the cameras -/

theorem sat_jsonToString_some (s : String) (base out : Trace)
    (Qok : String → Trace → Prop) (Qraise : Exn → Trace → Prop) (h : Qok s out) :
    Sat (jsonToString (some s)) base out Qok Qraise :=
  ⟨out, rfl, h⟩

theorem sat_AcquireImages (env : Env) (pCam : Nat) (imageCnt : Int) (src : String)
    (base out : Trace) (Qok : Int → Trace → Prop) (Qraise : Exn → Trace → Prop)
    (hok : ∀ code ext, AcquireRun pCam imageCnt src code ext → Qok code (out ++ ext)) :
    Sat (AcquireImages env pCam imageCnt src) base out Qok Qraise := by
  refine sat_frame _ _ _ _ _ _ _ (AcquireImages_sat env pCam imageCnt src (base ++ out))
    hok ?_
  intro e ext h
  exact h.elim

theorem drainCameras_sat (env : Env) (cfg : Config) (imageCnt : Int) (src : String)
    (hsrc : cfg.TriggerSource = some src) (n : Nat) (flag : Int) (tr : Trace) :
    Sat (drainCameras env cfg imageCnt n flag) tr []
      (fun flag1 ext => DrainRun imageCnt src n flag flag1 ext) (fun _ _ => False) := by
  induction n generalizing tr with
  | zero => exact sat_pure _ _ _ _ _ (DrainRun.nil flag)
  | succ n ih =>
    unfold drainCameras
    rw [hsrc]
    apply sat_bind
    refine sat_frame _ _ _ _ _ _ _ (ih (tr ++ [])) ?_ (fun _ _ h => h.elim)
    intro flag1 ext hrun
    repeat' (with_reducible first
      | apply sat_bind | apply sat_pure | apply sat_emit | apply sat_jsonToString_some
      | apply sat_AcquireImages | intro _)
    exact DrainRun.snoc _ _ _ _ _ _ hrun (by assumption)

/-- With a trigger source in the configuration, the loop over the cameras reaches its end
and its run has the shape of `DrainRun`. -/
theorem drainCameras_run (env : Env) (cfg : Config) (imageCnt : Int) (src : String)
    (hsrc : cfg.TriggerSource = some src) (n : Nat) (flag : Int) (tr : Trace) :
    ∃ flag1 out, drainCameras env cfg imageCnt n flag tr = .ok flag1 (tr ++ out)
      ∧ DrainRun imageCnt src n flag flag1 out := by
  rcases sat_elim _ _ _ _ (drainCameras_sat env cfg imageCnt src hsrc n flag tr) with
    ⟨flag1, out, h1, h2⟩ | ⟨_, _, _, h2⟩
  · exact ⟨flag1, out, h1, h2⟩
  · exact h2.elim

/-- Without a trigger source in the configuration, the conversion of the first call
raises a JSON exception before any camera is touched. -/
theorem drainCameras_none (env : Env) (cfg : Config) (imageCnt : Int)
    (hsrc : cfg.TriggerSource = none) (n : Nat) (flag : Int) (tr : Trace) :
    drainCameras env cfg imageCnt (n + 1) flag tr = .raise .Json tr := by
  induction n with
  | zero =>
    unfold drainCameras
    rw [bind_apply]
    unfold drainCameras
    rw [pure_apply, andThen_ok, bind_apply, hsrc]
    rfl
  | succ n ih =>
    unfold drainCameras
    rw [bind_apply, ih]
    rfl

/-- Every run of the loop over the cameras that reaches its end has the shape of
`DrainRun`, for the trigger source of the configuration. -/
theorem drainCameras_ok (env : Env) (cfg : Config) (imageCnt : Int) (n : Nat)
    (flag flag1 : Int) (tr tr1 : Trace)
    (h : drainCameras env cfg imageCnt n flag tr = .ok flag1 tr1) :
    ∃ out, tr1 = tr ++ out ∧ ∃ src, DrainRun imageCnt src n flag flag1 out
      ∧ (n = 0 ∨ cfg.TriggerSource = some src) := by
  cases hsrc : cfg.TriggerSource with
  | none =>
    cases n with
    | zero =>
      have h0 : drainCameras env cfg imageCnt 0 flag tr = .ok flag tr := rfl
      rw [h0] at h
      cases h
      exact ⟨[], (List.append_nil _).symm, "", DrainRun.nil _, Or.inl rfl⟩
    | succ n =>
      rw [drainCameras_none env cfg imageCnt hsrc] at h
      cases h
  | some src =>
    obtain ⟨flag2, out, h1, h2⟩ := drainCameras_run env cfg imageCnt src hsrc n flag tr
    rw [h1] at h
    cases h
    exact ⟨out, rfl, src, h2, Or.inr rfl⟩

theorem callMarkers_append (l1 l2 : Trace) :
    callMarkers (l1 ++ l2) = callMarkers l1 ++ callMarkers l2 := by
  unfold callMarkers
  exact List.filterMap_append _ _ _

theorem callMarkers_eq_nil (l : Trace) (h : ∀ e ∈ l, origin e.call ≠ .loop) :
    callMarkers l = [] := by
  induction l with
  | nil => rfl
  | cons e l ih =>
    have he := h e (List.mem_cons_self _ _)
    have hl := ih (fun x hx => h x (List.mem_cons_of_mem _ hx))
    obtain ⟨c, a⟩ := e
    cases c <;> first | exact hl | exact absurd rfl he

theorem DrainRun.callMarkers_eq {k : Int} {src : String} {n : Nat} {flag flag1 : Int}
    {out : Trace} (h : DrainRun k src n flag flag1 out) :
    callMarkers out = (List.range n).map fun i => (i, k) := by
  induction h with
  | nil => rfl
  | snoc n flag flag1 code out aout h ha ih =>
    rw [callMarkers_append, callMarkers_append, callMarkers_append, ih,
      callMarkers_eq_nil aout ha.origin_ne_loop, List.range_succ, List.map_append]
    simp [callMarkers]

theorem DrainRun.flag_eq {k : Int} {src : String} {n : Nat} {flag flag1 : Int}
    {out : Trace} (h : DrainRun k src n flag flag1 out) (hf : flag = 0 ∨ flag = -1) :
    (flag1 = 0 ∨ flag1 = -1)
      ∧ (flag1 = 0 ↔ flag = 0 ∧ ∀ i c a, (⟨.ret_AcquireImages i c, a⟩ : Event) ∈ out → c = 0) := by
  induction h with
  | nil => exact ⟨hf, by simp⟩
  | snoc n flag flag1 code out aout h ha ih =>
    obtain ⟨ih1, ih2⟩ := ih hf
    have hmem : ∀ i c a, (⟨.ret_AcquireImages i c, a⟩ : Event) ∈
        out ++ [⟨.call_AcquireImages n k src, .done⟩] ++ aout
          ++ [⟨.ret_AcquireImages n code, .done⟩]
        ↔ (⟨.ret_AcquireImages i c, a⟩ : Event) ∈ out ∨ (i = n ∧ c = code ∧ a = .done) := by
      intro i c a
      have hnot : (⟨.ret_AcquireImages i c, a⟩ : Event) ∉ aout := fun hm =>
        ha.origin_ne_loop _ hm rfl
      simp [hnot, and_assoc]
    rcases ih1 with rfl | rfl <;> rcases ha.code_eq with rfl | rfl
    · refine ⟨Or.inl bitOr_zero_zero, ?_⟩
      rw [bitOr_zero_zero]
      refine ⟨fun _ => ⟨(ih2.mp rfl).1, ?_⟩, fun _ => rfl⟩
      intro i c a hm
      rcases (hmem i c a).mp hm with hm | ⟨_, rfl, _⟩
      · exact (ih2.mp rfl).2 i c a hm
      · rfl
    · refine ⟨Or.inr bitOr_zero_neg, ?_⟩
      rw [bitOr_zero_neg]
      refine ⟨fun h0 => absurd h0 (by decide), ?_⟩
      rintro ⟨_, hz⟩
      exact absurd (hz n (-1) .done ((hmem n (-1) .done).mpr (Or.inr ⟨rfl, rfl, rfl⟩)))
        (by decide)
    · refine ⟨Or.inr bitOr_neg_zero, ?_⟩
      rw [bitOr_neg_zero]
      refine ⟨fun h0 => absurd h0 (by decide), ?_⟩
      rintro ⟨hfl, hz⟩
      have := ih2.mpr ⟨hfl, fun i c a hm => hz i c a ((hmem i c a).mpr (Or.inl hm))⟩
      exact absurd this (by decide)
    · refine ⟨Or.inr bitOr_neg_neg, ?_⟩
      rw [bitOr_neg_neg]
      refine ⟨fun h0 => absurd h0 (by decide), ?_⟩
      rintro ⟨_, hz⟩
      exact absurd (hz n (-1) .done ((hmem n (-1) .done).mpr (Or.inr ⟨rfl, rfl, rfl⟩)))
        (by decide)

/-! ## The stop condition and the teardown -/

theorem stopCondition_error (env : Env) (cfg : Config) (flag : Int) (tr : Trace)
    (hflag : flag ≠ 0) (hexit : cfg.ExitOnError = true) :
    stopCondition env cfg flag tr = .ok true tr := by
  simp [stopCondition, hflag, hexit]
  rfl

theorem stopCondition_zero (env : Env) (cfg : Config) (tr : Trace) :
    stopCondition env cfg 0 tr = deadlinePassed env cfg tr := by
  simp [stopCondition]

theorem sdk_ok (env : Env) (c : Call) (tr : Trace) (h : env.throws tr c = false) :
    sdk env c tr = .ok () (tr ++ [⟨c, .done⟩]) := by
  simp [sdk, h]

theorem cameraCalls_succ (n : Nat) :
    cameraCalls (n + 1) = cameraCalls n ++ [Call.EndAcquisition n, Call.DeInit n] := by
  simp [cameraCalls, List.range_succ]

theorem allDone_append (l1 l2 : List Call) : allDone (l1 ++ l2) = allDone l1 ++ allDone l2 := by
  simp [allDone]

theorem sat_sdk_cases (env : Env) (c : Call) (base out : Trace)
    (Qok : Unit → Trace → Prop) (Qraise : Exn → Trace → Prop)
    (h1 : env.throws (base ++ out) c = true → Qraise .Spinnaker (out ++ [⟨c, .raised⟩]))
    (h2 : env.throws (base ++ out) c = false → Qok () (out ++ [⟨c, .done⟩])) :
    Sat (sdk env c) base out Qok Qraise := by
  unfold Sat sdk
  split_ifs with h
  · exact ⟨_, (List.append_assoc _ _ _), h1 h⟩
  · exact ⟨_, (List.append_assoc _ _ _), h2 (by simpa using h)⟩

theorem StoppedAt.append_right {env : Env} {tr : Trace} {calls : List Call} {ext : Trace}
    (h : StoppedAt env tr calls ext) (more : List Call) :
    StoppedAt env tr (calls ++ more) ext := by
  obtain ⟨pre, c, post, h1, h2, h3⟩ := h
  exact ⟨pre, c, post ++ more, by simp [h1], h2, h3⟩

theorem releaseCameras_sat (env : Env) (n : Nat) (tr : Trace) :
    Sat (releaseCameras env n) tr []
      (fun _ ext => ext = allDone (cameraCalls n))
      (fun e ext => e = .Spinnaker ∧ StoppedAt env tr (cameraCalls n) ext) := by
  induction n with
  | zero => exact sat_pure _ _ _ _ _ rfl
  | succ n ih =>
    unfold releaseCameras
    apply sat_bind
    have ih1 : Sat (releaseCameras env n) (tr ++ []) []
        (fun _ ext => ext = allDone (cameraCalls n))
        (fun e ext => e = .Spinnaker ∧ StoppedAt env tr (cameraCalls n) ext) := by
      rw [List.append_nil]
      exact ih
    refine sat_frame _ _ _ _ _ _ _ ih1 ?_ ?_
    · rintro _ ext rfl
      apply sat_bind
      apply sat_sdk_cases
      · intro ht
        refine ⟨rfl, cameraCalls n, .EndAcquisition n, [.DeInit n], ?_, by simp, ?_⟩
        · rw [cameraCalls_succ]
        · simpa using ht
      · intro _
        apply sat_sdk_cases
        · intro ht
          refine ⟨rfl, cameraCalls n ++ [.EndAcquisition n], .DeInit n, [], ?_, ?_, ?_⟩
          · rw [cameraCalls_succ]
            simp
          · simp [allDone]
          · simpa [allDone] using ht
        · intro _
          rw [cameraCalls_succ]
          simp [allDone]
    · rintro e ext ⟨rfl, hs⟩
      refine ⟨rfl, ?_⟩
      rw [cameraCalls_succ, List.nil_append]
      exact hs.append_right _

theorem teardown_sat (env : Env) (n : Nat) (tr : Trace) :
    Sat (teardown env n) tr []
      (fun _ ext => ext = allDone (teardownCalls n))
      (fun e ext => e = .Spinnaker ∧ StoppedAt env tr (teardownCalls n) ext) := by
  unfold teardown
  apply sat_bind
  have h1 : Sat (releaseCameras env n) (tr ++ []) []
      (fun _ ext => ext = allDone (cameraCalls n))
      (fun e ext => e = .Spinnaker ∧ StoppedAt env tr (cameraCalls n) ext) := by
    rw [List.append_nil]
    exact releaseCameras_sat env n tr
  refine sat_frame _ _ _ _ _ _ _ h1 ?_ ?_
  · rintro _ ext rfl
    apply sat_bind
    apply sat_sdk_cases
    · intro ht
      refine ⟨rfl, cameraCalls n, .Clear, [.ReleaseInstance], rfl, by simp, ?_⟩
      simpa using ht
    · intro _
      apply sat_sdk_cases
      · intro ht
        refine ⟨rfl, cameraCalls n ++ [.Clear], .ReleaseInstance, [], ?_, ?_, ?_⟩
        · simp [teardownCalls]
        · simp [allDone]
        · simpa [allDone] using ht
      · intro _
        simp [teardownCalls, allDone]
  · rintro e ext ⟨rfl, hs⟩
    refine ⟨rfl, ?_⟩
    rw [List.nil_append]
    exact hs.append_right _

/-! ## One pass of the loop -/

theorem deadlinePassed_eq (env : Env) (cfg : Config) (tr : Trace) :
    deadlinePassed env cfg tr
      = .ok
          (if env.leftOperandFirst then
            decide (env.clock tr > env.clock (tr ++ [⟨.now, .time (env.clock tr)⟩])
              + cfg.RunUntil * env.ticksPerMinute)
          else
            decide (env.clock (tr ++ [⟨.now, .time (env.clock tr)⟩]) > env.clock tr
              + cfg.RunUntil * env.ticksPerMinute))
          (tr ++ [⟨.now, .time (env.clock tr)⟩,
            ⟨.now, .time (env.clock (tr ++ [⟨.now, .time (env.clock tr)⟩]))⟩]) := by
  unfold deadlinePassed
  cases h : env.leftOperandFirst
  · simp only [Bool.false_eq_true, if_false]
    simp [bind_apply, readClock, Res.andThen, pure_apply]
  · simp only [if_true]
    simp [bind_apply, readClock, Res.andThen, pure_apply]

theorem stopCondition_ok (env : Env) (cfg : Config) (flag : Int) (tr : Trace) :
    ∃ stop tr1, stopCondition env cfg flag tr = .ok stop tr1 := by
  unfold stopCondition
  split_ifs
  · exact ⟨true, tr, rfl⟩
  · exact ⟨_, _, deadlinePassed_eq env cfg tr⟩

theorem loopBody_eq (env : Env) (cfg : Config) (n : Nat) (st : LoopState) (tr : Trace) :
    loopBody env cfg n st tr
      = (drainCameras env cfg st.imageCnt n st.errorFlag
          (tr ++ [⟨.sleep_for cfg.TriggerTiming, .done⟩])).andThen fun errorFlag =>
          fun tr1 => (stopCondition env cfg errorFlag tr1).andThen fun stop =>
            if stop then fun tr2 => (teardown env n tr2).andThen fun _ => Prog.pure none
            else Prog.pure
              (some { errorFlag := errorFlag, imageCnt := wrapInt (st.imageCnt + 1) }) :=
  rfl

theorem loopBody_continue (env : Env) (cfg : Config) (n : Nat) (st : LoopState)
    (tr tr1 tr2 : Trace) (flag : Int)
    (hd : drainCameras env cfg st.imageCnt n st.errorFlag
      (tr ++ [⟨.sleep_for cfg.TriggerTiming, .done⟩]) = .ok flag tr1)
    (hs : stopCondition env cfg flag tr1 = .ok false tr2) :
    loopBody env cfg n st tr
      = .ok (some { errorFlag := flag, imageCnt := wrapInt (st.imageCnt + 1) }) tr2 := by
  rw [loopBody_eq, hd, andThen_ok, hs, andThen_ok]
  rfl

theorem loopBody_stop (env : Env) (cfg : Config) (n : Nat) (st : LoopState)
    (tr tr1 tr2 : Trace) (flag : Int) (r : Res Unit)
    (hd : drainCameras env cfg st.imageCnt n st.errorFlag
      (tr ++ [⟨.sleep_for cfg.TriggerTiming, .done⟩]) = .ok flag tr1)
    (hs : stopCondition env cfg flag tr1 = .ok true tr2)
    (ht : teardown env n tr2 = r) :
    loopBody env cfg n st tr = r.andThen fun _ => Prog.pure none := by
  rw [loopBody_eq, hd, andThen_ok, hs, andThen_ok, ← ht]
  rfl

theorem loopBody_some (env : Env) (cfg : Config) (n : Nat) (st st1 : LoopState)
    (tr tr1 : Trace) (h : loopBody env cfg n st tr = .ok (some st1) tr1) :
    st1.imageCnt = wrapInt (st.imageCnt + 1)
      ∧ ∃ tr2, drainCameras env cfg st.imageCnt n st.errorFlag
          (tr ++ [⟨.sleep_for cfg.TriggerTiming, .done⟩]) = .ok st1.errorFlag tr2 := by
  cases hd : drainCameras env cfg st.imageCnt n st.errorFlag
      (tr ++ [⟨.sleep_for cfg.TriggerTiming, .done⟩]) with
  | raise e tr2 =>
    rw [loopBody_eq, hd] at h
    cases h
  | ok flag tr2 =>
    obtain ⟨stop, tr3, hs⟩ := stopCondition_ok env cfg flag tr2
    cases stop with
    | false =>
      rw [loopBody_continue env cfg n st tr tr2 tr3 flag hd hs] at h
      cases h
      exact ⟨rfl, tr2, rfl⟩
    | true =>
      rw [loopBody_stop env cfg n st tr tr2 tr3 flag _ hd hs rfl] at h
      cases ht : teardown env n tr3 with
      | ok u tr4 =>
        rw [ht] at h
        cases h
      | raise e tr4 =>
        rw [ht] at h
        cases h

theorem teardown_quiet (env : Env) (n : Nat) (tr : Trace)
    (hq : ∀ hist, ∀ c ∈ teardownCalls n, env.throws hist c = false) :
    teardown env n tr = .ok () (tr ++ allDone (teardownCalls n)) := by
  rcases sat_elim _ _ _ _ (teardown_sat env n tr) with
    ⟨_, ext, h1, rfl⟩ | ⟨_, ext, _, _, pre, c, post, hc, _, ht⟩
  · exact h1
  · have := hq (tr ++ allDone pre) c (by rw [hc]; simp)
    rw [this] at ht
    cases ht

/-! ## The passes of the loop -/

theorem wrapInt_succ (x : Int) : wrapInt (wrapInt x + 1) = wrapInt (x + 1) := by
  unfold wrapInt
  omega

theorem wrapInt_of_range (x : Int) (h1 : -2147483648 ≤ x) (h2 : x < 2147483648) :
    wrapInt x = x := by
  unfold wrapInt
  omega

theorem passStart_succ (env : Env) (cfg : Config) (n : Nat) (tr0 : Trace) (k : Nat)
    (st1 : LoopState) (tr1 : Trace)
    (h : passStart env cfg n tr0 (k + 1) = some (st1, tr1)) :
    ∃ st tr, passStart env cfg n tr0 k = some (st, tr)
      ∧ loopBody env cfg n st tr = .ok (some st1) tr1 := by
  unfold passStart at h
  cases hp : passStart env cfg n tr0 k with
  | none =>
    rw [hp] at h
    cases h
  | some p =>
    obtain ⟨st, tr⟩ := p
    rw [hp] at h
    refine ⟨st, tr, rfl, ?_⟩
    have h1 : (match loopBody env cfg n st tr with
        | Res.ok (some st1) tr2 => some (st1, tr2)
        | _ => none) = some (st1, tr1) := h
    cases hb : loopBody env cfg n st tr with
    | raise e tr2 =>
      rw [hb] at h1
      cases h1
    | ok r tr2 =>
      rw [hb] at h1
      cases r with
      | none => cases h1
      | some st2 =>
        cases h1
        rfl

theorem passStart_inv (env : Env) (cfg : Config) (n : Nat) (tr0 : Trace) (k : Nat)
    (st : LoopState) (tr : Trace) (h : passStart env cfg n tr0 k = some (st, tr)) :
    (st.errorFlag = 0 ∨ st.errorFlag = -1) ∧ st.imageCnt = wrapInt (k + 1) := by
  induction k generalizing st tr with
  | zero =>
    cases h
    exact ⟨Or.inl rfl, by decide⟩
  | succ k ih =>
    obtain ⟨st0, tr1, hp, hb⟩ := passStart_succ env cfg n tr0 k st tr h
    obtain ⟨ih1, ih2⟩ := ih st0 tr1 hp
    obtain ⟨hcnt, tr2, hd⟩ := loopBody_some env cfg n st0 st tr1 tr hb
    obtain ⟨out, _, src, hrun, _⟩ := drainCameras_ok env cfg _ n _ _ _ _ hd
    refine ⟨(hrun.flag_eq ih1).1, ?_⟩
    rw [hcnt, ih2, wrapInt_succ]
    push_cast
    ring_nf

/-! ## More facts about the shapes -/

theorem ImageRun.no_save_of_incomplete {pCam : Nat} {f : String} {b : Bool} {ext : Trace}
    (h : ImageRun pCam f b ext) (c : Nat)
    (hm : (⟨.IsIncomplete c, .bool true⟩ : Event) ∈ ext) :
    ∀ i f1 a, (⟨.Save i f1, a⟩ : Event) ∉ ext := by
  cases h <;> simp at hm ⊢

theorem ImageRun.save_name {pCam : Nat} {f : String} {b : Bool} {ext : Trace}
    (h : ImageRun pCam f b ext) (i : Nat) (f1 : String) (a : Answer)
    (hm : (⟨.Save i f1, a⟩ : Event) ∈ ext) : f1 = f := by
  cases h <;> simp at hm <;> exact hm.1.2

theorem ImageRun.save_of_convert {pCam : Nat} {f : String} {b : Bool} {ext : Trace}
    (h : ImageRun pCam f b ext) (i : Nat)
    (hm : (⟨.Convert i, .done⟩ : Event) ∈ ext) :
    ∃ a, (⟨.Save pCam f, a⟩ : Event) ∈ ext := by
  cases h <;> simp at hm ⊢

theorem ImageRun.convert_of_complete {pCam : Nat} {f : String} {b : Bool} {ext : Trace}
    (h : ImageRun pCam f b ext) (i : Nat)
    (hm : (⟨.IsIncomplete i, .bool false⟩ : Event) ∈ ext) :
    ∃ a, (⟨.Convert pCam, a⟩ : Event) ∈ ext := by
  cases h <;> simp at hm ⊢

theorem SerialRun.value_eq {pCam : Nat} {s : String} {ext : Trace}
    (h : SerialRun pCam (some s) ext) (c : Nat) (name s1 : String)
    (hm : (⟨.GetValue c name, .string s1⟩ : Event) ∈ ext) : s1 = s := by
  cases h <;> simp at hm
  exact hm.2

/-- A run of `AcquireImages` ends in the serial number block, or consists of the three
blocks and the marker of the trigger wait. -/
theorem AcquireRun.decompose {pCam : Nat} {n : Int} {src : String} {code : Int}
    {out : Trace} (h : AcquireRun pCam n src code out) :
    SerialRun pCam none out
      ∨ ∃ s sext g gext b iext, SerialRun pCam (some s) sext ∧ GrabRun pCam src g gext
          ∧ ImageRun pCam (imageFilename s n) b iext
          ∧ out = sext ++ gext ++ [⟨.ret_GrabNextImageByTrigger pCam g, .done⟩] ++ iext := by
  cases h with
  | serialRaised sext hs => exact Or.inl hs
  | imageRaised s sext g gext iext hs hg hi =>
    exact Or.inr ⟨s, sext, g, gext, false, iext, hs, hg, hi, rfl⟩
  | completed s sext g gext iext hs hg hi =>
    exact Or.inr ⟨s, sext, g, gext, true, iext, hs, hg, hi, rfl⟩

/-- In a run made of the three blocks, an event lies in the block of its origin. -/
theorem mem_blocks {pCam : Nat} {s src f : String} {g : Int} {b : Bool}
    {sext gext iext : Trace} (hs : SerialRun pCam (some s) sext)
    (hg : GrabRun pCam src g gext) (hi : ImageRun pCam f b iext) (e : Event)
    (he : e ∈ sext ++ gext ++ [⟨.ret_GrabNextImageByTrigger pCam g, .done⟩] ++ iext) :
    (origin e.call = .serial → e ∈ sext) ∧ (origin e.call = .image → e ∈ iext) := by
  simp only [List.mem_append, List.mem_singleton] at he
  rcases he with ((he | he) | rfl) | he
  · have := hs.serial_origin_eq e he
    refine ⟨fun _ => he, fun h => ?_⟩
    rw [this] at h
    cases h
  · have := hg.grab_origin_eq e he
    refine ⟨fun h => ?_, fun h => ?_⟩ <;>
    · rw [this] at h
      cases h
  · refine ⟨fun h => ?_, fun h => ?_⟩ <;> cases h
  · have := hi.image_origin_eq e he
    refine ⟨fun h => ?_, fun _ => he⟩
    rw [this] at h
    cases h

theorem imageFilename_of_serial (s : String) (hs : s ≠ "") (n : Nat) :
    imageFilename s (n : Int) = "Trigger-" ++ s ++ "-" ++ Nat.repr n ++ ".jpg" := by
  have h1 : (s != "") = true := by simpa using hs
  have h2 : toString (n : Int) = Nat.repr n := rfl
  unfold imageFilename
  rw [if_pos h1, h2]
  simp [String.append_assoc]

theorem run_unique {code code1 : Int} {tr out out1 : Trace} {r : Res Int}
    (h : r = .ok code (tr ++ out)) (h1 : r = .ok code1 (tr ++ out1)) :
    code1 = code ∧ out1 = out := by
  rw [h] at h1
  injection h1 with h2 h3
  exact ⟨h2.symm, (List.append_cancel_left h3).symm⟩

/-! ## The claims about `AcquireImages` -/

/-- C2.  What the code does when `Convert` raises after `GetNextImage` handed out an
image: the `catch` block is entered from inside the `try` block, the call of `Release`
in line 287 is skipped, and `AcquireImages` returns -1 with one image acquired and none
released. -/
theorem AcquireImages_skips_Release_when_Convert_raises :
    AcquireImages convertFailsEnv 0 1 "Hardware" []
        = .ok (-1) (quietStart ++ [⟨.GetNextImage 0 1, .done⟩,
            ⟨.IsIncomplete 0, .bool false⟩, ⟨.Convert 0, .raised⟩])
      ∧ acquireCount (AcquireImages convertFailsEnv 0 1 "Hardware" []).trace = 1
      ∧ releaseCount (AcquireImages convertFailsEnv 0 1 "Hardware" []).trace = 0 := by
  decide

/-- C9.  When the trigger wait of a call of `AcquireImages` returned 0, the image it
retrieved is marked incomplete and no call raised, the call saves no file and returns 0.
And in a pass of the loop entered with `errorFlag` 0 in which every call of
`AcquireImages` returned 0, the error branch of the stop condition is not taken, whatever
`ExitOnError` is: the stop condition is the deadline comparison alone, and when that is
false the loop goes on to the next pass with `errorFlag` 0 and the next sequence number. -/
theorem incomplete_image_is_not_an_error (env : Env) (pCam : Nat) (imageCnt : Int)
    (src : String) (tr : Trace) (code : Int) (out : Trace)
    (hrun : AcquireImages env pCam imageCnt src tr = .ok code (tr ++ out))
    (htrigger : (⟨.ret_GrabNextImageByTrigger pCam 0, .done⟩ : Event) ∈ out)
    (hincomplete : (⟨.IsIncomplete pCam, .bool true⟩ : Event) ∈ out)
    (hquiet : ∀ e ∈ out, e.answer ≠ .raised) :
    (∀ i f a, (⟨.Save i f, a⟩ : Event) ∉ out)
      ∧ code = 0
      ∧ ∀ (cfg : Config) (numCameras : Nat) (st : LoopState) (tr0 out0 : Trace) (flag : Int),
          st.errorFlag = 0 →
          drainCameras env cfg st.imageCnt numCameras st.errorFlag
              (tr0 ++ [⟨.sleep_for cfg.TriggerTiming, .done⟩])
            = .ok flag (tr0 ++ [⟨.sleep_for cfg.TriggerTiming, .done⟩] ++ out0) →
          (∀ i c a, (⟨.ret_AcquireImages i c, a⟩ : Event) ∈ out0 → c = 0) →
          flag = 0
            ∧ stopCondition env cfg flag (tr0 ++ [⟨.sleep_for cfg.TriggerTiming, .done⟩] ++ out0)
                = deadlinePassed env cfg
                    (tr0 ++ [⟨.sleep_for cfg.TriggerTiming, .done⟩] ++ out0)
            ∧ ∀ tr2, deadlinePassed env cfg
                  (tr0 ++ [⟨.sleep_for cfg.TriggerTiming, .done⟩] ++ out0) = .ok false tr2 →
                loopBody env cfg numCameras st tr0
                  = .ok (some { errorFlag := 0, imageCnt := wrapInt (st.imageCnt + 1) }) tr2 := by
  obtain ⟨code1, out1, hrun1, hshape⟩ := AcquireImages_run env pCam imageCnt src tr
  obtain ⟨rfl, rfl⟩ := run_unique hrun hrun1
  refine ⟨?_, hshape.code_zero_iff.mpr ⟨htrigger, hquiet⟩, ?_⟩
  · rcases hshape.decompose with hs | ⟨s, sext, g, gext, b, iext, hs, hg, hi, rfl⟩
    · exact absurd (hs.serial_origin_eq _ hincomplete) (by simp [origin])
    · have hin := (mem_blocks hs hg hi _ hincomplete).2 rfl
      intro i f a hm
      exact hi.no_save_of_incomplete pCam hin i f a ((mem_blocks hs hg hi _ hm).2 rfl)
  · intro cfg numCameras st tr0 out0 flag hflag hdrain hcodes
    obtain ⟨out2, hout, src2, hrun2, _⟩ := drainCameras_ok env cfg _ _ _ _ _ _ hdrain
    have hout2 : out2 = out0 := (List.append_cancel_left hout).symm
    subst hout2
    have hzero : flag = 0 :=
      (hrun2.flag_eq (Or.inl hflag)).2.mpr ⟨hflag, hcodes⟩
    subst hzero
    refine ⟨rfl, stopCondition_zero env cfg _, ?_⟩
    intro tr2 hdead
    refine loopBody_continue env cfg numCameras st tr0 _ tr2 0 hdrain ?_
    rw [stopCondition_zero]
    exact hdead

/-- C9 for camera 0 in `incompleteEnv` (every image incomplete, nothing raises): no file,
code 0, and the pass of the loop for this camera goes on to sequence number 2 although
`ExitOnError` is set. -/
theorem incomplete_image_is_not_an_error_witness :
    AcquireImages incompleteEnv 0 1 "Hardware" []
        = .ok 0 ([] ++ (quietStart ++ [⟨.GetNextImage 0 1, .done⟩,
            ⟨.IsIncomplete 0, .bool true⟩, ⟨.Release 0, .done⟩]))
      ∧ hardwareConfig.ExitOnError = true
      ∧ ((∀ i f a, (⟨.Save i f, a⟩ : Event) ∉ quietStart ++ [⟨.GetNextImage 0 1, .done⟩,
            ⟨.IsIncomplete 0, .bool true⟩, ⟨.Release 0, .done⟩])
        ∧ (passStart incompleteEnv hardwareConfig 1 [] 1).map (fun p => p.1)
            = some { errorFlag := 0, imageCnt := 2 }) :=
  ⟨by decide, by decide,
    (incomplete_image_is_not_an_error incompleteEnv 0 1 "Hardware" [] 0 _
      (by decide) (by decide) (by decide) (by decide)).1,
    by decide⟩

/-- C10.  For a complete image of a camera whose serial number was read as the non-empty
string `s`, drained at sequence number `n`: `Convert` is called, every file
`AcquireImages` saves is named "Trigger-" ++ s ++ "-" ++ decimal n ++ ".jpg", and
`Save` is called with that name as soon as `Convert` returned. -/
theorem saved_file_name (env : Env) (pCam : Nat) (n : Nat) (src : String) (tr : Trace)
    (code : Int) (out : Trace) (s : String)
    (hrun : AcquireImages env pCam (n : Int) src tr = .ok code (tr ++ out))
    (hserial : (⟨.GetValue pCam "DeviceSerialNumber", .string s⟩ : Event) ∈ out)
    (hs : s ≠ "")
    (hcomplete : (⟨.IsIncomplete pCam, .bool false⟩ : Event) ∈ out) :
    (∃ a, (⟨.Convert pCam, a⟩ : Event) ∈ out)
      ∧ (∀ i f a, (⟨.Save i f, a⟩ : Event) ∈ out →
          f = "Trigger-" ++ s ++ "-" ++ Nat.repr n ++ ".jpg")
      ∧ ((⟨.Convert pCam, .done⟩ : Event) ∈ out →
          ∃ a, (⟨.Save pCam ("Trigger-" ++ s ++ "-" ++ Nat.repr n ++ ".jpg"), a⟩ : Event)
            ∈ out) := by
  obtain ⟨code1, out1, hrun1, hshape⟩ := AcquireImages_run env pCam (n : Int) src tr
  obtain ⟨rfl, rfl⟩ := run_unique hrun hrun1
  rcases hshape.decompose with h0 | ⟨s1, sext, g, gext, b, iext, h1, hg, hi, rfl⟩
  · exact absurd (h0.serial_origin_eq _ hcomplete) (by simp [origin])
  · have hval := h1.value_eq pCam _ s ((mem_blocks h1 hg hi _ hserial).1 rfl)
    subst hval
    rw [imageFilename_of_serial s hs n] at hi
    have hin := (mem_blocks h1 hg hi _ hcomplete).2 rfl
    refine ⟨?_, ?_, ?_⟩
    · obtain ⟨a, ha⟩ := hi.convert_of_complete pCam hin
      exact ⟨a, List.mem_append_right _ ha⟩
    · intro i f a hm
      exact hi.save_name i f a ((mem_blocks h1 hg hi _ hm).2 rfl)
    · intro hm
      obtain ⟨a, ha⟩ := hi.save_of_convert pCam ((mem_blocks h1 hg hi _ hm).2 rfl)
      exact ⟨a, List.mem_append_right _ ha⟩

/-- C10 in the first pass (sequence number 1) for camera 0 with serial number
"21234567": the file is Trigger-21234567-1.jpg. -/
theorem saved_file_name_witness :
    AcquireImages quietEnv 0 ((1 : Nat) : Int) "Hardware" []
        = .ok 0 ([] ++ (quietStart ++ [⟨.GetNextImage 0 1, .done⟩,
            ⟨.IsIncomplete 0, .bool false⟩, ⟨.Convert 0, .done⟩,
            ⟨.Save 0 "Trigger-21234567-1.jpg", .done⟩, ⟨.Release 0, .done⟩]))
      ∧ "Trigger-" ++ "21234567" ++ "-" ++ Nat.repr 1 ++ ".jpg" = "Trigger-21234567-1.jpg"
      ∧ ∀ i f a, (⟨.Save i f, a⟩ : Event) ∈ quietStart ++ [⟨.GetNextImage 0 1, .done⟩,
            ⟨.IsIncomplete 0, .bool false⟩, ⟨.Convert 0, .done⟩,
            ⟨.Save 0 "Trigger-21234567-1.jpg", .done⟩, ⟨.Release 0, .done⟩] →
          f = "Trigger-" ++ "21234567" ++ "-" ++ Nat.repr 1 ++ ".jpg" :=
  ⟨by decide, by decide,
    (saved_file_name quietEnv 0 1 "Hardware" [] 0 _ "21234567"
      (by decide) (by decide) (by decide) (by decide)).2.1⟩

/-! ## The claims about the loop -/

/-- C1.  The sequence number is 1 in the first pass of the loop.  In pass `k + 1`, as
long as the number fits in an `int`, it is `k + 1`, whatever the calls of the earlier
passes gave; the calls of `AcquireImages` of a pass that drains all cameras are those for
the cameras `0, ..., numCameras - 1` in this order, each with sequence number `k + 1`;
and a pass that does not stop the loop hands on the number increased by 1. -/
theorem imageCnt_counts_passes (env : Env) (cfg : Config) (numCameras : Nat) (tr0 : Trace)
    (k : Nat) (st : LoopState) (tr : Trace) (hk : k + 1 < 2147483648)
    (hstart : passStart env cfg numCameras tr0 k = some (st, tr)) :
    (passStart env cfg numCameras tr0 0).map (fun p => p.1.imageCnt) = some 1
      ∧ st.imageCnt = (k : Int) + 1
      ∧ (∀ flag tr1,
          drainCameras env cfg st.imageCnt numCameras st.errorFlag
              (tr ++ [⟨.sleep_for cfg.TriggerTiming, .done⟩]) = .ok flag tr1 →
          ∃ out, tr1 = tr ++ [⟨.sleep_for cfg.TriggerTiming, .done⟩] ++ out
            ∧ callMarkers out = (List.range numCameras).map fun i => (i, (k : Int) + 1))
      ∧ (∀ st1 tr1, loopBody env cfg numCameras st tr = .ok (some st1) tr1 →
          st1.imageCnt = wrapInt (st.imageCnt + 1)
            ∧ (k + 2 < 2147483648 → st1.imageCnt = st.imageCnt + 1)) := by
  have hcnt : st.imageCnt = (k : Int) + 1 := by
    rw [(passStart_inv env cfg numCameras tr0 k st tr hstart).2]
    exact wrapInt_of_range _ (by omega) (by omega)
  refine ⟨rfl, hcnt, ?_, ?_⟩
  · intro flag tr1 hd
    obtain ⟨out, hout, src, hrun, _⟩ := drainCameras_ok env cfg _ _ _ _ _ _ hd
    refine ⟨out, hout, ?_⟩
    rw [hrun.callMarkers_eq, hcnt]
  · intro st1 tr1 hb
    have h1 := (loopBody_some env cfg numCameras st st1 tr tr1 hb).1
    refine ⟨h1, fun hk2 => ?_⟩
    rw [h1, hcnt]
    exact wrapInt_of_range _ (by omega) (by omega)

/-- C1 in the second pass of a run with one camera. -/
theorem imageCnt_counts_passes_witness :
    1 + 1 < 2147483648
      ∧ passStart quietEnv hardwareConfig 1 [] 1
          = some ({ errorFlag := 0, imageCnt := 2 }, quietFirstPass)
      ∧ ({ errorFlag := 0, imageCnt := 2 } : LoopState).imageCnt = ((1 : Nat) : Int) + 1 :=
  ⟨by decide, by decide,
    (imageCnt_counts_passes quietEnv hardwareConfig 1 [] 1 _ quietFirstPass
      (by decide) (by decide)).2.1⟩

/-- C3.  What the code does with `RunUntil` 0 and no error: the deadline comparison
reads the clock twice, once for `system_clock::now()` and once for `EXPERIMENT_START`.
On a coarse clock that advanced by 1000 ticks since the start of the run, the deadline
test of the specification holds at the first check, but both readings of the code are
1000 and its stop condition is false; the same happens on a clock that advances at every
event when the left operand is read first.  In both runs the loop is still running in its
fourth pass. -/
theorem RunUntil_zero_does_not_stop_the_loop :
    hardwareConfig.RunUntil = 0
      ∧ deadlineBySpec (coarseClockEnv.clock []) (coarseClockEnv.clock (quietFirstPass.take 13))
          hardwareConfig.RunUntil coarseClockEnv.ticksPerMinute = true
      ∧ stopCondition coarseClockEnv hardwareConfig 0 (quietFirstPass.take 13)
          = .ok false (quietFirstPass.take 13 ++ [⟨.now, .time 1000⟩, ⟨.now, .time 1000⟩])
      ∧ (passStart coarseClockEnv hardwareConfig 1 [] 3).map (fun p => p.1)
          = some { errorFlag := 0, imageCnt := 4 }
      ∧ stopCondition quietEnv hardwareConfig 0 (quietFirstPass.take 13)
          = .ok false quietFirstPass
      ∧ (passStart quietEnv hardwareConfig 1 [] 3).map (fun p => p.1)
          = some { errorFlag := 0, imageCnt := 4 } := by
  decide

/-- C4.  What the code does with `RunUntil` 1 when every sleep lasts 1000 seconds: at the
first stop check the clock is more than one minute past its reading at the start of the
run, so the deadline test of the specification holds; the code compares the current
reading with a second reading taken one tick earlier, finds the deadline not passed, and
the loop is still running in its fourth pass, 3000 seconds after the start. -/
theorem deadline_is_measured_from_the_check :
    oneMinuteConfig.RunUntil = 1
      ∧ deadlineBySpec (slowEnv.clock [])
          (slowEnv.clock (quietFirstPass.take 13)) oneMinuteConfig.RunUntil
          slowEnv.ticksPerMinute = true
      ∧ stopCondition slowEnv oneMinuteConfig 0 (quietFirstPass.take 13)
          = .ok false (quietFirstPass.take 13
              ++ [⟨.now, .time 1000000000013⟩, ⟨.now, .time 1000000000014⟩])
      ∧ (passStart slowEnv oneMinuteConfig 1 [] 3).map (fun p => p.1)
          = some { errorFlag := 0, imageCnt := 4 } := by
  decide

/-- C5.  With `ExitOnError` set, a pass of the loop in which a call of `AcquireImages`
returned a non-zero code ends the loop, provided the calls of the teardown return: the
pass is followed by `EndAcquisition` and `DeInit` for every camera in list order, then
`Clear`, then `ReleaseInstance`, each once; `main` then returns and no further pass
starts. -/
theorem error_with_ExitOnError_stops_the_loop (env : Env) (cfg : Config)
    (numCameras : Nat) (tr0 : Trace) (k : Nat) (st : LoopState) (tr : Trace) (flag : Int)
    (out : Trace) (hexit : cfg.ExitOnError = true)
    (hstart : passStart env cfg numCameras tr0 k = some (st, tr))
    (hdrain : drainCameras env cfg st.imageCnt numCameras st.errorFlag
        (tr ++ [⟨.sleep_for cfg.TriggerTiming, .done⟩])
      = .ok flag (tr ++ [⟨.sleep_for cfg.TriggerTiming, .done⟩] ++ out))
    (herror : ∃ i c, c ≠ 0 ∧ (⟨.ret_AcquireImages i c, .done⟩ : Event) ∈ out)
    (hteardown : ∀ hist, ∀ c ∈ teardownCalls numCameras, env.throws hist c = false) :
    loopBody env cfg numCameras st tr
        = .ok none (tr ++ [⟨.sleep_for cfg.TriggerTiming, .done⟩] ++ out
            ++ allDone (teardownCalls numCameras))
      ∧ (∀ fuel, whileLoop env cfg numCameras (fuel + 1) st tr
          = .returned 0 (tr ++ [⟨.sleep_for cfg.TriggerTiming, .done⟩] ++ out
              ++ allDone (teardownCalls numCameras)))
      ∧ passStart env cfg numCameras tr0 (k + 1) = none := by
  obtain ⟨out1, hout, src, hrun, _⟩ := drainCameras_ok env cfg _ _ _ _ _ _ hdrain
  have hout1 : out1 = out := (List.append_cancel_left hout).symm
  subst hout1
  have hinv := (passStart_inv env cfg numCameras tr0 k st tr hstart).1
  have hflag : flag ≠ 0 := by
    intro h0
    obtain ⟨i, c, hc, hm⟩ := herror
    exact hc (((hrun.flag_eq hinv).2.mp h0).2 i c .done hm)
  have hbody : loopBody env cfg numCameras st tr
      = .ok none (tr ++ [⟨.sleep_for cfg.TriggerTiming, .done⟩] ++ out1
          ++ allDone (teardownCalls numCameras)) := by
    rw [loopBody_stop env cfg numCameras st tr _ _ flag _ hdrain
      (stopCondition_error env cfg flag _ hflag hexit)
      (teardown_quiet env numCameras _ hteardown)]
    rfl
  refine ⟨hbody, ?_, ?_⟩
  · intro fuel
    unfold whileLoop
    rw [hbody]
  · unfold passStart
    rw [hstart]
    simp only [hbody]

/-- C5 in the first pass of a run with one camera whose buffer holds no image. -/
theorem error_with_ExitOnError_stops_the_loop_witness :
    hardwareConfig.ExitOnError = true
      ∧ drainCameras noImageEnv hardwareConfig 1 1 0 ([] ++ [⟨.sleep_for 100, .done⟩])
          = .ok (-1) ([] ++ [⟨.sleep_for 100, .done⟩] ++ noImagePass)
      ∧ mainLoop noImageEnv hardwareConfig 1 1 []
          = .returned 0 ([] ++ [⟨.sleep_for 100, .done⟩] ++ noImagePass
              ++ allDone [.EndAcquisition 0, .DeInit 0, .Clear, .ReleaseInstance]) :=
  ⟨by decide, by decide,
    (error_with_ExitOnError_stops_the_loop noImageEnv hardwareConfig 1 [] 0 loopEntry []
      (-1) noImagePass (by decide) rfl (by decide) ⟨0, -1, by decide, by decide⟩
      (fun _ c hc => by
        simp only [noImageEnv, decide_eq_false_iff_not]
        rintro rfl
        revert hc
        decide)).2.1 0⟩

/-- C6, as the code has it.  The teardown makes its calls in order: `EndAcquisition` and
`DeInit` for every camera in list order, then `Clear`, then `ReleaseInstance`.  Either
all of them return, or the first call that raises ends the teardown: the calls before it
returned, none after it is made, and the exception leaves the teardown uncaught. -/
theorem teardown_runs_until_first_exception (env : Env) (numCameras : Nat) (tr : Trace) :
    teardown env numCameras tr = .ok () (tr ++ allDone (teardownCalls numCameras))
      ∨ ∃ pre c post, teardownCalls numCameras = pre ++ c :: post
          ∧ env.throws (tr ++ allDone pre) c = true
          ∧ teardown env numCameras tr
              = .raise .Spinnaker (tr ++ (allDone pre ++ [⟨c, .raised⟩])) := by
  rcases sat_elim _ _ _ _ (teardown_sat env numCameras tr) with
    ⟨_, ext, h1, rfl⟩ | ⟨_, ext, h1, rfl, pre, c, post, hc, rfl, ht⟩
  · exact Or.inl h1
  · exact Or.inr ⟨pre, c, post, hc, ht, h1⟩

/-- C6 fails on the code: with two cameras, when `EndAcquisition` raises for camera 0,
the teardown ends there.  `DeInit` is not called for camera 0, camera 1 is neither
stopped nor deinitialised, and `Clear` and `ReleaseInstance` are not called. -/
theorem teardown_abandoned_after_exception :
    teardown endAcquisitionFailsEnv 2 [] = .raise .Spinnaker [⟨.EndAcquisition 0, .raised⟩]
      ∧ teardownCalls 2 = [.EndAcquisition 0, .DeInit 0, .EndAcquisition 1, .DeInit 1,
          .Clear, .ReleaseInstance] := by
  decide

/-! ## The file name without a serial number -/

theorem imageFilename_empty (n : Nat) :
    imageFilename "" (n : Int) = "Trigger-" ++ Nat.repr n ++ ".jpg" := by
  have h2 : toString (n : Int) = Nat.repr n := rfl
  unfold imageFilename
  rw [h2]
  simp [String.append_assoc]

theorem SerialRun.empty_of_no_value {pCam : Nat} {s : String} {ext : Trace}
    (h : SerialRun pCam (some s) ext)
    (hv : ∀ s1, (⟨.GetValue pCam "DeviceSerialNumber", .string s1⟩ : Event) ∈ ext → s1 = "") :
    s = "" := by
  cases h with
  | unavailable => rfl
  | unreadable => rfl
  | value => exact hv s (by simp)

/-- C11, as the code has it.  For a camera whose serial number is unknown (the node
could not be read, or its value is the empty string), drained at sequence number `n`:
every file `AcquireImages` saves is named "Trigger-" ++ decimal n ++ ".jpg", with one dash
only, and `Save` is called with that name as soon as `Convert` returned. -/
theorem file_name_without_serial (env : Env) (pCam : Nat) (n : Nat) (src : String)
    (tr : Trace) (code : Int) (out : Trace)
    (hrun : AcquireImages env pCam (n : Int) src tr = .ok code (tr ++ out))
    (hserial : ∀ s, (⟨.GetValue pCam "DeviceSerialNumber", .string s⟩ : Event) ∈ out →
      s = "") :
    imageFilename "" (n : Int) = "Trigger-" ++ Nat.repr n ++ ".jpg"
      ∧ (∀ i f a, (⟨.Save i f, a⟩ : Event) ∈ out → f = "Trigger-" ++ Nat.repr n ++ ".jpg")
      ∧ ((⟨.Convert pCam, .done⟩ : Event) ∈ out →
          ∃ a, (⟨.Save pCam ("Trigger-" ++ Nat.repr n ++ ".jpg"), a⟩ : Event) ∈ out) := by
  obtain ⟨code1, out1, hrun1, hshape⟩ := AcquireImages_run env pCam (n : Int) src tr
  obtain ⟨rfl, rfl⟩ := run_unique hrun hrun1
  refine ⟨imageFilename_empty n, ?_⟩
  rcases hshape.decompose with h0 | ⟨s1, sext, g, gext, b, iext, h1, hg, hi, rfl⟩
  · refine ⟨fun i f a hm => ?_, fun hm => ?_⟩
    · exact absurd (h0.serial_origin_eq _ hm) (by simp [origin])
    · exact absurd (h0.serial_origin_eq _ hm) (by simp [origin])
  · have hempty : s1 = "" := h1.empty_of_no_value fun s hm =>
      hserial s (by simp [hm])
    subst hempty
    rw [imageFilename_empty n] at hi
    refine ⟨?_, ?_⟩
    · intro i f a hm
      exact hi.save_name i f a ((mem_blocks h1 hg hi _ hm).2 rfl)
    · intro hm
      obtain ⟨a, ha⟩ := hi.save_of_convert pCam ((mem_blocks h1 hg hi _ hm).2 rfl)
      exact ⟨a, List.mem_append_right _ ha⟩

/-- C11 at sequence number 5 for camera 0 when the serial number node cannot be read. -/
theorem file_name_without_serial_witness :
    AcquireImages noSerialEnv 0 ((5 : Nat) : Int) "Hardware" [] = .ok 0 ([] ++ noSerialRun)
      ∧ ∀ i f a, (⟨.Save i f, a⟩ : Event) ∈ noSerialRun →
          f = "Trigger-" ++ Nat.repr 5 ++ ".jpg" :=
  ⟨by decide,
    (file_name_without_serial noSerialEnv 0 5 "Hardware" [] 0 noSerialRun (by decide)
      (fun s hm => by simp [noSerialRun] at hm)).2.1⟩

/-- C11 fails on the code: when the serial number node cannot be read, the file saved at
sequence number 5 is Trigger-5.jpg; the name Trigger--5.jpg of the claim is not used. -/
theorem empty_serial_drops_the_dash :
    imageFilename "" 5 = "Trigger-5.jpg"
      ∧ imageFilename "" 5 ≠ "Trigger--" ++ Nat.repr 5 ++ ".jpg"
      ∧ (⟨.Save 0 "Trigger-5.jpg", .done⟩ : Event)
          ∈ (AcquireImages noSerialEnv 0 5 "Hardware" []).trace
      ∧ (⟨.Save 0 "Trigger--5.jpg", .done⟩ : Event)
          ∉ (AcquireImages noSerialEnv 0 5 "Hardware" []).trace := by
  decide

/-! ## Leaving the loop -/

/-- The loop started at the entry state with `k` more passes than `fuel` goes on, after
`k` passes that did not stop, as the loop started at the state of pass `k + 1`. -/
theorem whileLoop_passStart (env : Env) (cfg : Config) (n : Nat) (tr0 : Trace) (k : Nat)
    (st : LoopState) (tr : Trace) (h : passStart env cfg n tr0 k = some (st, tr))
    (fuel : Nat) :
    whileLoop env cfg n (k + fuel) loopEntry tr0 = whileLoop env cfg n fuel st tr := by
  induction k generalizing st tr fuel with
  | zero =>
    cases h
    rw [Nat.zero_add]
  | succ k ih =>
    obtain ⟨st0, tr1, hp, hb⟩ := passStart_succ env cfg n tr0 k st tr h
    have h1 := ih st0 tr1 hp (fuel + 1)
    have h2 : k + 1 + fuel = k + (fuel + 1) := by omega
    rw [h2, h1]
    show (match loopBody env cfg n st0 tr1 with
      | .ok none tr1 => Outcome.returned 0 tr1
      | .ok (some st1) tr1 => whileLoop env cfg n fuel st1 tr1
      | .raise e tr1 => .uncaught e tr1) = _
    rw [hb]

theorem whileLoop_returned (env : Env) (cfg : Config) (n : Nat) (fuel : Nat)
    (st : LoopState) (tr : Trace) (code : Int) (out : Trace)
    (h : whileLoop env cfg n fuel st tr = .returned code out) : code = 0 := by
  induction fuel generalizing st tr with
  | zero => cases h
  | succ fuel ih =>
    unfold whileLoop at h
    cases hb : loopBody env cfg n st tr with
    | raise e tr1 =>
      rw [hb] at h
      cases h
    | ok r tr1 =>
      rw [hb] at h
      cases r with
      | none =>
        cases h
        rfl
      | some st1 => exact ih st1 tr1 h

theorem stopCondition_true (env : Env) (cfg : Config) (flag : Int) (tr tr1 : Trace)
    (h : stopCondition env cfg flag tr = .ok true tr1) :
    (flag ≠ 0 ∧ cfg.ExitOnError = true ∧ tr1 = tr)
      ∨ deadlinePassed env cfg tr = .ok true tr1 := by
  unfold stopCondition at h
  split_ifs at h with hc
  · left
    cases h
    simp only [Bool.and_eq_true, bne_iff_ne, ne_eq] at hc
    exact ⟨hc.1, hc.2, rfl⟩
  · exact Or.inr h

/-- C14.  When in some pass of the loop the stop condition is true, for either of its two
causes (a non-zero `errorFlag` with `ExitOnError` set, or the deadline comparison), and the
calls of the teardown return, then `main` returns 0, and the history ends with the calls
of the teardown: the run of the loop with enough fuel for this pass returns 0, and so does
every run of `main` whose start-up led to this loop.  No run of the loop returns another
code. -/
theorem main_returns_zero_after_stop (env : Env) (cfg : Config) (numCameras : Nat)
    (tr0 : Trace) (k : Nat) (st : LoopState) (tr : Trace) (flag : Int) (tr1 tr2 : Trace)
    (hstart : passStart env cfg numCameras tr0 k = some (st, tr))
    (hdrain : drainCameras env cfg st.imageCnt numCameras st.errorFlag
        (tr ++ [⟨.sleep_for cfg.TriggerTiming, .done⟩]) = .ok flag tr1)
    (hstop : stopCondition env cfg flag tr1 = .ok true tr2)
    (hteardown : ∀ hist, ∀ c ∈ teardownCalls numCameras, env.throws hist c = false) :
    ((flag ≠ 0 ∧ cfg.ExitOnError = true ∧ tr2 = tr1)
        ∨ deadlinePassed env cfg tr1 = .ok true tr2)
      ∧ (∀ fuel, k < fuel →
          mainLoop env cfg numCameras fuel tr0
            = .returned 0 (tr2 ++ allDone (teardownCalls numCameras)))
      ∧ (∀ file fuel, k < fuel →
          startup env numCameras file [] = .ok (some cfg) tr0 →
          main env numCameras file fuel
            = .returned 0 (tr2 ++ allDone (teardownCalls numCameras)))
      ∧ ∀ fuel code out, mainLoop env cfg numCameras fuel tr0 = .returned code out →
          code = 0 := by
  have hbody : loopBody env cfg numCameras st tr
      = .ok none (tr2 ++ allDone (teardownCalls numCameras)) := by
    rw [loopBody_stop env cfg numCameras st tr _ _ flag _ hdrain hstop
      (teardown_quiet env numCameras _ hteardown)]
    rfl
  have hloop : ∀ fuel, k < fuel →
      mainLoop env cfg numCameras fuel tr0
        = .returned 0 (tr2 ++ allDone (teardownCalls numCameras)) := by
    intro fuel hk
    obtain ⟨m, rfl⟩ : ∃ m, fuel = k + (m + 1) := ⟨fuel - k - 1, by omega⟩
    unfold mainLoop
    rw [whileLoop_passStart env cfg numCameras tr0 k st tr hstart]
    unfold whileLoop
    rw [hbody]
  refine ⟨stopCondition_true env cfg flag tr1 tr2 hstop, hloop, ?_, ?_⟩
  · intro file fuel hk hs
    unfold main
    rw [hs]
    exact hloop fuel hk
  · intro fuel code out h
    exact whileLoop_returned env cfg numCameras fuel _ _ code out h

/-- C14 in the first pass of a run with one camera: a stop by the deadline (`slowEnv`,
`RunUntil` 0, no error) and a stop by an error with `ExitOnError` set (`noImageEnv`); both
runs return 0. -/
theorem main_returns_zero_after_stop_witness :
    (stopCondition slowEnv hardwareConfig 0 (quietFirstPass.take 13) = .ok true slowPass
        ∧ mainLoop slowEnv hardwareConfig 1 1 []
          = .returned 0 (slowPass
              ++ allDone [.EndAcquisition 0, .DeInit 0, .Clear, .ReleaseInstance]))
      ∧ (stopCondition noImageEnv hardwareConfig (-1) ([⟨.sleep_for 100, .done⟩] ++ noImagePass)
          = .ok true ([⟨.sleep_for 100, .done⟩] ++ noImagePass)
        ∧ mainLoop noImageEnv hardwareConfig 1 1 []
          = .returned 0 ([⟨.sleep_for 100, .done⟩] ++ noImagePass
              ++ allDone [.EndAcquisition 0, .DeInit 0, .Clear, .ReleaseInstance])) :=
  ⟨⟨by decide,
    (main_returns_zero_after_stop slowEnv hardwareConfig 1 [] 0 loopEntry [] 0
      (quietFirstPass.take 13) slowPass rfl (by decide) (by decide)
      (fun _ _ _ => rfl)).2.1 1 (by decide)⟩,
   ⟨by decide,
    (main_returns_zero_after_stop noImageEnv hardwareConfig 1 [] 0 loopEntry [] (-1)
      ([⟨.sleep_for 100, .done⟩] ++ noImagePass) ([⟨.sleep_for 100, .done⟩] ++ noImagePass)
      rfl (by decide) (by decide)
      (fun _ c hc => by
        simp only [noImageEnv, decide_eq_false_iff_not]
        rintro rfl
        revert hc
        decide)).2.1 1 (by decide)⟩⟩

/-! ## The order of a pass -/

theorem passSteps_append (l1 l2 : Trace) :
    passSteps (l1 ++ l2) = passSteps l1 ++ passSteps l2 := by
  unfold passSteps
  exact List.filterMap_append _ _ _

theorem returnCodes_append (l1 l2 : Trace) :
    returnCodes (l1 ++ l2) = returnCodes l1 ++ returnCodes l2 := by
  unfold returnCodes
  exact List.filterMap_append _ _ _

theorem returnCodes_eq_nil (l : Trace) (h : ∀ e ∈ l, origin e.call ≠ .loop) :
    returnCodes l = [] := by
  induction l with
  | nil => rfl
  | cons e l ih =>
    have he := h e (List.mem_cons_self _ _)
    have hl := ih (fun x hx => h x (List.mem_cons_of_mem _ hx))
    obtain ⟨c, a⟩ := e
    cases c <;> first | exact hl | exact absurd rfl he

theorem SerialRun.serial_passSteps {pCam : Nat} {r : Option String} {ext : Trace}
    (h : SerialRun pCam r ext) : passSteps ext = [] := by
  cases h <;> rfl

theorem GrabRun.grab_passSteps {pCam : Nat} {src : String} {g : Int} {ext : Trace}
    (h : GrabRun pCam src g ext) : passSteps ext = [] := by
  cases h <;> rfl

theorem ImageRun.image_passSteps {pCam : Nat} {f : String} {b : Bool} {ext : Trace}
    (h : ImageRun pCam f b ext) : passSteps ext = [(pCam, true)] := by
  cases h <;> rfl

/-- A call of `AcquireImages` makes the trigger wait and then one frame request, or
neither when an SDK exception was raised while the serial number was read. -/
theorem AcquireRun.acquire_passSteps {pCam : Nat} {n : Int} {src : String} {code : Int}
    {out : Trace} (h : AcquireRun pCam n src code out) :
    (passSteps out = [] ∧ ∃ e ∈ out, origin e.call = .serial ∧ e.answer = .raised)
      ∨ passSteps out = [(pCam, false), (pCam, true)] := by
  rcases h.decompose with hs | ⟨s, sext, g, gext, b, iext, hs, hg, hi, rfl⟩
  · obtain ⟨e, he, hr⟩ := hs.serial_raised
    exact Or.inl ⟨hs.serial_passSteps, e, he, hs.serial_origin_eq e he, hr⟩
  · right
    rw [passSteps_append, passSteps_append, passSteps_append, hs.serial_passSteps,
      hg.grab_passSteps, hi.image_passSteps]
    rfl

theorem DrainRun.drain_passSteps {k : Int} {src : String} {n : Nat} {flag flag1 : Int}
    {out : Trace} (h : DrainRun k src n flag flag1 out) :
    ∃ cams : List Nat, cams.Sublist (List.range n)
      ∧ passSteps out = cams.flatMap (fun i => [(i, false), (i, true)])
      ∧ ((∀ e ∈ out, origin e.call = .serial → e.answer ≠ .raised) →
          cams = List.range n) := by
  induction h with
  | nil => exact ⟨[], List.Sublist.refl _, rfl, fun _ => rfl⟩
  | snoc n flag flag1 code out aout h ha ih =>
    obtain ⟨cams, hsub, hsteps, hall⟩ := ih
    have hsteps1 : passSteps (out ++ [⟨.call_AcquireImages n k src, .done⟩] ++ aout
        ++ [⟨.ret_AcquireImages n code, .done⟩])
        = passSteps out ++ passSteps aout := by
      rw [passSteps_append, passSteps_append, passSteps_append]
      simp [passSteps]
    rcases ha.acquire_passSteps with ⟨h0, e, he, ho, hr⟩ | h1
    · refine ⟨cams, ?_, ?_, ?_⟩
      · rw [List.range_succ]
        exact hsub.trans (List.sublist_append_left _ _)
      · rw [hsteps1, h0, hsteps, List.append_nil]
      · intro hq
        exact absurd hr (hq e (by simp [he]) ho)
    · refine ⟨cams ++ [n], ?_, ?_, ?_⟩
      · rw [List.range_succ]
        exact List.Sublist.append hsub (List.Sublist.refl _)
      · rw [hsteps1, h1, hsteps]
        simp
      · intro hq
        rw [List.range_succ, hall (fun e he => hq e (by simp [he]))]

theorem DrainRun.returnCodes_eq {k : Int} {src : String} {n : Nat} {flag flag1 : Int}
    {out : Trace} (h : DrainRun k src n flag flag1 out) :
    (returnCodes out).length = n ∧ flag1 = (returnCodes out).foldl bitOr flag := by
  induction h with
  | nil => exact ⟨rfl, rfl⟩
  | snoc n flag flag1 code out aout h ha ih =>
    have hcodes : returnCodes (out ++ [⟨.call_AcquireImages n k src, .done⟩] ++ aout
        ++ [⟨.ret_AcquireImages n code, .done⟩]) = returnCodes out ++ [code] := by
      rw [returnCodes_append, returnCodes_append, returnCodes_append,
        returnCodes_eq_nil aout ha.origin_ne_loop]
      simp [returnCodes]
    rw [hcodes]
    refine ⟨by simp [ih.1], ?_⟩
    rw [List.foldl_append, ← ih.2]
    rfl

/-- C15.  One pass of the loop, with a trigger source in the configuration.  The sleep
of `TriggerTiming` milliseconds is the first event.  Then the loop over the cameras runs
to its end whatever the calls return: `AcquireImages` is called once for every camera
`0, ..., numCameras - 1` in this order with the sequence number of the pass, and every call
makes its trigger wait and then one frame request (the only call that makes neither is
one in which reading the serial number raised an SDK exception; the later cameras are
still processed).  The `errorFlag` after the loop is the previous value or-ed with the
return codes of all the calls in order, and the stop condition is evaluated with this
value after the events of the last camera. -/
theorem pass_processes_every_camera_in_order (env : Env) (cfg : Config) (numCameras : Nat)
    (st : LoopState) (tr : Trace) (src : String) (hsrc : cfg.TriggerSource = some src) :
    ∃ flag out,
      drainCameras env cfg st.imageCnt numCameras st.errorFlag
          (tr ++ [⟨.sleep_for cfg.TriggerTiming, .done⟩])
        = .ok flag (tr ++ [⟨.sleep_for cfg.TriggerTiming, .done⟩] ++ out)
      ∧ DrainRun st.imageCnt src numCameras st.errorFlag flag out
      ∧ callMarkers out = (List.range numCameras).map (fun i => (i, st.imageCnt))
      ∧ (∃ cams : List Nat, cams.Sublist (List.range numCameras)
          ∧ passSteps out = cams.flatMap (fun i => [(i, false), (i, true)])
          ∧ ((∀ e ∈ out, origin e.call = .serial → e.answer ≠ .raised) →
              cams = List.range numCameras))
      ∧ (returnCodes out).length = numCameras
      ∧ flag = (returnCodes out).foldl bitOr st.errorFlag
      ∧ loopBody env cfg numCameras st tr
          = (stopCondition env cfg flag
              (tr ++ [⟨.sleep_for cfg.TriggerTiming, .done⟩] ++ out)).andThen fun stop =>
              if stop then fun tr2 => (teardown env numCameras tr2).andThen fun _ =>
                Prog.pure none
              else Prog.pure
                (some { errorFlag := flag, imageCnt := wrapInt (st.imageCnt + 1) }) := by
  obtain ⟨flag, out, hd, hrun⟩ := drainCameras_run env cfg st.imageCnt src hsrc numCameras
    st.errorFlag (tr ++ [⟨.sleep_for cfg.TriggerTiming, .done⟩])
  refine ⟨flag, out, hd, hrun, hrun.callMarkers_eq, hrun.drain_passSteps,
    hrun.returnCodes_eq.1, hrun.returnCodes_eq.2, ?_⟩
  rw [loopBody_eq, hd, andThen_ok]

/-- C15 for two cameras in `faultyEnv`: reading the serial number raises for camera 0,
which returns -1 without a trigger wait; camera 1 is still processed (trigger wait, then
its frame request, which finds no image), and the `errorFlag` is the or of 0, -1 and
-1. -/
theorem pass_processes_every_camera_in_order_witness :
    hardwareConfig.TriggerSource = some "Hardware"
      ∧ (callMarkers (drainCameras faultyEnv hardwareConfig 1 2 0
            [⟨.sleep_for 100, .done⟩]).trace = [(0, 1), (1, 1)]
        ∧ passSteps (drainCameras faultyEnv hardwareConfig 1 2 0
            [⟨.sleep_for 100, .done⟩]).trace = [(1, false), (1, true)]
        ∧ returnCodes (drainCameras faultyEnv hardwareConfig 1 2 0
            [⟨.sleep_for 100, .done⟩]).trace = [-1, -1])
      ∧ ∃ flag out,
        drainCameras faultyEnv hardwareConfig 1 2 0 ([] ++ [⟨.sleep_for 100, .done⟩])
          = .ok flag ([] ++ [⟨.sleep_for 100, .done⟩] ++ out)
        ∧ callMarkers out = (List.range 2).map (fun i => (i, (1 : Int)))
        ∧ (returnCodes out).length = 2
        ∧ flag = (returnCodes out).foldl bitOr 0 :=
  ⟨rfl, by decide,
    (pass_processes_every_camera_in_order faultyEnv hardwareConfig 2 loopEntry []
      "Hardware" rfl).imp fun _ h => h.imp fun _ h =>
        ⟨h.1, h.2.2.1, h.2.2.2.2.1, h.2.2.2.2.2.1⟩⟩

/-! ## Facts about every event of a run -/

theorem emits_pure {α : Type} (a : α) (P : Event → Prop) : Emits (pure a : Prog α) P :=
  fun tr => ⟨[], (List.append_nil tr).symm, fun _ h => absurd h (List.not_mem_nil _)⟩

theorem emits_bind {α β : Type} (m : Prog α) (f : α → Prog β) (P : Event → Prop)
    (hm : Emits m P) (hf : ∀ a, Emits (f a) P) : Emits (m >>= f) P := by
  intro tr
  obtain ⟨ext, h1, h2⟩ := hm tr
  rw [bind_apply]
  cases hmt : m tr with
  | ok a t =>
    rw [hmt] at h1
    have ht : t = tr ++ ext := h1
    subst ht
    obtain ⟨ext2, h3, h4⟩ := hf a (tr ++ ext)
    refine ⟨ext ++ ext2, ?_, ?_⟩
    · rw [andThen_ok, h3, List.append_assoc]
    · intro e he
      rcases List.mem_append.mp he with he | he
      · exact h2 e he
      · exact h4 e he
  | raise x t =>
    rw [hmt] at h1
    exact ⟨ext, h1, h2⟩

theorem emits_emit (c : Call) (P : Event → Prop) (h : P ⟨c, .done⟩) : Emits (emit c) P :=
  fun tr => ⟨[⟨c, .done⟩], rfl, fun e he => by
    rw [List.mem_singleton.mp he]
    exact h⟩

theorem emits_sdk (env : Env) (c : Call) (P : Event → Prop) (h1 : P ⟨c, .raised⟩)
    (h2 : P ⟨c, .done⟩) : Emits (sdk env c) P := by
  intro tr
  unfold sdk
  split_ifs
  · exact ⟨[⟨c, .raised⟩], rfl, fun e he => by
      rw [List.mem_singleton.mp he]
      exact h1⟩
  · exact ⟨[⟨c, .done⟩], rfl, fun e he => by
      rw [List.mem_singleton.mp he]
      exact h2⟩

theorem emits_ask (env : Env) (c : Call) (P : Event → Prop) (h : ∀ b, P ⟨c, .bool b⟩) :
    Emits (ask env c) P :=
  fun tr => ⟨[⟨c, .bool (env.answerBool tr c)⟩], rfl, fun e he => by
    rw [List.mem_singleton.mp he]
    exact h _⟩

theorem emits_sdkString (env : Env) (c : Call) (P : Event → Prop) (h1 : P ⟨c, .raised⟩)
    (h2 : ∀ s, P ⟨c, .string s⟩) : Emits (sdkString env c) P := by
  intro tr
  unfold sdkString
  split_ifs
  · exact ⟨[⟨c, .raised⟩], rfl, fun e he => by
      rw [List.mem_singleton.mp he]
      exact h1⟩
  · exact ⟨[⟨c, .string (env.answerString tr c)⟩], rfl, fun e he => by
      rw [List.mem_singleton.mp he]
      exact h2 _⟩

theorem emits_readClock (env : Env) (P : Event → Prop) (h : ∀ t, P ⟨.now, .time t⟩) :
    Emits (readClock env) P :=
  fun tr => ⟨[⟨.now, .time (env.clock tr)⟩], rfl, fun e he => by
    rw [List.mem_singleton.mp he]
    exact h _⟩

theorem emits_raiseJson {α : Type} (P : Event → Prop) : Emits (raiseJson : Prog α) P :=
  fun tr => ⟨[], (List.append_nil tr).symm, fun _ h => absurd h (List.not_mem_nil _)⟩

theorem emits_jsonToString (v : Option String) (P : Event → Prop) :
    Emits (jsonToString v) P := by
  intro tr
  cases v <;>
    exact ⟨[], (List.append_nil tr).symm, fun _ h => absurd h (List.not_mem_nil _)⟩

theorem emits_tryCatch {α : Type} (body handler : Prog α) (P : Event → Prop)
    (hb : Emits body P) (hh : Emits handler P) : Emits (tryCatchSpinnaker body handler) P := by
  intro tr
  obtain ⟨ext, h1, h2⟩ := hb tr
  show ∃ ext, ((body tr).orCatch handler).trace = _ ∧ _
  cases hbt : body tr with
  | ok a t =>
    rw [hbt] at h1
    exact ⟨ext, h1, h2⟩
  | raise x t =>
    rw [hbt] at h1
    have ht : t = tr ++ ext := h1
    subst ht
    cases x with
    | Json => exact ⟨ext, rfl, h2⟩
    | Spinnaker =>
      obtain ⟨ext2, h3, h4⟩ := hh (tr ++ ext)
      refine ⟨ext ++ ext2, ?_, ?_⟩
      · show (handler (tr ++ ext)).trace = _
        rw [h3, List.append_assoc]
      · intro e he
        rcases List.mem_append.mp he with he | he
        · exact h2 e he
        · exact h4 e he

theorem emits_ite {α : Type} (c : Prop) [Decidable c] (x y : Prog α) (P : Event → Prop)
    (h1 : c → Emits x P) (h2 : ¬c → Emits y P) : Emits (if c then x else y) P := by
  split_ifs with h
  · exact h1 h
  · exact h2 h

theorem emits_mono {α : Type} (p : Prog α) (P Q : Event → Prop) (h : Emits p P)
    (hpq : ∀ e, P e → Q e) : Emits p Q := by
  intro tr
  obtain ⟨ext, h1, h2⟩ := h tr
  exact ⟨ext, h1, fun e he => hpq e (h2 e he)⟩

theorem emits_ok {α : Type} {p : Prog α} {P : Event → Prop} (h : Emits p P) {tr tr1 : Trace}
    {a : α} (hp : p tr = .ok a tr1) : ∃ ext, tr1 = tr ++ ext ∧ ∀ e ∈ ext, P e := by
  obtain ⟨ext, h1, h2⟩ := h tr
  rw [hp] at h1
  exact ⟨ext, h1, h2⟩

theorem emits_raise {α : Type} {p : Prog α} {P : Event → Prop} (h : Emits p P)
    {tr tr1 : Trace} {x : Exn} (hp : p tr = .raise x tr1) :
    ∃ ext, tr1 = tr ++ ext ∧ ∀ e ∈ ext, P e := by
  obtain ⟨ext, h1, h2⟩ := h tr
  rw [hp] at h1
  exact ⟨ext, h1, h2⟩

/-! ## `ConfigureTrigger` -/

theorem source_hardware (cfg : Config) (h : cfg.TriggerSource.getD "Software" = "Hardware") :
    cfg.TriggerSource = some "Hardware" := by
  cases hs : cfg.TriggerSource with
  | none =>
    rw [hs] at h
    exact absurd h (by decide)
  | some s =>
    rw [hs] at h
    exact congrArg some h

theorem ConfigureTrigger_emits (env : Env) (pCam : Nat) (cfg : Config) :
    Emits (ConfigureTrigger env pCam cfg) (followsTriggerConfig cfg) := by
  unfold ConfigureTrigger selectTriggerSource enableTriggerMode setEnumEntry notUsable
  repeat' (with_reducible first
    | apply emits_bind | apply emits_sdk | apply emits_ask | apply emits_pure
    | apply emits_ite | intro _)
  all_goals first
    | trivial
    | (simp [followsTriggerConfig, entryAllowed]; done)
    | (simp [followsTriggerConfig, entryAllowed]; exact source_hardware cfg (by assumption))

theorem notUsable_sat (env : Env) (first second : Call) (tr : Trace) :
    Sat (notUsable env first second) tr [] (fun _ _ => True) (fun _ _ => False) := by
  unfold notUsable
  repeat' (with_reducible first
    | apply sat_bind | apply sat_ask | apply sat_pure | apply sat_ite | intro _)
  all_goals trivial

theorem sat_notUsable (env : Env) (first second : Call) (base out : Trace)
    (Qok : Bool → Trace → Prop) (Qraise : Exn → Trace → Prop)
    (hok : ∀ b ext, Qok b (out ++ ext)) :
    Sat (notUsable env first second) base out Qok Qraise :=
  sat_frame _ _ _ _ _ _ _ (notUsable_sat env first second (base ++ out))
    (fun b ext _ => hok b ext) (fun _ _ h => h.elim)

theorem setEnumEntry_sat (env : Env) (pCam : Nat) (node entry : String) (tr : Trace) :
    Sat (setEnumEntry env pCam node entry) tr []
      (fun ok ext => ok = true → (⟨.SetIntValue pCam node entry, .done⟩ : Event) ∈ ext)
      (fun x _ => x = .Spinnaker) := by
  unfold setEnumEntry
  repeat' (with_reducible first
    | apply sat_bind | apply sat_sdk | apply sat_pure | apply sat_ite
    | apply sat_notUsable | intro _)
  all_goals first
    | rfl
    | contradiction
    | simp

theorem sat_setEnumEntry (env : Env) (pCam : Nat) (node entry : String) (base out : Trace)
    (Qok : Bool → Trace → Prop) (Qraise : Exn → Trace → Prop)
    (hraise : ∀ ext, Qraise .Spinnaker (out ++ ext))
    (hok : ∀ ok ext, (ok = true → (⟨.SetIntValue pCam node entry, .done⟩ : Event) ∈ ext) →
      Qok ok (out ++ ext)) :
    Sat (setEnumEntry env pCam node entry) base out Qok Qraise := by
  refine sat_frame _ _ _ _ _ _ _ (setEnumEntry_sat env pCam node entry (base ++ out)) hok ?_
  rintro x ext rfl
  exact hraise ext

theorem ConfigureTrigger_sat (env : Env) (pCam : Nat) (cfg : Config) (tr : Trace) :
    Sat (ConfigureTrigger env pCam cfg) tr []
      (fun code ext => (code = 0 ∨ code = -1) ∧ (code = 0 →
        (⟨.SetIntValue pCam "TriggerSelector" (cfg.TriggerSelector.getD "FrameStart"),
            .done⟩ : Event) ∈ ext
          ∧ (cfg.TriggerSource = some "Hardware" →
            (⟨.SetIntValue pCam "TriggerActivation"
              (cfg.TriggerActivationType.getD "RisingEdge"), .done⟩ : Event) ∈ ext)))
      (fun x _ => x = .Spinnaker) := by
  unfold ConfigureTrigger selectTriggerSource enableTriggerMode
  repeat' (with_reducible first
    | apply sat_bind | apply sat_sdk | apply sat_pure | apply sat_ite
    | apply sat_notUsable | apply sat_setEnumEntry | intro _)
  all_goals first
    | rfl
    | exact ⟨Or.inr rfl, fun h => absurd h (by decide)⟩
    | (refine ⟨Or.inl rfl, fun _ => ⟨?_, fun h => ?_⟩⟩ <;> simp_all)

theorem ask_yes (env : Env)
    (hyes : ∀ hist c, (∀ cam, c ≠ .IsIncomplete cam) → env.answerBool hist c = true)
    (c : Call) (hc : ∀ cam, c ≠ .IsIncomplete cam) (tr : Trace) :
    ask env c tr = .ok true (tr ++ [⟨c, .bool true⟩]) := by
  simp [ask, hyes _ _ hc]

theorem notUsable_yes (env : Env)
    (hyes : ∀ hist c, (∀ cam, c ≠ .IsIncomplete cam) → env.answerBool hist c = true)
    (first second : Call) (h1 : ∀ cam, first ≠ .IsIncomplete cam)
    (h2 : ∀ cam, second ≠ .IsIncomplete cam) (tr : Trace) :
    notUsable env first second tr
      = .ok false (tr ++ [⟨first, .bool true⟩, ⟨second, .bool true⟩]) := by
  unfold notUsable
  simp [bind_apply, ask_yes env hyes _ h1, ask_yes env hyes _ h2, andThen_ok, pure_apply]

theorem setEnumEntry_yes (env : Env) (hquiet : ∀ hist c, env.throws hist c = false)
    (hyes : ∀ hist c, (∀ cam, c ≠ .IsIncomplete cam) → env.answerBool hist c = true)
    (pCam : Nat) (node entry : String) (tr : Trace) :
    setEnumEntry env pCam node entry tr
      = .ok true (tr ++ [⟨.GetEntryByName pCam node entry, .done⟩,
          ⟨.EntryIsAvailable pCam node entry, .bool true⟩,
          ⟨.EntryIsReadable pCam node entry, .bool true⟩,
          ⟨.EntryGetValue pCam node entry, .done⟩,
          ⟨.SetIntValue pCam node entry, .done⟩]) := by
  unfold setEnumEntry
  simp [bind_apply, sdk_ok env _ _ (hquiet _ _), notUsable_yes env hyes, andThen_ok,
    pure_apply]

theorem ConfigureTrigger_yes (env : Env) (hquiet : ∀ hist c, env.throws hist c = false)
    (hyes : ∀ hist c, (∀ cam, c ≠ .IsIncomplete cam) → env.answerBool hist c = true)
    (pCam : Nat) (cfg : Config) (tr : Trace) :
    ∃ ext, ConfigureTrigger env pCam cfg tr = .ok 0 (tr ++ ext) := by
  unfold ConfigureTrigger selectTriggerSource enableTriggerMode
  by_cases hsrc : cfg.TriggerSource.getD "Software" = "Hardware"
  · simp only [bind_apply, sdk_ok env _ _ (hquiet _ _), notUsable_yes env hyes,
      setEnumEntry_yes env hquiet hyes, andThen_ok, pure_apply, hsrc, if_true,
      Bool.false_eq_true, if_false, Bool.not_true, List.append_assoc, ne_eq, reduceCtorEq,
      not_false_eq_true, implies_true]
    exact ⟨_, rfl⟩
  · simp only [bind_apply, sdk_ok env _ _ (hquiet _ _), notUsable_yes env hyes,
      setEnumEntry_yes env hquiet hyes, andThen_ok, pure_apply, hsrc, if_true,
      Bool.false_eq_true, if_false, Bool.not_true, List.append_assoc, ne_eq, reduceCtorEq,
      not_false_eq_true, implies_true]
    exact ⟨_, rfl⟩

/-- C18.  In every run of `ConfigureTrigger`, after any history: every entry looked up
or written on the node "TriggerSelector" is the one named by `TriggerSelector` in the
configuration, or "FrameStart" when that key is absent or null; every entry looked up or
written on the node "TriggerActivation" is the one named by `TriggerActivationType`, or
"RisingEdge" when absent or null; the node "TriggerActivation" is looked up or written
only when `TriggerSource` is "Hardware"; and a run that returns 0 has written the
selector entry, and with the source "Hardware" the activation entry as well.  On a camera
on which no call raises and every check of a node or of an entry succeeds, the function
does return 0 and has written these entries. -/
theorem ConfigureTrigger_selects_configured_entries (env : Env) (pCam : Nat) (cfg : Config)
    (tr : Trace) :
    ∃ ext, (ConfigureTrigger env pCam cfg tr).trace = tr ++ ext
      ∧ (∀ cam entry a, (⟨.GetEntryByName cam "TriggerSelector" entry, a⟩ : Event) ∈ ext
            ∨ (⟨.SetIntValue cam "TriggerSelector" entry, a⟩ : Event) ∈ ext →
          entry = cfg.TriggerSelector.getD "FrameStart")
      ∧ (∀ cam entry a, (⟨.GetEntryByName cam "TriggerActivation" entry, a⟩ : Event) ∈ ext
            ∨ (⟨.SetIntValue cam "TriggerActivation" entry, a⟩ : Event) ∈ ext →
          entry = cfg.TriggerActivationType.getD "RisingEdge")
      ∧ (∀ cam map entry a, (⟨.GetNode cam map "TriggerActivation", a⟩ : Event) ∈ ext
            ∨ (⟨.SetIntValue cam "TriggerActivation" entry, a⟩ : Event) ∈ ext →
          cfg.TriggerSource = some "Hardware")
      ∧ (∀ code, ConfigureTrigger env pCam cfg tr = .ok code (tr ++ ext) → code = 0 →
          (⟨.SetIntValue pCam "TriggerSelector" (cfg.TriggerSelector.getD "FrameStart"),
              .done⟩ : Event) ∈ ext
            ∧ (cfg.TriggerSource = some "Hardware" →
              (⟨.SetIntValue pCam "TriggerActivation"
                (cfg.TriggerActivationType.getD "RisingEdge"), .done⟩ : Event) ∈ ext))
      ∧ ((∀ hist c, env.throws hist c = false) →
          (∀ hist c, (∀ cam, c ≠ .IsIncomplete cam) → env.answerBool hist c = true) →
          ConfigureTrigger env pCam cfg tr = .ok 0 (tr ++ ext)
            ∧ (⟨.SetIntValue pCam "TriggerSelector" (cfg.TriggerSelector.getD "FrameStart"),
                .done⟩ : Event) ∈ ext
            ∧ (cfg.TriggerSource = some "Hardware" →
              (⟨.SetIntValue pCam "TriggerActivation"
                (cfg.TriggerActivationType.getD "RisingEdge"), .done⟩ : Event) ∈ ext)) := by
  obtain ⟨ext, h1, h2⟩ := ConfigureTrigger_emits env pCam cfg tr
  have hwritten : ∀ code, ConfigureTrigger env pCam cfg tr = .ok code (tr ++ ext) →
      code = 0 →
      (⟨.SetIntValue pCam "TriggerSelector" (cfg.TriggerSelector.getD "FrameStart"),
          .done⟩ : Event) ∈ ext
        ∧ (cfg.TriggerSource = some "Hardware" →
          (⟨.SetIntValue pCam "TriggerActivation"
            (cfg.TriggerActivationType.getD "RisingEdge"), .done⟩ : Event) ∈ ext) := by
    intro code hrun h0
    rcases sat_elim _ _ _ _ (ConfigureTrigger_sat env pCam cfg tr) with
      ⟨code1, ext1, h3, h4⟩ | ⟨x, ext1, h3, _⟩
    · obtain ⟨rfl, rfl⟩ := run_unique h3 hrun
      exact h4.2 h0
    · rw [h3] at hrun
      cases hrun
  refine ⟨ext, h1, ?_, ?_, ?_, hwritten, ?_⟩
  · rintro cam entry a (hm | hm)
    · exact (h2 _ hm).1 rfl
    · exact (h2 _ hm).1 rfl
  · rintro cam entry a (hm | hm)
    · exact ((h2 _ hm).2 rfl).1
    · exact ((h2 _ hm).2 rfl).1
  · rintro cam map entry a (hm | hm)
    · exact h2 _ hm rfl
    · exact ((h2 _ hm).2 rfl).2
  · intro hquiet hyes
    obtain ⟨ext1, hrun⟩ := ConfigureTrigger_yes env hquiet hyes pCam cfg tr
    have hext : ext1 = ext := by
      rw [hrun] at h1
      exact List.append_cancel_left h1
    subst hext
    exact ⟨hrun, hwritten 0 hrun rfl⟩

/-- C18 on camera 0 of `quietEnv`, where no call raises and every check succeeds, for a
hardware trigger with the selector "AcquisitionStart" and the activation "FallingEdge":
`ConfigureTrigger` returns 0 and has written both entries; and with no key but the
hardware source it has written "FrameStart" and "RisingEdge". -/
theorem ConfigureTrigger_selects_configured_entries_witness :
    (∃ ext, ConfigureTrigger quietEnv 0 namedEntriesConfig [] = .ok 0 ([] ++ ext)
        ∧ (⟨.SetIntValue 0 "TriggerSelector" "AcquisitionStart", .done⟩ : Event) ∈ ext
        ∧ (⟨.SetIntValue 0 "TriggerActivation" "FallingEdge", .done⟩ : Event) ∈ ext)
      ∧ ∃ ext, ConfigureTrigger quietEnv 0 hardwareConfig [] = .ok 0 ([] ++ ext)
        ∧ (⟨.SetIntValue 0 "TriggerSelector" "FrameStart", .done⟩ : Event) ∈ ext
        ∧ (⟨.SetIntValue 0 "TriggerActivation" "RisingEdge", .done⟩ : Event) ∈ ext := by
  obtain ⟨ext, _, _, _, _, _, h⟩ := ConfigureTrigger_selects_configured_entries quietEnv 0 namedEntriesConfig []
  obtain ⟨ext1, _, _, _, _, _, h1⟩ := ConfigureTrigger_selects_configured_entries quietEnv 0 hardwareConfig []
  have hyes : ∀ (hist : Trace) (c : Call), (∀ cam, c ≠ .IsIncomplete cam) →
      quietEnv.answerBool hist c = true := by
    intro hist c hc
    cases c <;> first | rfl | exact absurd rfl (hc _)
  obtain ⟨hrun, hsel, hact⟩ := h (fun _ _ => rfl) hyes
  obtain ⟨hrun1, hsel1, hact1⟩ := h1 (fun _ _ => rfl) hyes
  exact ⟨⟨ext, hrun, hsel, hact rfl⟩, ⟨ext1, hrun1, hsel1, hact1 rfl⟩⟩

/-! ## A trigger source that is neither "Software" nor "Hardware" -/

theorem selectTriggerSource_software (env : Env) (pCam : Nat) (cfg cfg1 : Config)
    (src : String) (h : src ≠ "Hardware") :
    selectTriggerSource env pCam cfg src = selectTriggerSource env pCam cfg1 "Software" := by
  unfold selectTriggerSource
  rw [if_neg h, if_neg (by decide)]

theorem ConfigureTrigger_software (env : Env) (pCam : Nat) (cfg : Config) (src : String)
    (hsrc : cfg.TriggerSource = some src) (h : src ≠ "Hardware") :
    ConfigureTrigger env pCam cfg
      = ConfigureTrigger env pCam { cfg with TriggerSource := some "Software" } := by
  unfold ConfigureTrigger
  simp only [hsrc, Option.getD_some,
    selectTriggerSource_software env pCam cfg { cfg with TriggerSource := some "Software" }
      src h]

theorem configureCameras_software (env : Env) (cfg : Config) (src : String)
    (hsrc : cfg.TriggerSource = some src) (h : src ≠ "Hardware") (n : Nat) (result : Int) :
    configureCameras env cfg n result
      = configureCameras env { cfg with TriggerSource := some "Software" } n result := by
  induction n with
  | zero => rfl
  | succ n ih =>
    unfold configureCameras
    rw [ih]
    simp only [ConfigureTrigger_software env _ cfg src hsrc h]

theorem GrabRun.code_of_unknown {pCam : Nat} {src : String} {g : Int} {ext : Trace}
    (h : GrabRun pCam src g ext) (h1 : src ≠ "Software") (h2 : src ≠ "Hardware") :
    g = -1 ∧ ext = [] := by
  cases h <;> first | exact ⟨rfl, rfl⟩ | exact absurd rfl h1 | exact absurd rfl h2

theorem ImageRun.requested {pCam : Nat} {f : String} {b : Bool} {ext : Trace}
    (h : ImageRun pCam f b ext) : ∃ a, (⟨.GetNextImage pCam 1, a⟩ : Event) ∈ ext := by
  cases h <;> simp

theorem stopCondition_no_exit (env : Env) (cfg : Config) (flag : Int) (tr : Trace)
    (hexit : cfg.ExitOnError = false) :
    stopCondition env cfg flag tr = deadlinePassed env cfg tr := by
  simp [stopCondition, hexit]

theorem passStart_stop (env : Env) (cfg : Config) (n : Nat) (tr0 : Trace) (k : Nat)
    (st : LoopState) (tr tr1 tr2 : Trace) (flag : Int)
    (hstart : passStart env cfg n tr0 k = some (st, tr))
    (hd : drainCameras env cfg st.imageCnt n st.errorFlag
      (tr ++ [⟨.sleep_for cfg.TriggerTiming, .done⟩]) = .ok flag tr1)
    (hs : stopCondition env cfg flag tr1 = .ok true tr2) :
    passStart env cfg n tr0 (k + 1) = none := by
  unfold passStart
  rw [hstart]
  have hb := loopBody_stop env cfg n st tr tr1 tr2 flag _ hd hs rfl
  cases ht : teardown env n tr2 with
  | ok u tr3 =>
    rw [ht] at hb
    simp only [hb]
    rfl
  | raise x tr3 =>
    rw [ht] at hb
    simp only [hb]
    rfl

theorem AcquireRun.code_of_unknown_source {pCam : Nat} {n : Int} {src : String} {code : Int}
    {out : Trace} (h : AcquireRun pCam n src code out) (h1 : src ≠ "Software")
    (h2 : src ≠ "Hardware") : code = -1 := by
  cases h with
  | serialRaised => rfl
  | imageRaised => rfl
  | completed s sext g gext iext hs hg hi =>
    rw [(hg.code_of_unknown h1 h2).1]
    exact bitOr_zero_neg

theorem DrainRun.flag_of_unknown_source {k : Int} {src : String} {n : Nat} {flag flag1 : Int}
    {out : Trace} (h : DrainRun k src n flag flag1 out) (hf : flag = 0 ∨ flag = -1)
    (hn : 0 < n) (h1 : src ≠ "Software") (h2 : src ≠ "Hardware") : flag1 = -1 := by
  cases h with
  | nil => omega
  | snoc n _ flag1 code out aout h ha =>
    rw [ha.code_of_unknown_source h1 h2]
    rcases (h.flag_eq hf).1 with h0 | h0 <;> rw [h0] <;> decide

/-- C13, as the code has it.  A trigger source string that is neither "Software" nor
"Hardware" does not make the start-up fail: `ConfigureTrigger` and
`InitializeAndConfigure` run exactly as they do for "Software" (same calls, same code).
In the loop the trigger wait of every camera returns -1 at once, `AcquireImages` goes on
to request a frame all the same (unless reading the serial number raised) and returns
-1.  So in every pass that a run with at least one camera reaches, the loop over the
cameras ends with `errorFlag` -1.  With `ExitOnError` set the stop condition is then true
and no further pass starts; with `ExitOnError` not set the stop condition is the deadline
comparison alone. -/
theorem unknown_source_is_configured_as_software (env : Env) (cfg : Config) (src : String)
    (hsrc : cfg.TriggerSource = some src) (h1 : src ≠ "Software") (h2 : src ≠ "Hardware") :
    (∀ pCam, ConfigureTrigger env pCam cfg
        = ConfigureTrigger env pCam { cfg with TriggerSource := some "Software" })
      ∧ (∀ numCameras, InitializeAndConfigure env cfg numCameras
          = InitializeAndConfigure env { cfg with TriggerSource := some "Software" }
              numCameras)
      ∧ (∀ pCam tr, GrabNextImageByTrigger env pCam src tr = .ok (-1) tr)
      ∧ (∀ pCam imageCnt tr, ∃ out,
          AcquireImages env pCam imageCnt src tr = .ok (-1) (tr ++ out)
            ∧ ((∀ e ∈ out, origin e.call = .serial → e.answer ≠ .raised) →
                (⟨.ret_GrabNextImageByTrigger pCam (-1), .done⟩ : Event) ∈ out
                  ∧ ∃ a, (⟨.GetNextImage pCam 1, a⟩ : Event) ∈ out))
      ∧ ∀ numCameras tr0 k st tr, 0 < numCameras →
          passStart env cfg numCameras tr0 k = some (st, tr) →
          ∃ out, drainCameras env cfg st.imageCnt numCameras st.errorFlag
                (tr ++ [⟨.sleep_for cfg.TriggerTiming, .done⟩])
              = .ok (-1) (tr ++ [⟨.sleep_for cfg.TriggerTiming, .done⟩] ++ out)
            ∧ (cfg.ExitOnError = true →
                stopCondition env cfg (-1)
                    (tr ++ [⟨.sleep_for cfg.TriggerTiming, .done⟩] ++ out)
                  = .ok true (tr ++ [⟨.sleep_for cfg.TriggerTiming, .done⟩] ++ out)
                ∧ passStart env cfg numCameras tr0 (k + 1) = none)
            ∧ (cfg.ExitOnError = false →
                stopCondition env cfg (-1)
                    (tr ++ [⟨.sleep_for cfg.TriggerTiming, .done⟩] ++ out)
                  = deadlinePassed env cfg
                      (tr ++ [⟨.sleep_for cfg.TriggerTiming, .done⟩] ++ out)) := by
  refine ⟨fun pCam => ConfigureTrigger_software env pCam cfg src hsrc h2, ?_, ?_, ?_, ?_⟩
  · intro numCameras
    unfold InitializeAndConfigure
    rw [configureCameras_software env cfg src hsrc h2]
  · intro pCam tr
    unfold GrabNextImageByTrigger
    rw [if_neg h1, if_neg h2]
    rfl
  · intro pCam imageCnt tr
    obtain ⟨code, out, hrun, hshape⟩ := AcquireImages_run env pCam imageCnt src tr
    have hcode : code = -1 := by
      cases hshape with
      | serialRaised => rfl
      | imageRaised => rfl
      | completed s sext g gext iext hs hg hi =>
        rw [(hg.code_of_unknown h1 h2).1]
        exact bitOr_zero_neg
    subst hcode
    refine ⟨out, hrun, fun hq => ?_⟩
    rcases hshape.decompose with hs | ⟨s, sext, g, gext, b, iext, hs, hg, hi, rfl⟩
    · obtain ⟨e, he, hr⟩ := hs.serial_raised
      exact absurd hr (hq e he (hs.serial_origin_eq e he))
    · obtain ⟨rfl, rfl⟩ := hg.code_of_unknown h1 h2
      obtain ⟨a, ha⟩ := hi.requested
      exact ⟨by simp, a, by simp [ha]⟩
  · intro numCameras tr0 k st tr hn hstart
    obtain ⟨flag1, out, hd, hrun⟩ := drainCameras_run env cfg st.imageCnt src hsrc numCameras
      st.errorFlag (tr ++ [⟨.sleep_for cfg.TriggerTiming, .done⟩])
    have hflag : flag1 = -1 :=
      hrun.flag_of_unknown_source (passStart_inv env cfg numCameras tr0 k st tr hstart).1 hn
        h1 h2
    subst hflag
    refine ⟨out, hd, fun hexit => ?_, fun hexit => ?_⟩
    · have hs := stopCondition_error env cfg (-1)
        (tr ++ [⟨.sleep_for cfg.TriggerTiming, .done⟩] ++ out) (by decide) hexit
      exact ⟨hs, passStart_stop env cfg numCameras tr0 k st tr _ _ (-1) hstart hd hs⟩
    · exact stopCondition_no_exit env cfg (-1) _ hexit

/-- C13 with the source "Line0": the trigger wait returns -1 at once, and the first pass
of a run with one camera ends the loop over the cameras with `errorFlag` -1; the
configuration does not set `ExitOnError`, so the stop condition is the deadline
comparison. -/
theorem unknown_source_is_configured_as_software_witness :
    unknownSourceConfig.TriggerSource = some "Line0"
      ∧ (∀ pCam tr, GrabNextImageByTrigger quietEnv pCam "Line0" tr = .ok (-1) tr)
      ∧ ∃ out, drainCameras quietEnv unknownSourceConfig loopEntry.imageCnt 1
              loopEntry.errorFlag ([] ++ [⟨.sleep_for unknownSourceConfig.TriggerTiming, .done⟩])
            = .ok (-1) ([] ++ [⟨.sleep_for unknownSourceConfig.TriggerTiming, .done⟩] ++ out)
          ∧ (unknownSourceConfig.ExitOnError = true →
              stopCondition quietEnv unknownSourceConfig (-1)
                  ([] ++ [⟨.sleep_for unknownSourceConfig.TriggerTiming, .done⟩] ++ out)
                = .ok true
                    ([] ++ [⟨.sleep_for unknownSourceConfig.TriggerTiming, .done⟩] ++ out)
              ∧ passStart quietEnv unknownSourceConfig 1 [] (0 + 1) = none)
          ∧ (unknownSourceConfig.ExitOnError = false →
              stopCondition quietEnv unknownSourceConfig (-1)
                  ([] ++ [⟨.sleep_for unknownSourceConfig.TriggerTiming, .done⟩] ++ out)
                = deadlinePassed quietEnv unknownSourceConfig
                    ([] ++ [⟨.sleep_for unknownSourceConfig.TriggerTiming, .done⟩] ++ out)) :=
  ⟨rfl,
    (unknown_source_is_configured_as_software quietEnv unknownSourceConfig "Line0" rfl
      (by decide) (by decide)).2.2.1,
    (unknown_source_is_configured_as_software quietEnv unknownSourceConfig "Line0" rfl
      (by decide) (by decide)).2.2.2.2 1 [] 0 loopEntry [] (by decide) rfl⟩

/-- C13 fails on the code: with the trigger source "Line0", one camera and nothing
raising, the start-up succeeds (the source entry "Software" is written), the loop is
entered (one sleep), the trigger wait returns -1, a frame is requested all the same, and
after the first pass the loop is still running with `errorFlag` -1. -/
theorem unknown_source_enters_the_loop :
    main quietEnv 1 (.object unknownSourceConfig) 1
        = .running { errorFlag := -1, imageCnt := 2 }
            (main quietEnv 1 (.object unknownSourceConfig) 1).trace
      ∧ sleepCount (main quietEnv 1 (.object unknownSourceConfig) 1).trace = 1
      ∧ acquireCount (main quietEnv 1 (.object unknownSourceConfig) 1).trace = 1
      ∧ (⟨.SetIntValue 0 "TriggerSource" "Software", .done⟩ : Event)
          ∈ (main quietEnv 1 (.object unknownSourceConfig) 1).trace
      ∧ (⟨.ret_GrabNextImageByTrigger 0 (-1), .done⟩ : Event)
          ∈ (main quietEnv 1 (.object unknownSourceConfig) 1).trace := by
  decide

/-! ## `InitializeAndConfigure` -/

theorem ConfigureTrigger_setupEvent (env : Env) (pCam : Nat) (cfg : Config) :
    Emits (ConfigureTrigger env pCam cfg) setupEvent := by
  unfold ConfigureTrigger selectTriggerSource enableTriggerMode setEnumEntry notUsable
  repeat' (with_reducible first
    | apply emits_bind | apply emits_sdk | apply emits_ask | apply emits_pure
    | apply emits_ite | intro _)
  all_goals exact ⟨rfl, rfl⟩

theorem configureCameras_setupEvent (env : Env) (cfg : Config) (n : Nat) (result : Int) :
    Emits (configureCameras env cfg n result) setupEvent := by
  induction n with
  | zero => exact emits_pure _ _
  | succ n ih =>
    unfold configureCameras
    refine emits_bind _ _ _ ih fun _ => ?_
    refine emits_bind _ _ _ (emits_sdk _ _ _ ⟨rfl, rfl⟩ ⟨rfl, rfl⟩) fun _ => ?_
    exact emits_bind _ _ _ (ConfigureTrigger_setupEvent env n cfg) fun _ => emits_pure _ _

theorem deinitCameras_setupEvent (env : Env) (n : Nat) :
    Emits (deinitCameras env n) setupEvent := by
  induction n with
  | zero => exact emits_pure _ _
  | succ n ih =>
    unfold deinitCameras
    exact emits_bind _ _ _ ih fun _ => emits_sdk _ _ _ ⟨rfl, rfl⟩ ⟨rfl, rfl⟩

theorem beginAcquisition_setupEvent (env : Env) (n : Nat) :
    Emits (beginAcquisition env n) setupEvent := by
  induction n with
  | zero => exact emits_pure _ _
  | succ n ih =>
    unfold beginAcquisition
    exact emits_bind _ _ _ ih fun _ => emits_sdk _ _ _ ⟨rfl, rfl⟩ ⟨rfl, rfl⟩

theorem InitializeAndConfigure_setupEvent (env : Env) (cfg : Config) (n : Nat) :
    Emits (InitializeAndConfigure env cfg n) setupEvent := by
  unfold InitializeAndConfigure
  refine emits_tryCatch _ _ _ ?_ (emits_pure _ _)
  refine emits_bind _ _ _ (configureCameras_setupEvent env cfg n 0) fun result => ?_
  refine emits_ite _ _ _ _ (fun _ => ?_) (fun _ => ?_)
  · exact emits_bind _ _ _ (deinitCameras_setupEvent env n) fun _ => emits_pure _ _
  · exact emits_bind _ _ _ (beginAcquisition_setupEvent env n) fun _ => emits_pure _ _

theorem sat_weaken {α : Type} (p : Prog α) (base out : Trace) (Pok Qok : α → Trace → Prop)
    (Praise Qraise : Exn → Trace → Prop) (h : Sat p base out Pok Praise)
    (hok : ∀ a ext, Pok a ext → Qok a ext) (hraise : ∀ x ext, Praise x ext → Qraise x ext) :
    Sat p base out Qok Qraise := by
  unfold Sat at h ⊢
  cases hp : p (base ++ out) with
  | ok a t =>
    rw [hp] at h
    obtain ⟨ext, h1, h2⟩ := h
    exact ⟨ext, h1, hok a ext h2⟩
  | raise x t =>
    rw [hp] at h
    obtain ⟨ext, h1, h2⟩ := h
    exact ⟨ext, h1, hraise x ext h2⟩

theorem sat_ConfigureTrigger (env : Env) (pCam : Nat) (cfg : Config) (base out : Trace)
    (Qok : Int → Trace → Prop) (Qraise : Exn → Trace → Prop)
    (hraise : ∀ ext, Qraise .Spinnaker (out ++ ext))
    (hok : ∀ code ext, code = 0 ∨ code = -1 → Qok code (out ++ ext)) :
    Sat (ConfigureTrigger env pCam cfg) base out Qok Qraise := by
  refine sat_frame _ _ _ _ _ _ _ (ConfigureTrigger_sat env pCam cfg (base ++ out))
    (fun code ext h => hok code ext h.1) ?_
  rintro x ext rfl
  exact hraise ext

theorem bitOr_code (a b : Int) (ha : a = 0 ∨ a = -1) (hb : b = 0 ∨ b = -1) :
    (bitOr a b = 0 ∨ bitOr a b = -1) ∧ (bitOr a b = 0 ↔ a = 0 ∧ b = 0) := by
  rcases ha with rfl | rfl <;> rcases hb with rfl | rfl <;> decide

theorem configureCameras_sat (env : Env) (cfg : Config) (n : Nat) (result : Int)
    (hr : result = 0 ∨ result = -1) (tr : Trace) :
    Sat (configureCameras env cfg n result) tr []
      (fun result1 _ => result1 = 0 ∨ result1 = -1) (fun x _ => x = .Spinnaker) := by
  induction n generalizing tr with
  | zero => exact sat_pure _ _ _ _ _ hr
  | succ n ih =>
    unfold configureCameras
    apply sat_bind
    refine sat_frame _ _ _ _ _ _ _ (ih (tr ++ [])) ?_ (fun _ _ h => h)
    intro result1 ext h1
    repeat' (with_reducible first
      | apply sat_bind | apply sat_sdk | apply sat_pure | apply sat_ConfigureTrigger
      | intro _)
    all_goals first
      | rfl
      | exact (bitOr_code _ _ h1 (by assumption)).1

theorem deinitCameras_sat (env : Env) (n : Nat) (tr : Trace) :
    Sat (deinitCameras env n) tr [] (fun _ _ => True) (fun x _ => x = .Spinnaker) := by
  induction n generalizing tr with
  | zero => exact sat_pure _ _ _ _ _ trivial
  | succ n ih =>
    unfold deinitCameras
    apply sat_bind
    refine sat_frame _ _ _ _ _ _ _ (ih (tr ++ [])) ?_ (fun _ _ h => h)
    intro _ ext _
    exact sat_sdk _ _ _ _ _ _ rfl trivial

theorem beginAcquisition_sat (env : Env) (n : Nat) (tr : Trace) :
    Sat (beginAcquisition env n) tr [] (fun _ _ => True) (fun x _ => x = .Spinnaker) := by
  induction n generalizing tr with
  | zero => exact sat_pure _ _ _ _ _ trivial
  | succ n ih =>
    unfold beginAcquisition
    apply sat_bind
    refine sat_frame _ _ _ _ _ _ _ (ih (tr ++ [])) ?_ (fun _ _ h => h)
    intro _ ext _
    exact sat_sdk _ _ _ _ _ _ rfl trivial

theorem InitializeAndConfigure_sat (env : Env) (cfg : Config) (n : Nat) (tr : Trace) :
    Sat (InitializeAndConfigure env cfg n) tr []
      (fun code _ => code = 0 ∨ code = -1) (fun _ _ => False) := by
  unfold InitializeAndConfigure
  apply sat_tryCatch
  apply sat_bind
  refine sat_frame _ _ _ _ _ _ _ (configureCameras_sat env cfg n 0 (Or.inl rfl) (tr ++ []))
    ?_ ?_
  · intro result ext hres
    apply sat_ite
    · intro _
      apply sat_bind
      refine sat_frame _ _ _ _ _ _ _ (deinitCameras_sat env n (tr ++ ([] ++ ext))) ?_ ?_
      · intro _ ext1 _
        exact sat_pure _ _ _ _ _ hres
      · rintro x ext1 rfl
        apply catchPost_spinnaker
        apply sat_pure
        exact Or.inr rfl
    · intro _
      apply sat_bind
      refine sat_frame _ _ _ _ _ _ _ (beginAcquisition_sat env n (tr ++ ([] ++ ext))) ?_ ?_
      · intro _ ext1 _
        exact sat_pure _ _ _ _ _ hres
      · rintro x ext1 rfl
        apply catchPost_spinnaker
        apply sat_pure
        exact Or.inr rfl
  · rintro x ext rfl
    apply catchPost_spinnaker
    apply sat_pure
    exact Or.inr rfl

/-- Every run of `InitializeAndConfigure` returns 0 or -1; no exception leaves the
function, and none of its events is a call of the loop or a release call. -/
theorem InitializeAndConfigure_run (env : Env) (cfg : Config) (n : Nat) (tr : Trace) :
    ∃ code ext, InitializeAndConfigure env cfg n tr = .ok code (tr ++ ext)
      ∧ (code = 0 ∨ code = -1) ∧ ∀ e ∈ ext, setupEvent e := by
  rcases sat_elim _ _ _ _ (InitializeAndConfigure_sat env cfg n tr) with
    ⟨code, ext, h1, h2⟩ | ⟨_, _, _, h2⟩
  · obtain ⟨ext1, h3, h4⟩ := emits_ok (InitializeAndConfigure_setupEvent env cfg n) h1
    have : ext1 = ext := (List.append_cancel_left h3).symm
    subst this
    exact ⟨code, ext1, h1, h2, h4⟩
  · exact h2.elim

/-! ## The start-up of `main` -/

theorem checkPermissions_eq (env : Env) (tr : Trace) :
    checkPermissions env tr
      = if env.answerBool tr .fopen = true then
          .ok 0 (tr ++ [⟨.fopen, .bool true⟩, ⟨.fclose, .done⟩, ⟨.remove, .done⟩])
        else .ok (-1) (tr ++ [⟨.fopen, .bool false⟩, ⟨.getchar, .done⟩]) := by
  unfold checkPermissions
  rw [bind_apply]
  unfold ask
  rw [andThen_ok]
  cases env.answerBool tr .fopen <;> simp [bind_apply, emit, Res.andThen, pure_apply]

theorem startup_not_writable (env : Env) (n : Nat) (file : ConfigFile)
    (hopen : env.answerBool [] .fopen = false) :
    startup env n file [] = .ok none [⟨.fopen, .bool false⟩, ⟨.getchar, .done⟩] := by
  unfold startup
  rw [bind_apply, checkPermissions_eq, hopen]
  rfl

theorem startup_writable (env : Env) (n : Nat) (file : ConfigFile)
    (hopen : env.answerBool [] .fopen = true)
    (hquiet : ∀ hist, ∀ c ∈ [Call.GetInstance, .GetLibraryVersion, .GetCameras, .Clear,
      .ReleaseInstance], env.throws hist c = false) :
    startup env n file [] = configureSystem env n file systemAcquired := by
  unfold startup
  rw [bind_apply, checkPermissions_eq, hopen, if_pos rfl, andThen_ok]
  have h0 : ((0 : Int) != 0) = false := by decide
  rw [h0]
  simp only [Bool.false_eq_true, if_false]
  rw [bind_apply, sdk_ok env _ _ (hquiet _ _ (by simp)), andThen_ok,
    bind_apply, sdk_ok env _ _ (hquiet _ _ (by simp)), andThen_ok,
    bind_apply, sdk_ok env _ _ (hquiet _ _ (by simp)), andThen_ok]
  rfl

theorem release_quiet (env : Env) (tr : Trace)
    (hquiet : ∀ hist, ∀ c ∈ [Call.GetInstance, .GetLibraryVersion, .GetCameras, .Clear,
      .ReleaseInstance], env.throws hist c = false) :
    (do
      sdk env .Clear
      sdk env .ReleaseInstance
      emit .getchar
      pure none : Prog (Option Config)) tr = .ok none (tr ++ systemReleased) := by
  rw [bind_apply, sdk_ok env _ _ (hquiet _ _ (by simp)), andThen_ok,
    bind_apply, sdk_ok env _ _ (hquiet _ _ (by simp)), andThen_ok]
  simp [bind_apply, emit, Res.andThen, pure_apply, systemReleased, allDone]

theorem configureSystem_no_cameras (env : Env) (file : ConfigFile) (tr : Trace)
    (hquiet : ∀ hist, ∀ c ∈ [Call.GetInstance, .GetLibraryVersion, .GetCameras, .Clear,
      .ReleaseInstance], env.throws hist c = false) :
    configureSystem env 0 file tr = .ok none (tr ++ systemReleased) := by
  unfold configureSystem
  rw [if_pos rfl]
  exact release_quiet env tr hquiet

theorem configureSystem_object (env : Env) (n : Nat) (hn : 0 < n) (cfg : Config)
    (tr tr1 : Trace) (code : Int)
    (hrun : InitializeAndConfigure env cfg n tr = .ok code tr1)
    (hquiet : ∀ hist, ∀ c ∈ [Call.GetInstance, .GetLibraryVersion, .GetCameras, .Clear,
      .ReleaseInstance], env.throws hist c = false) :
    configureSystem env n (.object cfg) tr
      = if code = 0 then .ok (some cfg) tr1 else .ok none (tr1 ++ systemReleased) := by
  obtain ⟨code1, ext, h1, hcode, _⟩ := InitializeAndConfigure_run env cfg n tr
  rw [hrun] at h1
  injection h1 with h2 h3
  subst h2
  unfold configureSystem
  rw [if_neg (by omega)]
  show (InitializeAndConfigure env cfg n tr).andThen _ = _
  rw [hrun, andThen_ok]
  rcases hcode with rfl | rfl
  · rfl
  · have h1 : (bitOr 0 (-1) != 0) = true := by decide
    simp only [h1, if_true]
    rw [if_neg (by decide)]
    exact release_quiet env tr1 hquiet

theorem startup_emits (env : Env) (n : Nat) (file : ConfigFile) :
    Emits (startup env n file) (fun e => loopCall e.call = false) := by
  have hinit : ∀ cfg, Emits (InitializeAndConfigure env cfg n)
      (fun e => loopCall e.call = false) := fun cfg =>
    emits_mono _ _ _ (InitializeAndConfigure_setupEvent env cfg n) fun _ h => h.1
  unfold startup checkPermissions configureSystem
  cases file <;>
  · repeat' (with_reducible first
      | apply emits_bind | apply emits_sdk | apply emits_ask | apply emits_pure
      | apply emits_ite | apply emits_emit | apply emits_raiseJson | apply hinit
      | intro _)
    all_goals rfl

/-- A run of `main` that returns -1 made no call of the loop: no sleep, no call of
`AcquireImages`, no frame request. -/
theorem main_returned_error (env : Env) (n : Nat) (file : ConfigFile) (fuel : Nat)
    (code : Int) (tr : Trace) (h : main env n file fuel = .returned code tr)
    (hcode : code ≠ 0) : code = -1 ∧ ∀ e ∈ tr, loopCall e.call = false := by
  unfold main at h
  cases hs : startup env n file [] with
  | raise x tr1 =>
    rw [hs] at h
    cases h
  | ok r tr1 =>
    rw [hs] at h
    cases r with
    | some cfg =>
      exact absurd (whileLoop_returned env cfg n fuel _ _ code tr h) hcode
    | none =>
      cases h
      obtain ⟨ext, h1, h2⟩ := emits_ok (startup_emits env n file) hs
      rw [h1]
      exact ⟨rfl, h2⟩

/-- C12.  What `main` does on each start-up failure, when the calls that `main` itself
makes on the system and on the camera list return.  When the test file cannot be created,
`main` returns -1 after `getchar`.  With no camera it returns -1 after `Clear` and
`ReleaseInstance`.  With the JSON value `null` in the configuration file it returns -1.
When `InitializeAndConfigure` returns a non-zero code, it returns -1 after `Clear` and
`ReleaseInstance`.  A run that returns -1 has made no call of the loop.  But on a
configuration file that is not JSON the parser raises an exception that nothing catches:
`main` does not return -1, it is left by the exception. -/
theorem setup_failures_end_main (env : Env) (numCameras : Nat) (fuel : Nat)
    (hquiet : ∀ hist, ∀ c ∈ [Call.GetInstance, .GetLibraryVersion, .GetCameras, .Clear,
      .ReleaseInstance], env.throws hist c = false) :
    (env.answerBool [] .fopen = false → ∀ file,
        main env numCameras file fuel
          = .returned (-1) [⟨.fopen, .bool false⟩, ⟨.getchar, .done⟩])
      ∧ (env.answerBool [] .fopen = true →
          (∀ file, main env 0 file fuel = .returned (-1) (systemAcquired ++ systemReleased))
          ∧ (0 < numCameras →
              main env numCameras .null fuel = .returned (-1) systemAcquired)
          ∧ (0 < numCameras → ∀ cfg, ∃ code ext,
              InitializeAndConfigure env cfg numCameras systemAcquired
                  = .ok code (systemAcquired ++ ext)
                ∧ (code ≠ 0 → main env numCameras (.object cfg) fuel
                    = .returned (-1) (systemAcquired ++ ext ++ systemReleased)))
          ∧ (0 < numCameras →
              main env numCameras .unparsable fuel = .uncaught .Json systemAcquired))
      ∧ ∀ file code tr, main env numCameras file fuel = .returned code tr → code ≠ 0 →
          code = -1 ∧ ∀ e ∈ tr, loopCall e.call = false := by
  refine ⟨fun hopen file => ?_, fun hopen => ⟨fun file => ?_, fun hn => ?_, fun hn cfg => ?_,
    fun hn => ?_⟩, fun file code tr h hcode =>
      main_returned_error env numCameras file fuel code tr h hcode⟩
  · unfold main
    rw [startup_not_writable env numCameras file hopen]
  · unfold main
    rw [startup_writable env 0 file hopen hquiet,
      configureSystem_no_cameras env file _ hquiet]
  · unfold main
    rw [startup_writable env numCameras _ hopen hquiet]
    unfold configureSystem
    rw [if_neg (by omega)]
    rfl
  · obtain ⟨code, ext, hrun, _, _⟩ :=
      InitializeAndConfigure_run env cfg numCameras systemAcquired
    refine ⟨code, ext, hrun, fun hcode => ?_⟩
    unfold main
    rw [startup_writable env numCameras _ hopen hquiet,
      configureSystem_object env numCameras hn cfg _ _ code hrun hquiet, if_neg hcode]
  · unfold main
    rw [startup_writable env numCameras _ hopen hquiet]
    unfold configureSystem
    rw [if_neg (by omega)]
    rfl

/-- C12 for one camera: in `readOnlyEnv` the test file cannot be created, and in
`noTriggerModeEnv` the first check of `ConfigureTrigger` fails; both runs return -1.  In
`quietEnv`, on a configuration file that is not JSON, `main` is left by the exception of
the parser. -/
theorem setup_failures_end_main_witness :
    (readOnlyEnv.answerBool [] .fopen = false
        ∧ main readOnlyEnv 1 (.object hardwareConfig) 1
          = .returned (-1) [⟨.fopen, .bool false⟩, ⟨.getchar, .done⟩])
      ∧ main noTriggerModeEnv 1 (.object hardwareConfig) 1
          = .returned (-1) (systemAcquired
              ++ [⟨.Init 0, .done⟩, ⟨.GetNode 0 .device "TriggerMode", .done⟩,
                ⟨.IsAvailable 0 .device "TriggerMode", .bool false⟩, ⟨.DeInit 0, .done⟩]
              ++ systemReleased)
      ∧ main quietEnv 1 .unparsable 1 = .uncaught .Json systemAcquired :=
  ⟨⟨rfl, (setup_failures_end_main readOnlyEnv 1 1 (fun _ _ _ => rfl)).1 rfl _⟩,
    by decide,
    ((setup_failures_end_main quietEnv 1 1 (fun _ _ _ => rfl)).2.1 rfl).2.2.2 (by decide)⟩

/-! ## Giving the system back -/

theorem clearCount_append (l1 l2 : Trace) :
    clearCount (l1 ++ l2) = clearCount l1 + clearCount l2 :=
  List.countP_append _ _ _

theorem releaseInstanceCount_append (l1 l2 : Trace) :
    releaseInstanceCount (l1 ++ l2) = releaseInstanceCount l1 + releaseInstanceCount l2 :=
  List.countP_append _ _ _

theorem clearCount_nil : clearCount [] = 0 := rfl

theorem releaseInstanceCount_nil : releaseInstanceCount [] = 0 := rfl

theorem clearCount_cons (c : Call) (a : Answer) (l : Trace) :
    clearCount (⟨c, a⟩ :: l) = (if c = .Clear then 1 else 0) + clearCount l := by
  by_cases h : c = .Clear <;> simp [clearCount, h, Nat.add_comm]

theorem releaseInstanceCount_cons (c : Call) (a : Answer) (l : Trace) :
    releaseInstanceCount (⟨c, a⟩ :: l)
      = (if c = .ReleaseInstance then 1 else 0) + releaseInstanceCount l := by
  by_cases h : c = .ReleaseInstance <;> simp [releaseInstanceCount, h, Nat.add_comm]

theorem counts_of_kept (l : Trace) (h : ∀ e ∈ l, releaseCall e.call = false) :
    clearCount l = 0 ∧ releaseInstanceCount l = 0 := by
  constructor
  · refine List.countP_eq_zero.mpr fun e he hc => ?_
    have h1 := h e he
    rw [of_decide_eq_true hc] at h1
    cases h1
  · refine List.countP_eq_zero.mpr fun e he hc => ?_
    have h1 := h e he
    rw [of_decide_eq_true hc] at h1
    cases h1

theorem sat_kept {α : Type} (p : Prog α) (base out : Trace) (Qok : α → Trace → Prop)
    (Qraise : Exn → Trace → Prop) (h : Emits p (fun e => releaseCall e.call = false))
    (hok : ∀ a ext, clearCount ext = 0 → releaseInstanceCount ext = 0 → Qok a (out ++ ext))
    (hraise : ∀ x ext, Qraise x (out ++ ext)) :
    Sat p base out Qok Qraise := by
  unfold Sat
  cases hp : p (base ++ out) with
  | ok a t =>
    obtain ⟨ext, h1, h2⟩ := emits_ok h hp
    exact ⟨out ++ ext, by rw [h1, List.append_assoc],
      hok a ext (counts_of_kept ext h2).1 (counts_of_kept ext h2).2⟩
  | raise x t =>
    obtain ⟨ext, h1, h2⟩ := emits_raise h hp
    exact ⟨out ++ ext, by rw [h1, List.append_assoc], hraise x ext⟩

theorem AcquireImages_kept (env : Env) (pCam : Nat) (imageCnt : Int) (src : String) :
    Emits (AcquireImages env pCam imageCnt src) (fun e => releaseCall e.call = false) := by
  unfold AcquireImages readSerialNumber GrabNextImageByTrigger retrieveImage
  repeat' (with_reducible first
    | apply emits_bind | apply emits_sdk | apply emits_ask | apply emits_pure
    | apply emits_ite | apply emits_emit | apply emits_tryCatch | apply emits_sdkString
    | intro _)
  all_goals rfl

theorem drainCameras_kept (env : Env) (cfg : Config) (imageCnt : Int) (n : Nat)
    (flag : Int) :
    Emits (drainCameras env cfg imageCnt n flag) (fun e => releaseCall e.call = false) := by
  induction n with
  | zero => exact emits_pure _ _
  | succ n ih =>
    unfold drainCameras
    refine emits_bind _ _ _ ih fun _ => ?_
    refine emits_bind _ _ _ (emits_jsonToString _ _) fun _ => ?_
    refine emits_bind _ _ _ (emits_emit _ _ rfl) fun _ => ?_
    refine emits_bind _ _ _ (AcquireImages_kept env n imageCnt _) fun _ => ?_
    exact emits_bind _ _ _ (emits_emit _ _ rfl) fun _ => emits_pure _ _

theorem stopCondition_kept (env : Env) (cfg : Config) (flag : Int) :
    Emits (stopCondition env cfg flag) (fun e => releaseCall e.call = false) := by
  unfold stopCondition deadlinePassed
  repeat' (with_reducible first
    | apply emits_bind | apply emits_pure | apply emits_ite | apply emits_readClock
    | intro _)
  all_goals rfl

theorem releaseCameras_kept (env : Env) (n : Nat) :
    Emits (releaseCameras env n) (fun e => releaseCall e.call = false) := by
  induction n with
  | zero => exact emits_pure _ _
  | succ n ih =>
    unfold releaseCameras
    refine emits_bind _ _ _ ih fun _ => ?_
    exact emits_bind _ _ _ (emits_sdk _ _ _ rfl rfl) fun _ => emits_sdk _ _ _ rfl rfl

/-- A pass of the loop that goes on made neither release call; a pass that ends the loop
made each of them once. -/
theorem loopBody_sat (env : Env) (cfg : Config) (n : Nat) (st : LoopState) (tr : Trace) :
    Sat (loopBody env cfg n st) tr []
      (fun r ext =>
        clearCount ext = (if r.isNone then 1 else 0)
          ∧ releaseInstanceCount ext = (if r.isNone then 1 else 0))
      (fun _ _ => True) := by
  unfold loopBody teardown
  repeat' (with_reducible first
    | apply sat_bind | apply sat_emit | apply sat_pure | apply sat_ite | apply sat_sdk
    | apply sat_kept _ _ _ _ _ (drainCameras_kept env cfg _ _ _)
    | apply sat_kept _ _ _ _ _ (stopCondition_kept env cfg _)
    | apply sat_kept _ _ _ _ _ (releaseCameras_kept env _)
    | intro _)
  all_goals first
    | trivial
    | simp_all [clearCount_append, releaseInstanceCount_append, clearCount_cons,
        releaseInstanceCount_cons, clearCount_nil, releaseInstanceCount_nil]

theorem whileLoop_released (env : Env) (cfg : Config) (n : Nat) (fuel : Nat)
    (st : LoopState) (tr : Trace) (code : Int) (out : Trace)
    (h : whileLoop env cfg n fuel st tr = .returned code out) :
    clearCount out = clearCount tr + 1
      ∧ releaseInstanceCount out = releaseInstanceCount tr + 1 := by
  induction fuel generalizing st tr with
  | zero => cases h
  | succ fuel ih =>
    unfold whileLoop at h
    rcases sat_elim _ _ _ _ (loopBody_sat env cfg n st tr) with
      ⟨r, ext, hb, h1, h2⟩ | ⟨x, ext, hb, _⟩
    · rw [hb] at h
      cases r with
      | none =>
        cases h
        rw [clearCount_append, releaseInstanceCount_append, h1, h2]
        exact ⟨rfl, rfl⟩
      | some st1 =>
        obtain ⟨h3, h4⟩ := ih st1 _ h
        rw [h3, h4, clearCount_append, releaseInstanceCount_append, h1, h2]
        exact ⟨rfl, rfl⟩
    · rw [hb] at h
      cases h

theorem InitializeAndConfigure_kept (env : Env) (cfg : Config) (n : Nat) :
    Emits (InitializeAndConfigure env cfg n) (fun e => releaseCall e.call = false) :=
  emits_mono _ _ _ (InitializeAndConfigure_setupEvent env cfg n) fun _ h => h.2

theorem sat_raiseJson {α : Type} (base out : Trace) (Qok : α → Trace → Prop)
    (Qraise : Exn → Trace → Prop) (h : Qraise .Json out) :
    Sat (raiseJson : Prog α) base out Qok Qraise :=
  ⟨out, rfl, h⟩

/-- The release calls of the start-up: a start-up that leads to the loop made neither;
one that returns -1 after the system instance was acquired made each of them once, except
on the return of line 430 (configuration `null`, with cameras), where it made neither. -/
theorem startup_sat (env : Env) (n : Nat) (file : ConfigFile) (tr : Trace) :
    Sat (startup env n file) tr []
      (fun r ext =>
        match r with
        | some _ => file ≠ .null ∧ clearCount ext = 0 ∧ releaseInstanceCount ext = 0
        | none => (⟨.GetInstance, .done⟩ : Event) ∈ ext →
            (file = .null ∧ 0 < n → clearCount ext = 0 ∧ releaseInstanceCount ext = 0)
              ∧ (¬(file = .null ∧ 0 < n) →
                  clearCount ext = 1 ∧ releaseInstanceCount ext = 1))
      (fun _ _ => True) := by
  unfold startup checkPermissions configureSystem
  cases file <;>
  · repeat' (with_reducible first
      | apply sat_bind | apply sat_emit | apply sat_pure | apply sat_ite | apply sat_sdk
      | apply sat_ask | apply sat_raiseJson
      | apply sat_kept _ _ _ _ _ (InitializeAndConfigure_kept env _ _)
      | intro _)
    all_goals first
      | trivial
      | simp_all [clearCount_append, releaseInstanceCount_append, clearCount_cons,
          releaseInstanceCount_cons, clearCount_nil, releaseInstanceCount_nil]

/-- C17.  What the code does on the paths of `main` that return after the system instance
was acquired.  On every such path but one, `Clear` and `ReleaseInstance` are each called
exactly once before `main` returns: with no camera, after a configuration failure, and
when the loop stops.  The exception is the return of line 430, taken when the
configuration file holds the JSON value `null` and there is a camera: there `main`
returns -1 and neither `Clear` nor `ReleaseInstance` is called. -/
theorem system_released_once_unless_null (env : Env) (numCameras : Nat) (file : ConfigFile)
    (fuel : Nat) (code : Int) (tr : Trace)
    (hret : main env numCameras file fuel = .returned code tr)
    (hacquired : (⟨.GetInstance, .done⟩ : Event) ∈ tr) :
    (file = .null ∧ 0 < numCameras →
        code = -1 ∧ clearCount tr = 0 ∧ releaseInstanceCount tr = 0)
      ∧ (¬(file = .null ∧ 0 < numCameras) →
          clearCount tr = 1 ∧ releaseInstanceCount tr = 1) := by
  unfold main at hret
  rcases sat_elim _ _ _ _ (startup_sat env numCameras file []) with
    ⟨r, ext, hs, hq⟩ | ⟨x, ext, hs, _⟩
  · rw [hs] at hret
    cases r with
    | none =>
      cases hret
      obtain ⟨h1, h2⟩ := hq hacquired
      exact ⟨fun h => ⟨rfl, h1 h⟩, h2⟩
    | some cfg =>
      obtain ⟨hfile, h1, h2⟩ := hq
      obtain ⟨h3, h4⟩ := whileLoop_released env cfg numCameras fuel _ _ code tr hret
      rw [List.nil_append] at h3 h4
      exact ⟨fun h => absurd h.1 hfile, fun _ => by rw [h3, h4, h1, h2]; exact ⟨rfl, rfl⟩⟩
  · rw [hs] at hret
    cases hret

/-- C17 on two runs in `quietEnv`.  With one camera and the configuration `null`, `main`
returns -1 after the system instance was acquired and neither `Clear` nor
`ReleaseInstance` was called.  With no camera, `main` returns -1 after one call of each. -/
theorem system_released_once_unless_null_witness :
    main quietEnv 1 .null 1 = .returned (-1) systemAcquired
      ∧ (clearCount systemAcquired = 0 ∧ releaseInstanceCount systemAcquired = 0)
      ∧ main quietEnv 0 .null 1 = .returned (-1) (systemAcquired ++ systemReleased)
      ∧ (clearCount (systemAcquired ++ systemReleased) = 1
        ∧ releaseInstanceCount (systemAcquired ++ systemReleased) = 1) :=
  ⟨by decide,
    ((system_released_once_unless_null quietEnv 1 .null 1 (-1) systemAcquired (by decide)
      (by decide)).1 ⟨rfl, by decide⟩).2,
    by decide,
    (system_released_once_unless_null quietEnv 0 .null 1 (-1)
      (systemAcquired ++ systemReleased) (by decide) (by decide)).2
      (fun h => absurd h.2 (by decide))⟩

/-! ## The software trigger -/

theorem GrabRun.executed_after_failed_check {pCam : Nat} {src : String} {g : Int}
    {ext : Trace} (h : GrabRun pCam src g ext)
    (hfail : (⟨.IsAvailable pCam .device "TriggerSoftware", .bool false⟩ : Event) ∈ ext
      ∨ (⟨.IsWritable pCam .device "TriggerSoftware", .bool false⟩ : Event) ∈ ext) :
    g = -1 ∧ ∃ a, (⟨.Execute pCam "TriggerSoftware", a⟩ : Event) ∈ ext := by
  cases h <;> simp at hfail ⊢

/-- C23.  What the code does on the software path when the check of the command node
"TriggerSoftware" fails.  In `noTriggerCommandEnv` the node is not available: the function
records the failure and still calls `Execute` on the node before it returns -1.  And in
every run of the software path in which `IsAvailable` or `IsWritable` answered false,
`Execute` is called on the node all the same and the function returns -1. -/
theorem unusable_trigger_command_is_executed :
    GrabNextImageByTrigger noTriggerCommandEnv 0 "Software" []
        = .ok (-1) [⟨.getchar, .done⟩, ⟨.GetNode 0 .device "TriggerSoftware", .done⟩,
            ⟨.IsAvailable 0 .device "TriggerSoftware", .bool false⟩,
            ⟨.Execute 0 "TriggerSoftware", .done⟩]
      ∧ ∀ (env : Env) (pCam : Nat) (tr : Trace), ∃ g ext,
          GrabNextImageByTrigger env pCam "Software" tr = .ok g (tr ++ ext)
            ∧ ((⟨.IsAvailable pCam .device "TriggerSoftware", .bool false⟩ : Event) ∈ ext
                ∨ (⟨.IsWritable pCam .device "TriggerSoftware", .bool false⟩ : Event) ∈ ext →
              g = -1 ∧ ∃ a, (⟨.Execute pCam "TriggerSoftware", a⟩ : Event) ∈ ext) := by
  refine ⟨by decide, fun env pCam tr => ?_⟩
  rcases sat_elim _ _ _ _ (GrabNextImageByTrigger_sat env pCam "Software" tr) with
    ⟨g, ext, h1, h2⟩ | ⟨_, _, _, h2⟩
  · exact ⟨g, ext, h1, h2.executed_after_failed_check⟩
  · exact h2.elim

/-! ## The error flag over the passes -/

theorem errorFlag_stays_nonzero (env : Env) (cfg : Config) (n : Nat) (tr0 : Trace) (k : Nat)
    (st : LoopState) (tr : Trace) (hstart : passStart env cfg n tr0 k = some (st, tr))
    (hflag : st.errorFlag ≠ 0) :
    ∀ j st1 tr1, passStart env cfg n tr0 (k + j) = some (st1, tr1) → st1.errorFlag ≠ 0 := by
  intro j
  induction j with
  | zero =>
    intro st1 tr1 h
    rw [Nat.add_zero, hstart] at h
    injection h with h
    injection h with h1 _
    rw [← h1]
    exact hflag
  | succ j ih =>
    intro st1 tr1 h
    obtain ⟨st2, tr2, h2, hb⟩ := passStart_succ env cfg n tr0 (k + j) st1 tr1 h
    obtain ⟨_, tr3, hd⟩ := loopBody_some env cfg n st2 st1 tr2 tr1 hb
    obtain ⟨out, _, src, hrun, _⟩ := drainCameras_ok env cfg _ _ _ _ _ _ hd
    have hinv := (passStart_inv env cfg n tr0 (k + j) st2 tr2 h2).1
    intro h0
    exact ih st2 tr2 h2 ((hrun.flag_eq hinv).2.mp h0).1

/-- C28.  In every pass of the loop that a run reaches, `errorFlag` is 0 or -1 before
and after the loop over the cameras.  It is sticky: a non-zero value before the cameras
stays non-zero after them, the value after them is 0 exactly when it was 0 before and
every call of `AcquireImages` of the pass returned 0, a pass that goes on hands this
value to the next pass, and a value that is not 0 at the start of a pass is not 0 at the
start of any later pass.  With `ExitOnError` set, a non-zero value makes the stop condition
true without reading the clock and no further pass starts.  With `ExitOnError` not set,
the stop condition is the deadline comparison alone, whatever the flag. -/
theorem errorFlag_is_sticky (env : Env) (cfg : Config) (numCameras : Nat) (tr0 : Trace)
    (k : Nat) (st : LoopState) (tr out : Trace) (flag : Int)
    (hstart : passStart env cfg numCameras tr0 k = some (st, tr))
    (hdrain : drainCameras env cfg st.imageCnt numCameras st.errorFlag
        (tr ++ [⟨.sleep_for cfg.TriggerTiming, .done⟩])
      = .ok flag (tr ++ [⟨.sleep_for cfg.TriggerTiming, .done⟩] ++ out)) :
    (st.errorFlag = 0 ∨ st.errorFlag = -1)
      ∧ (flag = 0 ∨ flag = -1)
      ∧ (st.errorFlag ≠ 0 → flag ≠ 0)
      ∧ (flag = 0 ↔ st.errorFlag = 0
          ∧ ∀ i c a, (⟨.ret_AcquireImages i c, a⟩ : Event) ∈ out → c = 0)
      ∧ (∀ st1 tr2, loopBody env cfg numCameras st tr = .ok (some st1) tr2 →
          st1.errorFlag = flag)
      ∧ (cfg.ExitOnError = true → flag ≠ 0 →
          stopCondition env cfg flag (tr ++ [⟨.sleep_for cfg.TriggerTiming, .done⟩] ++ out)
              = .ok true (tr ++ [⟨.sleep_for cfg.TriggerTiming, .done⟩] ++ out)
            ∧ passStart env cfg numCameras tr0 (k + 1) = none)
      ∧ (cfg.ExitOnError = false → ∀ hist,
          stopCondition env cfg flag hist = deadlinePassed env cfg hist)
      ∧ (st.errorFlag ≠ 0 → ∀ j st1 tr1,
          passStart env cfg numCameras tr0 (k + j) = some (st1, tr1) →
          st1.errorFlag ≠ 0) := by
  obtain ⟨out1, hout, src, hrun, _⟩ := drainCameras_ok env cfg _ _ _ _ _ _ hdrain
  have hout1 : out1 = out := (List.append_cancel_left hout).symm
  subst hout1
  have hinv := (passStart_inv env cfg numCameras tr0 k st tr hstart).1
  obtain ⟨hflag, hiff⟩ := hrun.flag_eq hinv
  refine ⟨hinv, hflag, fun h0 h1 => h0 (hiff.mp h1).1, hiff, ?_, ?_, ?_,
    errorFlag_stays_nonzero env cfg numCameras tr0 k st tr hstart⟩
  · intro st1 tr2 hb
    obtain ⟨_, tr3, hd⟩ := loopBody_some env cfg numCameras st st1 tr tr2 hb
    rw [hdrain] at hd
    injection hd with h1 _
    exact h1.symm
  · intro hexit hne
    have hs := stopCondition_error env cfg flag
      (tr ++ [⟨.sleep_for cfg.TriggerTiming, .done⟩] ++ out1) hne hexit
    exact ⟨hs, passStart_stop env cfg numCameras tr0 k st tr _ _ flag hstart hdrain hs⟩
  · intro hexit hist
    exact stopCondition_no_exit env cfg flag hist hexit

/-- C28 in the first pass of a run with one camera whose buffer holds no image: the flag
goes from 0 to -1, and with `ExitOnError` set there is no second pass. -/
theorem errorFlag_is_sticky_witness :
    passStart noImageEnv hardwareConfig 1 [] 0 = some (loopEntry, [])
      ∧ drainCameras noImageEnv hardwareConfig 1 1 0 ([] ++ [⟨.sleep_for 100, .done⟩])
          = .ok (-1) ([] ++ [⟨.sleep_for 100, .done⟩] ++ noImagePass)
      ∧ hardwareConfig.ExitOnError = true
      ∧ passStart noImageEnv hardwareConfig 1 [] (0 + 1) = none :=
  ⟨rfl, by decide, rfl,
    ((errorFlag_is_sticky noImageEnv hardwareConfig 1 [] 0 loopEntry [] noImagePass (-1)
      rfl (by decide)).2.2.2.2.2.1 rfl (by decide)).2⟩

/-! ## The order of the writes of `ConfigureTrigger` -/

theorem enumWrites_append (l1 l2 : Trace) :
    enumWrites (l1 ++ l2) = enumWrites l1 ++ enumWrites l2 := by
  unfold enumWrites
  exact List.filterMap_append _ _ _

theorem enumWrites_nil : enumWrites [] = [] := rfl

theorem enumWrites_write (cam : Nat) (node entry : String) (l : Trace) :
    enumWrites (⟨.SetIntValue cam node entry, .done⟩ :: l) = (node, entry) :: enumWrites l :=
  rfl

theorem enumWrites_raised (c : Call) (l : Trace) :
    enumWrites (⟨c, .raised⟩ :: l) = enumWrites l := by
  cases c <;> rfl

theorem enumWrites_bool (c : Call) (b : Bool) (l : Trace) :
    enumWrites (⟨c, .bool b⟩ :: l) = enumWrites l := by
  cases c <;> rfl

theorem enumWrites_GetNode (cam : Nat) (map : NodeMapKind) (name : String) (a : Answer)
    (l : Trace) : enumWrites (⟨.GetNode cam map name, a⟩ :: l) = enumWrites l := rfl

theorem enumWrites_GetEntryByName (cam : Nat) (node entry : String) (a : Answer)
    (l : Trace) : enumWrites (⟨.GetEntryByName cam node entry, a⟩ :: l) = enumWrites l := rfl

theorem enumWrites_EntryGetValue (cam : Nat) (node entry : String) (a : Answer)
    (l : Trace) : enumWrites (⟨.EntryGetValue cam node entry, a⟩ :: l) = enumWrites l := rfl

theorem notUsable_writes (env : Env) (first second : Call) (tr : Trace) :
    Sat (notUsable env first second) tr [] (fun _ ext => enumWrites ext = [])
      (fun _ _ => False) := by
  unfold notUsable
  repeat' (with_reducible first
    | apply sat_bind | apply sat_ask | apply sat_pure | apply sat_ite | intro _)
  all_goals simp [enumWrites_append, enumWrites_bool, enumWrites_nil]

theorem sat_notUsable_writes (env : Env) (first second : Call) (base out : Trace)
    (Qok : Bool → Trace → Prop) (Qraise : Exn → Trace → Prop)
    (hok : ∀ b ext, enumWrites ext = [] → Qok b (out ++ ext)) :
    Sat (notUsable env first second) base out Qok Qraise :=
  sat_frame _ _ _ _ _ _ _ (notUsable_writes env first second (base ++ out))
    hok (fun _ _ h => h.elim)

theorem setEnumEntry_writes (env : Env) (pCam : Nat) (node entry : String) (tr : Trace) :
    Sat (setEnumEntry env pCam node entry) tr []
      (fun ok ext => enumWrites ext = if ok then [(node, entry)] else [])
      (fun _ ext => enumWrites ext = []) := by
  unfold setEnumEntry
  repeat' (with_reducible first
    | apply sat_bind | apply sat_sdk | apply sat_pure | apply sat_ite
    | apply sat_notUsable_writes | intro _)
  all_goals simp_all [enumWrites_append, enumWrites_nil, enumWrites_write,
    enumWrites_raised, enumWrites_GetEntryByName, enumWrites_EntryGetValue]

theorem sat_setEnumEntry_writes (env : Env) (pCam : Nat) (node entry : String)
    (base out : Trace) (Qok : Bool → Trace → Prop) (Qraise : Exn → Trace → Prop)
    (hraise : ∀ x ext, enumWrites ext = [] → Qraise x (out ++ ext))
    (hok : ∀ ok ext, (enumWrites ext = if ok then [(node, entry)] else []) →
      Qok ok (out ++ ext)) :
    Sat (setEnumEntry env pCam node entry) base out Qok Qraise :=
  sat_frame _ _ _ _ _ _ _ (setEnumEntry_writes env pCam node entry (base ++ out)) hok hraise

theorem ConfigureTrigger_writes (env : Env) (pCam : Nat) (cfg : Config) (tr : Trace) :
    Sat (ConfigureTrigger env pCam cfg) tr []
      (fun code ext =>
        (code = 0 → enumWrites ext = triggerWrites cfg)
          ∧ (code ≠ 0 → code = -1 ∧ enumWrites ext <+: pendingWrites cfg))
      (fun _ ext => enumWrites ext <+: pendingWrites cfg) := by
  unfold ConfigureTrigger selectTriggerSource enableTriggerMode
  repeat' (with_reducible first
    | apply sat_bind | apply sat_sdk | apply sat_pure | apply sat_ite
    | apply sat_notUsable_writes | apply sat_setEnumEntry_writes | intro _)
  all_goals
    simp_all [enumWrites_append, enumWrites_nil, enumWrites_raised, enumWrites_GetNode,
      triggerWrites, pendingWrites]

theorem pendingWrites_mode (cfg : Config) (entry : String)
    (h : ("TriggerMode", entry) ∈ pendingWrites cfg) : entry = "Off" := by
  unfold pendingWrites at h
  split_ifs at h <;> simp at h <;> exact h

/-- In a prefix of `P ++ [z]`, whatever stands before an element other than `z` is a
prefix of `P`. -/
theorem prefix_before {α : Type} (P : List α) (z : α) (pre post : List α) (x : α)
    (h : pre ++ x :: post <+: P ++ [z]) (hx : x ≠ z) : pre ++ [x] <+: P := by
  have h1 : pre ++ [x] <+: P ++ [z] :=
    List.IsPrefix.trans ⟨post, by simp⟩ h
  rcases List.prefix_concat_iff.mp h1 with h2 | h2
  · have := List.append_inj' h2 rfl
    exact absurd (List.singleton_inj.mp this.2) hx
  · exact h2

/-- C25.  In every run of `ConfigureTrigger`, the writes to enumeration nodes that
returned are a beginning of this sequence: "TriggerMode" to "Off", "TriggerSelector",
"TriggerSource" (to "Line3" when the configured source is "Hardware", to "Software"
otherwise; for "Hardware" followed by "TriggerActivation"), "TriggerMode" to "On".  So a
write to the selector, the source or the activation comes after the write of "Off" and not
after a write of "On".  A run that returns 0 made the whole sequence, which ends with
"On".  Every other run (it returns -1, or an SDK exception leaves it) stopped before the
write of "On": in it, every write to "TriggerMode" is the write of "Off". -/
theorem ConfigureTrigger_writes_between_Off_and_On (env : Env) (pCam : Nat) (cfg : Config)
    (tr : Trace) :
    ∃ ext, (ConfigureTrigger env pCam cfg tr).trace = tr ++ ext
      ∧ enumWrites ext <+: triggerWrites cfg
      ∧ (∀ pre node entry post, enumWrites ext = pre ++ (node, entry) :: post →
          node ≠ "TriggerMode" →
          ("TriggerMode", "Off") ∈ pre ∧ ("TriggerMode", "On") ∉ pre)
      ∧ (ConfigureTrigger env pCam cfg tr = .ok 0 (tr ++ ext) →
          enumWrites ext = triggerWrites cfg)
      ∧ (ConfigureTrigger env pCam cfg tr ≠ .ok 0 (tr ++ ext) →
          enumWrites ext <+: pendingWrites cfg
            ∧ ∀ entry, ("TriggerMode", entry) ∈ enumWrites ext → entry = "Off")
      ∧ ∀ code, ConfigureTrigger env pCam cfg tr = .ok code (tr ++ ext) →
          code = 0 ∨ code = -1 := by
  have hpending : ∀ w : List (String × String), w <+: pendingWrites cfg →
      ∀ entry, ("TriggerMode", entry) ∈ w → entry = "Off" := fun w hw entry hm =>
    pendingWrites_mode cfg entry (hw.mem hm)
  have hbetween : ∀ w : List (String × String), w <+: triggerWrites cfg →
      ∀ pre node entry post, w = pre ++ (node, entry) :: post → node ≠ "TriggerMode" →
        ("TriggerMode", "Off") ∈ pre ∧ ("TriggerMode", "On") ∉ pre := by
    intro w hw pre node entry post hsplit hnode
    rw [hsplit] at hw
    have h1 : pre ++ [(node, entry)] <+: pendingWrites cfg :=
      prefix_before (pendingWrites cfg) ("TriggerMode", "On") pre post (node, entry) hw
        (fun h => hnode (congrArg Prod.fst h))
    refine ⟨?_, fun hon => ?_⟩
    · cases pre with
      | nil =>
        have h2 : (node, entry) ∈ pendingWrites cfg := h1.mem (by simp)
        obtain ⟨t, ht⟩ := h1
        unfold pendingWrites at ht
        simp only [List.nil_append, List.cons_append, List.singleton_append] at ht
        injection ht with h3 _
        exact absurd (congrArg Prod.fst h3) hnode
      | cons p pre1 =>
        obtain ⟨t, ht⟩ := h1
        unfold pendingWrites at ht
        simp only [List.cons_append] at ht
        injection ht with h3 _
        rw [h3]
        exact List.mem_cons_self _ _
    · have h2 : ("TriggerMode", "On") ∈ pendingWrites cfg :=
        h1.mem (List.mem_append_left _ hon)
      exact absurd (pendingWrites_mode cfg "On" h2) (by decide)
  rcases sat_elim _ _ _ _ (ConfigureTrigger_writes env pCam cfg tr) with
    ⟨code, ext, hrun, h0, h1⟩ | ⟨x, ext, hrun, h1⟩
  · have hcode : code = 0 ∨ code = -1 := by
      by_cases hc : code = 0
      · exact Or.inl hc
      · exact Or.inr (h1 hc).1
    have hprefix : enumWrites ext <+: triggerWrites cfg := by
      by_cases hc : code = 0
      · rw [h0 hc]
      · exact (h1 hc).2.trans (List.prefix_append _ _)
    refine ⟨ext, by rw [hrun]; rfl, hprefix, hbetween _ hprefix, ?_, ?_, ?_⟩
    · intro h
      rw [hrun] at h
      injection h with hc _
      exact h0 hc
    · intro h
      have hc : code ≠ 0 := fun hc => h (by rw [hrun, hc])
      exact ⟨(h1 hc).2, hpending _ (h1 hc).2⟩
    · intro code1 h
      rw [hrun] at h
      injection h with hc _
      rw [← hc]
      exact hcode
  · have hprefix : enumWrites ext <+: triggerWrites cfg :=
      h1.trans (List.prefix_append _ _)
    refine ⟨ext, by rw [hrun]; rfl, hprefix, hbetween _ hprefix, ?_, ?_, ?_⟩
    · intro h
      rw [hrun] at h
      cases h
    · intro _
      exact ⟨h1, hpending _ h1⟩
    · intro code h
      rw [hrun] at h
      cases h

/-! ## `InitializeAndConfigure` when no call raises -/

theorem cameraSteps_append (l1 l2 : Trace) :
    cameraSteps (l1 ++ l2) = cameraSteps l1 ++ cameraSteps l2 := by
  simp [cameraSteps]

theorem cameraSteps_eq_nil (l : Trace) (h : ∀ e ∈ l, isCameraStep e.call = false) :
    cameraSteps l = [] := by
  unfold cameraSteps
  rw [List.filter_eq_nil_iff]
  intro c hc
  obtain ⟨e, he, rfl⟩ := List.mem_map.mp hc
  simp [h e he]

theorem cameraSteps_allDone (calls : List Call) (h : ∀ c ∈ calls, isCameraStep c = true) :
    cameraSteps (allDone calls) = calls := by
  unfold cameraSteps allDone
  rw [List.map_map]
  have : ((fun e : Event => e.call) ∘ fun c => (⟨c, .done⟩ : Event)) = id := rfl
  rw [this, List.map_id, List.filter_eq_self]
  exact h

theorem ConfigureTrigger_no_cameraStep (env : Env) (pCam : Nat) (cfg : Config) :
    Emits (ConfigureTrigger env pCam cfg) (fun e => isCameraStep e.call = false) := by
  unfold ConfigureTrigger selectTriggerSource enableTriggerMode setEnumEntry notUsable
  repeat' (with_reducible first
    | apply emits_bind | apply emits_sdk | apply emits_ask | apply emits_pure
    | apply emits_ite | intro _)
  all_goals rfl

theorem setEnumEntry_quiet (env : Env) (hquiet : ∀ hist c, env.throws hist c = false)
    (pCam : Nat) (node entry : String) (tr : Trace) :
    Sat (setEnumEntry env pCam node entry) tr [] (fun _ _ => True) (fun _ _ => False) := by
  unfold setEnumEntry
  repeat' (with_reducible first
    | apply sat_bind | apply sat_sdk_cases | apply sat_pure | apply sat_ite
    | apply sat_notUsable | intro _)
  all_goals first
    | trivial
    | (rename_i h; rw [hquiet] at h; cases h)

theorem sat_setEnumEntry_quiet (env : Env) (hquiet : ∀ hist c, env.throws hist c = false)
    (pCam : Nat) (node entry : String) (base out : Trace) (Qok : Bool → Trace → Prop)
    (Qraise : Exn → Trace → Prop) (hok : ∀ ok ext, Qok ok (out ++ ext)) :
    Sat (setEnumEntry env pCam node entry) base out Qok Qraise :=
  sat_frame _ _ _ _ _ _ _ (setEnumEntry_quiet env hquiet pCam node entry (base ++ out))
    (fun ok ext _ => hok ok ext) (fun _ _ h => h.elim)

theorem ConfigureTrigger_quiet (env : Env) (hquiet : ∀ hist c, env.throws hist c = false)
    (pCam : Nat) (cfg : Config) (tr : Trace) :
    ∃ code ext, ConfigureTrigger env pCam cfg tr = .ok code (tr ++ ext)
      ∧ (code = 0 ∨ code = -1) ∧ cameraSteps ext = [] := by
  have hsat : Sat (ConfigureTrigger env pCam cfg) tr []
      (fun code _ => code = 0 ∨ code = -1) (fun _ _ => False) := by
    unfold ConfigureTrigger selectTriggerSource enableTriggerMode
    repeat' (with_reducible first
      | apply sat_bind | apply sat_sdk_cases | apply sat_pure | apply sat_ite
      | apply sat_notUsable | apply sat_setEnumEntry_quiet env hquiet | intro _)
    all_goals first
      | exact Or.inl rfl
      | exact Or.inr rfl
      | (rename_i h; rw [hquiet] at h; cases h)
  rcases sat_elim _ _ _ _ hsat with ⟨code, ext, h1, h2⟩ | ⟨_, _, _, h2⟩
  · obtain ⟨ext1, h3, h4⟩ := emits_ok (ConfigureTrigger_no_cameraStep env pCam cfg) h1
    have : ext1 = ext := (List.append_cancel_left h3).symm
    subst this
    exact ⟨code, ext1, h1, h2, cameraSteps_eq_nil ext1 h4⟩
  · exact h2.elim

theorem configureCameras_quiet (env : Env) (hquiet : ∀ hist c, env.throws hist c = false)
    (cfg : Config) (n : Nat) (tr : Trace) :
    ∃ codes out result, ConfiguredRun env cfg tr n codes out
      ∧ configureCameras env cfg n 0 tr = .ok result (tr ++ out)
      ∧ (result = 0 ∨ result = -1)
      ∧ (result = 0 ↔ ∀ c ∈ codes, c = 0)
      ∧ cameraSteps out = (List.range n).map Call.Init := by
  induction n with
  | zero =>
    exact ⟨[], [], 0, .nil, by simp [configureCameras, pure_apply], Or.inl rfl, by simp,
      by simp [cameraSteps]⟩
  | succ n ih =>
    obtain ⟨codes, out, result, hrun, heq, hres, hiff, hsteps⟩ := ih
    obtain ⟨code, cext, hc, hcode, hcs⟩ :=
      ConfigureTrigger_quiet env hquiet n cfg (tr ++ out ++ [⟨.Init n, .done⟩])
    refine ⟨codes ++ [code], out ++ [⟨.Init n, .done⟩] ++ cext, bitOr result code,
      .snoc n codes out code cext hrun hc, ?_, (bitOr_code _ _ hres hcode).1, ?_, ?_⟩
    · unfold configureCameras
      rw [bind_apply, heq, andThen_ok, bind_apply, sdk_ok _ _ _ (hquiet _ _), andThen_ok,
        bind_apply, hc, andThen_ok, pure_apply]
      simp
    · rw [(bitOr_code _ _ hres hcode).2, hiff]
      constructor
      · rintro ⟨h1, h2⟩ c hc
        rcases List.mem_append.mp hc with h | h
        · exact h1 c h
        · rw [List.mem_singleton.mp h, h2]
      · intro h
        exact ⟨fun c hc => h c (List.mem_append_left _ hc),
          h code (List.mem_append_right _ (List.mem_singleton.mpr rfl))⟩
    · rw [cameraSteps_append, cameraSteps_append, hsteps, hcs, List.range_succ]
      simp [cameraSteps, isCameraStep]

theorem deinitCameras_quiet (env : Env) (hquiet : ∀ hist c, env.throws hist c = false)
    (n : Nat) (tr : Trace) :
    deinitCameras env n tr = .ok () (tr ++ allDone ((List.range n).map Call.DeInit)) := by
  induction n with
  | zero => simp [deinitCameras, pure_apply, allDone]
  | succ n ih =>
    unfold deinitCameras
    rw [bind_apply, ih, andThen_ok, sdk_ok _ _ _ (hquiet _ _)]
    simp [List.range_succ, allDone]

theorem beginAcquisition_quiet (env : Env) (hquiet : ∀ hist c, env.throws hist c = false)
    (n : Nat) (tr : Trace) :
    beginAcquisition env n tr
      = .ok () (tr ++ allDone ((List.range n).map Call.BeginAcquisition)) := by
  induction n with
  | zero => simp [beginAcquisition, pure_apply, allDone]
  | succ n ih =>
    unfold beginAcquisition
    rw [bind_apply, ih, andThen_ok, sdk_ok _ _ _ (hquiet _ _)]
    simp [List.range_succ, allDone]

theorem ConfiguredRun.length_codes {env : Env} {cfg : Config} {tr : Trace} {n : Nat}
    {codes : List Int} {out : Trace} (h : ConfiguredRun env cfg tr n codes out) :
    codes.length = n := by
  induction h with
  | nil => rfl
  | snoc n codes out code cext _ _ ih => simp [ih]

/-- C30.  A run of `InitializeAndConfigure` for `numCameras` cameras, after any history,
in which no call of the SDK raises.  The first loop is a `ConfiguredRun`: for every camera
in index order `Init` and then a run of `ConfigureTrigger`, whatever the earlier runs of
`ConfigureTrigger` returned, one code per camera; its calls on cameras as a whole are the
`Init` calls in index order.  The function returns.  When some run of `ConfigureTrigger`
returned a code other than 0, the result is not 0 and the rest of the run is `DeInit` on
every camera in index order, so `BeginAcquisition` is called on no camera.  When every run
of `ConfigureTrigger` returned 0, the result is 0 and the rest of the run is
`BeginAcquisition` on every camera in index order, once each. -/
theorem InitializeAndConfigure_without_exception (env : Env) (cfg : Config)
    (numCameras : Nat) (tr : Trace) (hquiet : ∀ hist c, env.throws hist c = false) :
    ∃ codes out result rest,
      ConfiguredRun env cfg tr numCameras codes out
      ∧ codes.length = numCameras
      ∧ cameraSteps out = (List.range numCameras).map Call.Init
      ∧ InitializeAndConfigure env cfg numCameras tr = .ok result (tr ++ out ++ rest)
      ∧ ((∃ c ∈ codes, c ≠ 0) →
          result ≠ 0 ∧ rest = allDone ((List.range numCameras).map Call.DeInit)
            ∧ ∀ e ∈ out ++ rest, ∀ cam, e.call ≠ .BeginAcquisition cam)
      ∧ ((∀ c ∈ codes, c = 0) →
          result = 0 ∧ rest = allDone ((List.range numCameras).map Call.BeginAcquisition)
            ∧ cameraSteps (out ++ rest)
              = (List.range numCameras).map Call.Init
                ++ (List.range numCameras).map Call.BeginAcquisition) := by
  obtain ⟨codes, out, result, hrun, heq, hres, hiff, hsteps⟩ :=
    configureCameras_quiet env hquiet cfg numCameras tr
  by_cases h0 : result = 0
  · refine ⟨codes, out, result,
      allDone ((List.range numCameras).map Call.BeginAcquisition), hrun, hrun.length_codes,
      hsteps, ?_, ?_, ?_⟩
    · unfold InitializeAndConfigure tryCatchSpinnaker
      rw [bind_apply, heq, andThen_ok]
      simp [h0, bind_apply, beginAcquisition_quiet env hquiet, andThen_ok, pure_apply,
        Res.orCatch]
    · rintro ⟨c, hc, hne⟩
      exact (hne (hiff.mp h0 c hc)).elim
    · intro _
      refine ⟨h0, rfl, ?_⟩
      rw [cameraSteps_append, hsteps, cameraSteps_allDone]
      intro c hc
      obtain ⟨i, _, rfl⟩ := List.mem_map.mp hc
      rfl
  · refine ⟨codes, out, result,
      allDone ((List.range numCameras).map Call.DeInit), hrun, hrun.length_codes,
      hsteps, ?_, ?_, ?_⟩
    · unfold InitializeAndConfigure tryCatchSpinnaker
      rw [bind_apply, heq, andThen_ok]
      simp [h0, bind_apply, deinitCameras_quiet env hquiet, andThen_ok, pure_apply,
        Res.orCatch]
    · intro _
      refine ⟨h0, rfl, ?_⟩
      intro e he cam hcall
      have hmem : Call.BeginAcquisition cam
          ∈ cameraSteps (out ++ allDone ((List.range numCameras).map Call.DeInit)) := by
        unfold cameraSteps
        rw [List.mem_filter]
        exact ⟨List.mem_map.mpr ⟨e, he, hcall⟩, rfl⟩
      rw [cameraSteps_append, hsteps, cameraSteps_allDone] at hmem
      · simp at hmem
      · intro c hc
        obtain ⟨i, _, rfl⟩ := List.mem_map.mp hc
        rfl
    · intro hall
      exact (h0 (hiff.mpr hall)).elim

theorem InitializeAndConfigure_without_exception_witness :
    ∃ codes out result rest,
      ConfiguredRun quietEnv hardwareConfig [] 2 codes out
      ∧ codes.length = 2
      ∧ cameraSteps out = (List.range 2).map Call.Init
      ∧ InitializeAndConfigure quietEnv hardwareConfig 2 [] = .ok result ([] ++ out ++ rest)
      ∧ ((∃ c ∈ codes, c ≠ 0) →
          result ≠ 0 ∧ rest = allDone ((List.range 2).map Call.DeInit)
            ∧ ∀ e ∈ out ++ rest, ∀ cam, e.call ≠ .BeginAcquisition cam)
      ∧ ((∀ c ∈ codes, c = 0) →
          result = 0 ∧ rest = allDone ((List.range 2).map Call.BeginAcquisition)
            ∧ cameraSteps (out ++ rest)
              = (List.range 2).map Call.Init
                ++ (List.range 2).map Call.BeginAcquisition) :=
  InitializeAndConfigure_without_exception quietEnv hardwareConfig 2 [] (fun _ _ => rfl)

/-! ## The file name determines the serial number and the sequence number -/

theorem digitChar_toNat (d : Nat) (h : d < 10) : (Nat.digitChar d).toNat - 48 = d := by
  interval_cases d <;> rfl

theorem digitChar_ne_dash (d : Nat) (h : d < 10) : Nat.digitChar d ≠ '-' := by
  interval_cases d <;> decide

theorem toDigitsCore_value (fuel : Nat) :
    ∀ (n : Nat) (ds : List Char), n < fuel →
      decimalValue (Nat.toDigitsCore 10 fuel n ds)
        = ds.foldl (fun acc c => acc * 10 + (c.toNat - 48)) n := by
  induction fuel with
  | zero => intro n ds h; omega
  | succ fuel ih =>
    intro n ds h
    unfold Nat.toDigitsCore
    by_cases h0 : n / 10 = 0
    · simp only [h0, if_true]
      have hn : n % 10 = n := by omega
      simp [decimalValue, hn, digitChar_toNat n (by omega)]
    · simp only [h0, if_false]
      rw [ih (n / 10) _ (by omega)]
      simp only [List.foldl_cons]
      rw [digitChar_toNat _ (Nat.mod_lt _ (by decide)), Nat.div_add_mod']

theorem toDigits_value (n : Nat) : decimalValue (Nat.toDigits 10 n) = n := by
  unfold Nat.toDigits
  rw [toDigitsCore_value (n + 1) n [] (by omega)]
  rfl

theorem toDigitsCore_no_dash (fuel : Nat) :
    ∀ (n : Nat) (ds : List Char), (∀ c ∈ ds, c ≠ '-') →
      ∀ c ∈ Nat.toDigitsCore 10 fuel n ds, c ≠ '-' := by
  induction fuel with
  | zero => intro n ds h; simpa [Nat.toDigitsCore] using h
  | succ fuel ih =>
    intro n ds h
    have hcons : ∀ c ∈ Nat.digitChar (n % 10) :: ds, c ≠ '-' := by
      intro c hc
      rcases List.mem_cons.mp hc with rfl | hc
      · exact digitChar_ne_dash _ (Nat.mod_lt _ (by decide))
      · exact h c hc
    unfold Nat.toDigitsCore
    by_cases h0 : n / 10 = 0
    · simpa only [h0, if_true] using hcons
    · simpa only [h0, if_false] using ih (n / 10) _ hcons

theorem toDigits_no_dash (n : Nat) : '-' ∉ Nat.toDigits 10 n := by
  intro h
  exact toDigitsCore_no_dash (n + 1) n [] (by simp) _ h rfl

theorem split_at_first {α : Type} (x : α) :
    ∀ (l1 l2 r1 r2 : List α), x ∉ l1 → x ∉ l2 → l1 ++ x :: r1 = l2 ++ x :: r2 →
      l1 = l2 ∧ r1 = r2 := by
  intro l1
  induction l1 with
  | nil =>
    intro l2 r1 r2 _ h2 h
    cases l2 with
    | nil => simpa using h
    | cons y l2 =>
      simp only [List.nil_append, List.cons_append, List.cons.injEq] at h
      exact (h2 (by simp [h.1])).elim
  | cons y l1 ih =>
    intro l2 r1 r2 h1 h2 h
    cases l2 with
    | nil =>
      simp only [List.nil_append, List.cons_append, List.cons.injEq] at h
      exact (h1 (by simp [h.1])).elim
    | cons z l2 =>
      simp only [List.cons_append, List.cons.injEq] at h
      obtain ⟨h3, h4⟩ := ih l2 r1 r2 (fun hm => h1 (List.mem_cons_of_mem _ hm))
        (fun hm => h2 (List.mem_cons_of_mem _ hm)) h.2
      exact ⟨by rw [h.1, h3], h4⟩

theorem split_at_last {α : Type} (x : α) (l1 l2 r1 r2 : List α) (h1 : x ∉ r1) (h2 : x ∉ r2)
    (h : l1 ++ x :: r1 = l2 ++ x :: r2) : l1 = l2 ∧ r1 = r2 := by
  have hrev := congrArg List.reverse h
  simp only [List.reverse_append, List.reverse_cons, List.append_assoc,
    List.singleton_append] at hrev
  obtain ⟨h3, h4⟩ := split_at_first x r1.reverse r2.reverse l1.reverse l2.reverse
    (by simpa using h1) (by simpa using h2) hrev
  exact ⟨List.reverse_injective h4, List.reverse_injective h3⟩

theorem imageFilename_data (s : String) (n : Nat) :
    (imageFilename s (n : Int)).data
      = "Trigger-".data ++ ((if s = "" then [] else s.data ++ ['-']) ++ Nat.toDigits 10 n)
        ++ ".jpg".data := by
  have h2 : toString (n : Int) = Nat.repr n := rfl
  unfold imageFilename
  rw [h2]
  have h3 : (Nat.toDigits 10 n).asString.data = Nat.toDigits 10 n := rfl
  by_cases hs : s = ""
  · simp [hs, Nat.repr, h3]
  · simp [hs, Nat.repr, h3]

theorem imageFilename_injective_nat (s1 s2 : String) (n1 n2 : Nat)
    (h : imageFilename s1 (n1 : Int) = imageFilename s2 (n2 : Int)) : s1 = s2 ∧ n1 = n2 := by
  have hd := congrArg String.data h
  rw [imageFilename_data, imageFilename_data] at hd
  have hd1 := List.append_cancel_left (List.append_cancel_right hd)
  have hnum : Nat.toDigits 10 n1 = Nat.toDigits 10 n2 → n1 = n2 := by
    intro hn
    rw [← toDigits_value n1, ← toDigits_value n2, hn]
  by_cases hs1 : s1 = "" <;> by_cases hs2 : s2 = ""
  · simp only [hs1, hs2, if_true, List.nil_append] at hd1
    exact ⟨by rw [hs1, hs2], hnum hd1⟩
  · simp only [hs1, hs2, if_true, if_false, List.nil_append, List.append_assoc,
      List.singleton_append] at hd1
    exact (toDigits_no_dash n1 (by rw [hd1]; simp)).elim
  · simp only [hs1, hs2, if_true, if_false, List.nil_append, List.append_assoc,
      List.singleton_append] at hd1
    exact (toDigits_no_dash n2 (by rw [← hd1]; simp)).elim
  · simp only [hs1, hs2, if_false, List.append_assoc, List.singleton_append] at hd1
    obtain ⟨h3, h4⟩ := split_at_last '-' _ _ _ _ (toDigits_no_dash n1) (toDigits_no_dash n2) hd1
    exact ⟨String.ext h3, hnum h4⟩

/-- C29.  The file name that `AcquireImages` builds determines the serial number and the
sequence number: for all serial strings, the empty one included, and all sequence numbers
that are at least 1, two equal file names come from the same serial string and the same
sequence number. -/
theorem imageFilename_injective (s1 s2 : String) (n1 n2 : Int) (h1 : 1 ≤ n1) (h2 : 1 ≤ n2)
    (h : imageFilename s1 n1 = imageFilename s2 n2) : s1 = s2 ∧ n1 = n2 := by
  obtain ⟨m1, rfl⟩ := Int.eq_ofNat_of_zero_le (by omega : 0 ≤ n1)
  obtain ⟨m2, rfl⟩ := Int.eq_ofNat_of_zero_le (by omega : 0 ≤ n2)
  obtain ⟨h3, h4⟩ := imageFilename_injective_nat s1 s2 m1 m2 h
  exact ⟨h3, by rw [h4]⟩

theorem imageFilename_injective_witness :
    imageFilename "21234567" 12 = "Trigger-21234567-12.jpg"
      ∧ ("21234567" = "21234567" ∧ (12 : Int) = 12) :=
  ⟨by decide, imageFilename_injective "21234567" "21234567" 12 12 (by decide) (by decide) rfl⟩

end acquireImages

namespace emulateTrigger

/-! ## The claim about the pulse emitter -/

theorem sendSignals_some (p : Nat) (n : Nat) (calls : List Call) :
    sendSignals (some p) n calls
      = .returned 0 (calls ++ (List.replicate n (sendSignal PIN (p % 4294967296))).flatten
          ++ [.gpioTerminate]) := by
  induction n generalizing calls with
  | zero => simp [sendSignals]
  | succ n ih =>
    rw [sendSignals, ih, List.replicate_succ, List.flatten_cons, List.append_assoc calls]

theorem sendSignals_returned (timing : Option Nat) (n : Nat) (calls out : List Call)
    (code : Int) (h : sendSignals timing n calls = .returned code out) (hn : 0 < n) :
    ∃ p, timing = some p := by
  cases timing with
  | some p => exact ⟨p, rfl⟩
  | none =>
    cases n with
    | zero => omega
    | succ n =>
      rw [sendSignals] at h
      cases h

/-- C16.  A run of the pulse emitter that returns 0 is a run in which the GPIO library
was initialised and the configuration holds a period.  For every period `p` (an
`unsigned int`) such a run makes, after `gpioInitialise` and `gpioSetMode`, exactly 10
cycles, each being: pin 18 high, a sleep of `p / 2` milliseconds, pin 18 low, a sleep of
`p / 2` milliseconds; then one `gpioTerminate`, the last call.  The levels written to the
pin are high, low, ten times over, the last one low. -/
theorem emitter_sends_ten_cycles (initialised : Int) (p : Nat) (hinit : 0 ≤ initialised)
    (hp : p < 4294967296) :
    main initialised (.object (some p))
        = .returned 0 ([.gpioInitialise, .gpioSetMode PIN]
            ++ (List.replicate 10 (cycle p)).flatten ++ [.gpioTerminate])
      ∧ pinWrites PIN ([.gpioInitialise, .gpioSetMode PIN]
            ++ (List.replicate 10 (cycle p)).flatten ++ [.gpioTerminate])
          = (List.replicate 10 [Level.high, Level.low]).flatten
      ∧ (pinWrites PIN ([.gpioInitialise, .gpioSetMode PIN]
            ++ (List.replicate 10 (cycle p)).flatten ++ [.gpioTerminate])).getLast?
          = some Level.low
      ∧ List.count Call.gpioTerminate ([.gpioInitialise, .gpioSetMode PIN]
            ++ (List.replicate 10 (cycle p)).flatten ++ [.gpioTerminate]) = 1
      ∧ ∀ init file calls, main init file = .returned 0 calls →
          0 ≤ init ∧ ∃ q, file = .object (some q)
            ∧ calls = [.gpioInitialise, .gpioSetMode PIN]
                ++ (List.replicate 10 (cycle (q % 4294967296))).flatten
                ++ [.gpioTerminate] := by
  refine ⟨?_, rfl, rfl, ?_, ?_⟩
  · unfold main
    rw [if_neg (by omega)]
    show sendSignals (some p) N_SIGNALS _ = _
    rw [sendSignals_some, Nat.mod_eq_of_lt hp]
    rfl
  · simp [cycle, List.replicate, List.count_cons]
  · intro init file calls h
    unfold main at h
    split_ifs at h with hneg
    · cases h
    · refine ⟨by omega, ?_⟩
      cases file with
      | unparsable => cases h
      | null => cases h
      | other => cases h
      | object timing =>
        obtain ⟨q, rfl⟩ := sendSignals_returned timing N_SIGNALS _ _ _ h (by decide)
        refine ⟨q, rfl, ?_⟩
        have h1 : sendSignals (some q) N_SIGNALS [.gpioInitialise, .gpioSetMode PIN]
            = .returned 0 calls := h
        rw [sendSignals_some] at h1
        injection h1 with _ h2
        rw [← h2]
        rfl

/-- C16 for the period 101: every hold lasts 50 milliseconds. -/
theorem emitter_sends_ten_cycles_witness :
    (0 : Int) ≤ 0 ∧ 101 < 4294967296
      ∧ main 0 (.object (some 101))
        = .returned 0 ([.gpioInitialise, .gpioSetMode PIN]
            ++ (List.replicate 10 [.gpioWrite 18 .high, .sleep_for 50, .gpioWrite 18 .low,
                .sleep_for 50]).flatten ++ [.gpioTerminate]) :=
  ⟨by decide, by decide,
    (emitter_sends_ten_cycles 0 101 (by decide) (by decide)).1⟩

end emulateTrigger

namespace prepareCamera

/-! ## The claims about `prepareCameras` -/

theorem foldl_no_match (s : String) (l : List (String × CameraEntry))
    (h : ∀ kv ∈ l, kv.2.DeviceID ≠ some s) (acc : Option CameraEntry) :
    l.foldl (fun currentCam it => if it.2.DeviceID = some s then some it.2 else currentCam)
      acc = acc := by
  induction l generalizing acc with
  | nil => rfl
  | cons kv l ih =>
    rw [List.foldl_cons, if_neg (h kv (List.mem_cons_self _ _))]
    exact ih (fun x hx => h x (List.mem_cons_of_mem _ hx)) acc

theorem selectCamera_none (s : String) (cameras : List (String × CameraEntry))
    (h : ∀ kv ∈ cameras, kv.2.DeviceID ≠ some s) : selectCamera cameras s = none :=
  foldl_no_match s cameras h none

theorem selectCamera_last (s : String) (pre post : List (String × CameraEntry))
    (key : String) (entry : CameraEntry) (he : entry.DeviceID = some s)
    (h : ∀ kv ∈ post, kv.2.DeviceID ≠ some s) :
    selectCamera (pre ++ (key, entry) :: post) s = some entry := by
  unfold selectCamera
  rw [List.foldl_append, List.foldl_cons, if_pos he]
  exact foldl_no_match s post h _

theorem selectCamera_keys (s : String) (cameras : List (String × CameraEntry))
    (f : String → String) :
    selectCamera (cameras.map fun kv => (f kv.1, kv.2)) s = selectCamera cameras s := by
  unfold selectCamera
  rw [List.foldl_map]

theorem cameraPass_eq (env : Env) (cameras : List (String × CameraEntry)) (i : Nat)
    (tr tr1 : Trace) (s : String) (h : readSerial env i tr = .ok (some s) tr1) :
    cameraPass env cameras i tr
      = match selectCamera cameras s with
        | none => .ok .next tr1
        | some currentCam => configureCamera env i currentCam tr1 := by
  show (readSerial env i tr).andThen _ = _
  rw [h]
  show (match selectCamera cameras s with
    | none => (pure Step.next : Prog Step)
    | some currentCam => configureCamera env i currentCam) tr1 = _
  cases selectCamera cameras s <;> rfl

/-- C19, as the code has it.  For a camera whose serial number was read as `s`: the
entry applied to it is the last entry of the mapping `Cameras` whose key `DeviceID`
holds `s`; when no entry holds `s` under `DeviceID`, the camera is left unconfigured and
the loop goes on to the next camera.  The keys of the mapping play no part: renaming them
changes nothing in the run. -/
theorem entry_is_selected_by_DeviceID (env : Env) (cameras : List (String × CameraEntry))
    (i : Nat) (tr tr1 : Trace) (s : String)
    (hserial : readSerial env i tr = .ok (some s) tr1) :
    ((∀ kv ∈ cameras, kv.2.DeviceID ≠ some s) →
        cameraPass env cameras i tr = .ok .next tr1)
      ∧ (∀ pre key entry post, cameras = pre ++ (key, entry) :: post →
          entry.DeviceID = some s → (∀ kv ∈ post, kv.2.DeviceID ≠ some s) →
          cameraPass env cameras i tr = configureCamera env i entry tr1)
      ∧ ∀ f : String → String,
          cameraPass env (cameras.map fun kv => (f kv.1, kv.2)) i tr
            = cameraPass env cameras i tr := by
  refine ⟨fun h => ?_, fun pre key entry post hc he h => ?_, fun f => ?_⟩
  · rw [cameraPass_eq env cameras i tr tr1 s hserial, selectCamera_none s cameras h]
  · rw [cameraPass_eq env cameras i tr tr1 s hserial, hc,
      selectCamera_last s pre post key entry he h]
  · rw [cameraPass_eq env cameras i tr tr1 s hserial,
      cameraPass_eq env _ i tr tr1 s hserial, selectCamera_keys]

/-- C19 for camera 0 with the serial number "21234567" and a mapping whose only entry
has the key "Camera1" and the `DeviceID` "21234567": the entry is applied. -/
theorem entry_is_selected_by_DeviceID_witness :
    readSerial quietEnv 0 [] = .ok (some "21234567") serialRead
      ∧ cameraPass quietEnv [("Camera1", sampleEntry)] 0 []
          = configureCamera quietEnv 0 sampleEntry serialRead
      ∧ configureCamera quietEnv 0 sampleEntry serialRead
          = .ok .next (serialRead ++ sampleSettings) :=
  ⟨by decide,
    (entry_is_selected_by_DeviceID quietEnv [("Camera1", sampleEntry)] 0 [] serialRead
      "21234567" (by decide)).2.1 [] "Camera1" sampleEntry [] rfl rfl
      (fun _ h => absurd h (List.not_mem_nil _)),
    by decide⟩

/-- C19 fails on the code.  The camera with the serial number "21234567" is configured
from an entry whose key in the mapping is "Camera1" and whose `DeviceID` is "21234567";
and it is left unconfigured when the mapping has the key "21234567" for an entry whose
`DeviceID` is "19000000". -/
theorem entry_is_not_selected_by_key :
    prepareCameras quietEnv 1 (.object [("Camera1", sampleEntry)]) []
        = .ok 0 (serialRead ++ sampleSettings)
      ∧ prepareCameras quietEnv 1
          (.object [("21234567", { sampleEntry with DeviceID := some "19000000" })]) []
        = .ok 0 serialRead := by
  decide

theorem trace_bind {α β : Type} (m : Prog α) (f : α → Prog β) (tr : Trace)
    (hf : ∀ a tr1, ∃ ext, (f a tr1).trace = tr1 ++ ext) (e : Event)
    (he : e ∈ (m tr).trace) : e ∈ ((m >>= f) tr).trace := by
  show e ∈ ((m tr).andThen f).trace
  cases hm : m tr with
  | raise x tr1 =>
    rw [hm] at he
    exact he
  | ok a tr1 =>
    rw [hm] at he
    obtain ⟨ext, h⟩ := hf a tr1
    show e ∈ (f a tr1).trace
    rw [h]
    exact List.mem_append_left _ he

theorem trace_extends_bind {α β : Type} (m : Prog α) (f : α → Prog β)
    (hm : ∀ tr, ∃ ext, (m tr).trace = tr ++ ext)
    (hf : ∀ a tr1, ∃ ext, (f a tr1).trace = tr1 ++ ext) (tr : Trace) :
    ∃ ext, ((m >>= f) tr).trace = tr ++ ext := by
  show ∃ ext, ((m tr).andThen f).trace = tr ++ ext
  obtain ⟨ext, h⟩ := hm tr
  cases hmt : m tr with
  | raise x tr1 =>
    rw [hmt] at h
    exact ⟨ext, h⟩
  | ok a tr1 =>
    rw [hmt] at h
    have h1 : tr1 = tr ++ ext := h
    obtain ⟨ext2, h2⟩ := hf a tr1
    exact ⟨ext ++ ext2, by
      show (f a tr1).trace = _
      rw [h2, h1, List.append_assoc]⟩

theorem trace_extends_sdk (env : Env) (c : Call) (tr : Trace) :
    ∃ ext, (sdk env c tr).trace = tr ++ ext := by
  unfold sdk
  split_ifs
  · exact ⟨_, rfl⟩
  · exact ⟨_, rfl⟩

theorem trace_extends_sdkInt (env : Env) (c : Call) (tr : Trace) :
    ∃ ext, (sdkInt env c tr).trace = tr ++ ext := by
  unfold sdkInt
  split_ifs
  · exact ⟨_, rfl⟩
  · exact ⟨_, rfl⟩

theorem trace_extends_setter (env : Env) (c : Call) (tr : Trace) :
    ∃ ext, (setter env c tr).trace = tr ++ ext :=
  ⟨_, rfl⟩

theorem trace_extends_pure {α : Type} (a : α) (tr : Trace) :
    ∃ ext, ((pure a : Prog α) tr).trace = tr ++ ext :=
  ⟨[], (List.append_nil tr).symm⟩

theorem trace_extends_setOrReset (env : Env) (field : NumberField) (set : Double → Call)
    (reset : Call) (tr : Trace) :
    ∃ ext, (setOrReset env field set reset tr).trace = tr ++ ext := by
  cases field
  · exact trace_extends_pure _ tr
  · exact ⟨_, rfl⟩
  · exact ⟨_, rfl⟩

theorem trace_extends_setIfPresent {α : Type} (env : Env) (field : Option α)
    (set : α → Call) (tr : Trace) :
    ∃ ext, (setIfPresent env field set tr).trace = tr ++ ext := by
  cases field
  · exact trace_extends_pure _ tr
  · exact ⟨_, rfl⟩

theorem trace_extends_callIfPresent {α : Type} (env : Env) (field : Option α)
    (set : α → Call) (tr : Trace) :
    ∃ ext, (callIfPresent env field set tr).trace = tr ++ ext := by
  cases field
  · exact trace_extends_pure _ tr
  · exact trace_extends_bind _ _ (trace_extends_sdkInt env _)
      (fun _ tr1 => trace_extends_pure _ tr1) tr

/-- Every run of `applySettings` starts with the call of `configureAcquisition`. -/
theorem applySettings_first (env : Env) (i : Nat) (currentCam : CameraEntry) (tr : Trace) :
    ∃ a, (⟨.configureAcquisition i (currentCam.AcquisitionMode.getD "Continuous"), a⟩ :
      Event) ∈ (applySettings env i currentCam tr).trace := by
  have hfirst : ∃ a, (⟨.configureAcquisition i
      (currentCam.AcquisitionMode.getD "Continuous"), a⟩ : Event)
        ∈ (sdkInt env
            (.configureAcquisition i (currentCam.AcquisitionMode.getD "Continuous"))
            tr).trace := by
    unfold sdkInt
    split_ifs
    · exact ⟨.raised, List.mem_append_right _ (List.mem_singleton.mpr rfl)⟩
    · exact ⟨.int _, List.mem_append_right _ (List.mem_singleton.mpr rfl)⟩
  obtain ⟨a, ha⟩ := hfirst
  refine ⟨a, ?_⟩
  unfold applySettings
  refine trace_bind _ _ tr (fun _ tr1 => ?_) _ ha
  repeat' (first
    | exact trace_extends_pure _ _
    | (refine trace_extends_bind _ _ ?_ ?_ _ <;> intros)
    | exact trace_extends_sdk _ _ _
    | exact trace_extends_setter _ _ _
    | exact trace_extends_setOrReset _ _ _ _ _
    | exact trace_extends_setIfPresent _ _ _ _
    | exact trace_extends_callIfPresent _ _ _ _)

/-- C20.  What the code does with `InUse`: for an entry whose `InUse` is the boolean
`false`, the run for the camera is the same as for the entry with `InUse` set to `true`.
The settings are applied and saved; only a value that is not a boolean skips the
camera. -/
theorem unused_camera_is_configured (env : Env) (i : Nat) (currentCam : CameraEntry)
    (hunused : currentCam.InUse = some false) :
    configureCamera env i currentCam = applySettings env i currentCam
      ∧ configureCamera env i currentCam
          = configureCamera env i { currentCam with InUse := some true }
      ∧ ∀ tr, ∃ a, (⟨.configureAcquisition i (currentCam.AcquisitionMode.getD "Continuous"),
          a⟩ : Event) ∈ (configureCamera env i currentCam tr).trace := by
  have h1 : configureCamera env i currentCam = applySettings env i currentCam := by
    unfold configureCamera
    rw [hunused]
  refine ⟨h1, ?_, fun tr => ?_⟩
  · rw [h1]
    rfl
  · rw [h1]
    exact applySettings_first env i currentCam tr

/-- C20 for camera 0 in `quietEnv` and the entry `sampleEntry` with `InUse` set to
`false`: `prepareCameras` applies the settings of the entry, saves them to "UserSet0"
and returns 0, with the same calls as for `InUse` set to `true`. -/
theorem unused_camera_is_configured_witness :
    ({ sampleEntry with InUse := some false } : CameraEntry).InUse = some false
      ∧ prepareCameras quietEnv 1
          (.object [("Camera1", { sampleEntry with InUse := some false })]) []
        = .ok 0 (serialRead ++ sampleSettings)
      ∧ configureCamera quietEnv 0 { sampleEntry with InUse := some false }
          = applySettings quietEnv 0 { sampleEntry with InUse := some false } :=
  ⟨rfl, by decide,
    (unused_camera_is_configured quietEnv 0 { sampleEntry with InUse := some false }
      rfl).1⟩

/-! ## Setter functions that fail -/

theorem codedRun_calls (env : Env) (calls : List Call) :
    ∀ tr, (codedRun env tr calls).map (fun e => e.call) = calls := by
  induction calls with
  | nil => intro tr; rfl
  | cons c rest ih => intro tr; simp [codedRun, ih]

theorem codedRun_append (env : Env) (l1 l2 : List Call) :
    ∀ tr, codedRun env tr (l1 ++ l2)
      = codedRun env tr l1 ++ codedRun env (tr ++ codedRun env tr l1) l2 := by
  induction l1 with
  | nil => intro tr; simp [codedRun]
  | cons c rest ih => intro tr; simp [codedRun, ih]

theorem bind_run {α β : Type} (m : Prog α) (f : α → Prog β) (tr : Trace) :
    (m >>= f) tr = (m tr).andThen f := rfl

theorem andThen_run {α β : Type} (a : α) (tr : Trace) (f : α → Prog β) :
    (Res.ok a tr).andThen f = f a tr := rfl

theorem pure_run {α : Type} (a : α) (tr : Trace) : (pure a : Prog α) tr = .ok a tr := rfl

theorem sdk_quiet (env : Env) (hquiet : ∀ hist c, env.throws hist c = false) (c : Call)
    (tr : Trace) : sdk env c tr = .ok () (tr ++ [⟨c, .done⟩]) := by
  simp [sdk, hquiet]

theorem sdkInt_quiet (env : Env) (hquiet : ∀ hist c, env.throws hist c = false) (c : Call)
    (tr : Trace) :
    sdkInt env c tr = .ok (env.answerInt tr c) (tr ++ codedRun env tr [c]) := by
  simp [sdkInt, hquiet, codedRun]

theorem setter_run (env : Env) (c : Call) (tr : Trace) :
    setter env c tr = .ok (env.answerInt tr c) (tr ++ codedRun env tr [c]) := rfl

theorem setOrReset_run (env : Env) (field : NumberField) (set : Double → Call)
    (reset : Call) (tr : Trace) :
    setOrReset env field set reset tr
      = .ok () (tr ++ codedRun env tr
          (match field with
            | .absent => []
            | .number x => [set x]
            | .other => [reset])) := by
  cases field
  · simp [setOrReset, pure_run, codedRun]
  · rfl
  · rfl

theorem setIfPresent_run {α : Type} (env : Env) (field : Option α) (set : α → Call)
    (tr : Trace) :
    setIfPresent env field set tr
      = .ok () (tr ++ codedRun env tr (field.map set).toList) := by
  cases field
  · simp [setIfPresent, pure_run, codedRun]
  · rfl

theorem callIfPresent_quiet {α : Type} (env : Env)
    (hquiet : ∀ hist c, env.throws hist c = false) (field : Option α) (set : α → Call)
    (tr : Trace) :
    callIfPresent env field set tr
      = .ok () (tr ++ codedRun env tr (field.map set).toList) := by
  cases field
  · simp [callIfPresent, pure_run, codedRun]
  · simp [callIfPresent, bind_run, sdkInt_quiet env hquiet, andThen_run, pure_run, codedRun]

theorem shape_bind {α β : Type} (env : Env) (m : Prog α) (f : α → Prog β)
    (l1 l2 : List Call) (suffix : Trace) (a : β)
    (hm : ∀ tr, ∃ b, m tr = .ok b (tr ++ codedRun env tr l1))
    (hf : ∀ b, Shape env (f b) l2 suffix a) :
    Shape env (m >>= f) (l1 ++ l2) suffix a := by
  intro tr
  obtain ⟨b, hb⟩ := hm tr
  rw [bind_run, hb, andThen_run, hf b, codedRun_append]
  simp only [List.append_assoc]

theorem shape_sdk {β : Type} (env : Env) (hquiet : ∀ hist c, env.throws hist c = false)
    (c : Call) (f : Unit → Prog β) (suffix : Trace) (a : β)
    (hf : Shape env (f ()) [] suffix a) :
    Shape env (sdk env c >>= f) [] (⟨c, .done⟩ :: suffix) a := by
  intro tr
  rw [bind_run, sdk_quiet env hquiet, andThen_run, hf]
  simp [codedRun]

theorem shape_pure {α : Type} (env : Env) (a : α) : Shape env (pure a : Prog α) [] [] a := by
  intro tr
  simp [codedRun, pure_run]

theorem applySettings_quiet (env : Env) (hquiet : ∀ hist c, env.throws hist c = false)
    (i : Nat) (currentCam : CameraEntry) :
    Shape env (applySettings env i currentCam) (stepCalls i currentCam) (savedAndClosed i)
      .next := by
  have hcalls : stepCalls i currentCam
      = [.configureAcquisition i (currentCam.AcquisitionMode.getD "Continuous")]
        ++ ((match currentCam.Exposure with
              | .absent => []
              | .number x => [.setExposure i x]
              | .other => [.ResetExposure i])
        ++ ((match currentCam.Gain with
              | .absent => []
              | .number x => [.setGain i x]
              | .other => [.ResetGain i])
        ++ ((currentCam.PixelFormat.map (Call.setPixelFormat i)).toList
        ++ ((currentCam.OffsetX.map (Call.setOffsetX i)).toList
        ++ ((currentCam.OffsetY.map (Call.setOffsetY i)).toList
        ++ ((currentCam.Width.map (Call.setWidth i)).toList
        ++ ((currentCam.Height.map (Call.setHeight i)).toList
        ++ ((currentCam.AdcBitDepth.map (Call.setADCBitDepth i)).toList
        ++ ((currentCam.SensorShutterMode.map (Call.setShutterMode i)).toList
        ++ ([.setTrigger i (currentCam.TriggerSource.getD "")
              (currentCam.TriggerSelector.getD "") (currentCam.TriggerActivation.getD "")
              (currentCam.TriggerOverlap.getD "")
              (currentCam.TriggerDelay.getD Double.minusOne)]
        ++ ([.enableChunkData i]
        ++ ((currentCam.StreamBufferHandlingMode.map (Call.setBufferHandlingMode i)).toList
        ++ [])))))))))))) := by
    simp only [stepCalls, List.append_assoc, List.append_nil, List.cons_append,
      List.nil_append]
  rw [hcalls]
  unfold applySettings savedAndClosed
  refine shape_bind env _ _ _ _ _ _ (fun tr => ⟨_, sdkInt_quiet env hquiet _ tr⟩) (fun _ => ?_)
  refine shape_bind env _ _ _ _ _ _ (fun tr => ⟨_, setOrReset_run env _ _ _ tr⟩) (fun _ => ?_)
  refine shape_bind env _ _ _ _ _ _ (fun tr => ⟨_, setOrReset_run env _ _ _ tr⟩) (fun _ => ?_)
  refine shape_bind env _ _ _ _ _ _ (fun tr => ⟨_, setIfPresent_run env _ _ tr⟩) (fun _ => ?_)
  refine shape_bind env _ _ _ _ _ _ (fun tr => ⟨_, setIfPresent_run env _ _ tr⟩) (fun _ => ?_)
  refine shape_bind env _ _ _ _ _ _ (fun tr => ⟨_, setIfPresent_run env _ _ tr⟩) (fun _ => ?_)
  refine shape_bind env _ _ _ _ _ _ (fun tr => ⟨_, setIfPresent_run env _ _ tr⟩) (fun _ => ?_)
  refine shape_bind env _ _ _ _ _ _ (fun tr => ⟨_, setIfPresent_run env _ _ tr⟩) (fun _ => ?_)
  refine shape_bind env _ _ _ _ _ _ (fun tr => ⟨_, setIfPresent_run env _ _ tr⟩) (fun _ => ?_)
  refine shape_bind env _ _ _ _ _ _
    (fun tr => ⟨_, callIfPresent_quiet env hquiet _ _ tr⟩) (fun _ => ?_)
  refine shape_bind env _ _ _ _ _ _ (fun tr => ⟨_, setter_run env _ tr⟩) (fun _ => ?_)
  refine shape_bind env _ _ _ _ _ _ (fun tr => ⟨_, setter_run env _ tr⟩) (fun _ => ?_)
  refine shape_bind env _ _ _ _ _ _
    (fun tr => ⟨_, callIfPresent_quiet env hquiet _ _ tr⟩) (fun _ => ?_)
  repeat' (with_reducible first
    | apply shape_sdk env hquiet
    | apply shape_pure)

theorem readSerial_quiet (env : Env) (hquiet : ∀ hist c, env.throws hist c = false)
    (hread : ∀ hist c, env.answerBool hist c = true) (i : Nat) (tr : Trace) :
    ∃ s ext, readSerial env i tr = .ok (some s) (tr ++ ext) := by
  have h : readSerial env i tr
      = .ok (some (env.answerString
            (tr ++ [⟨.Init i, .done⟩, ⟨.GetNode i "DeviceSerialNumber", .done⟩,
              ⟨.IsReadable i "DeviceSerialNumber", .bool true⟩])
            (.GetValue i "DeviceSerialNumber")))
          (tr ++ [⟨.Init i, .done⟩, ⟨.GetNode i "DeviceSerialNumber", .done⟩,
            ⟨.IsReadable i "DeviceSerialNumber", .bool true⟩,
            ⟨.GetValue i "DeviceSerialNumber", .string (env.answerString
              (tr ++ [⟨.Init i, .done⟩, ⟨.GetNode i "DeviceSerialNumber", .done⟩,
                ⟨.IsReadable i "DeviceSerialNumber", .bool true⟩])
              (.GetValue i "DeviceSerialNumber"))⟩]) := by
    unfold readSerial
    rw [bind_run, sdk_quiet env hquiet, andThen_run, bind_run, sdk_quiet env hquiet,
      andThen_run, bind_run]
    unfold ask
    rw [andThen_run, hread]
    simp [bind_run, sdkString, hquiet, andThen_run, pure_run, Res.andThen]
  exact ⟨_, _, h⟩

theorem cameraPass_quiet (env : Env) (hquiet : ∀ hist c, env.throws hist c = false)
    (hread : ∀ hist c, env.answerBool hist c = true)
    (cameras : List (String × CameraEntry)) (i : Nat) (tr : Trace) :
    ∃ ext, cameraPass env cameras i tr = .ok .next (tr ++ ext) := by
  obtain ⟨s, ext, hs⟩ := readSerial_quiet env hquiet hread i tr
  rw [cameraPass_eq env cameras i tr _ s hs]
  cases selectCamera cameras s with
  | none => exact ⟨ext, rfl⟩
  | some currentCam =>
    show ∃ ext1, configureCamera env i currentCam (tr ++ ext) = .ok .next (tr ++ ext1)
    unfold configureCamera
    cases currentCam.InUse with
    | none => exact ⟨ext, rfl⟩
    | some b =>
      show ∃ ext1, applySettings env i currentCam (tr ++ ext) = .ok .next (tr ++ ext1)
      rw [applySettings_quiet env hquiet i currentCam (tr ++ ext)]
      exact ⟨_, by rw [List.append_assoc, List.append_assoc]⟩

theorem prepareEach_quiet (env : Env) (hquiet : ∀ hist c, env.throws hist c = false)
    (hread : ∀ hist c, env.answerBool hist c = true)
    (cameras : List (String × CameraEntry)) (n : Nat) (tr : Trace) :
    ∃ ext, prepareEach env cameras n tr = .ok .next (tr ++ ext) := by
  induction n with
  | zero => exact ⟨[], by simp [prepareEach, pure_run]⟩
  | succ n ih =>
    obtain ⟨ext, h⟩ := ih
    obtain ⟨ext1, h1⟩ := cameraPass_quiet env hquiet hread cameras n (tr ++ ext)
    refine ⟨ext ++ ext1, ?_⟩
    unfold prepareEach
    rw [bind_run, h, andThen_run]
    show cameraPass env cameras n (tr ++ ext) = _
    rw [h1, List.append_assoc]

/-- C22.  A run of `prepareCameras` in which no call raises an exception, whatever codes
the setter functions return, -1 included.  For every camera entry, `applySettings` makes
the calls of all the configuration steps that the entry asks for, in order, each step
whatever the earlier ones returned; then the settings are saved to "UserSet0", "UserSet0"
is made the default and the camera is deinitialised.  When moreover every node is
readable, `prepareCameras` returns 0 for any number of cameras. -/
theorem setter_failure_is_confined (env : Env) (i : Nat) (currentCam : CameraEntry)
    (numCameras : Nat) (cameras : List (String × CameraEntry)) (tr : Trace)
    (hquiet : ∀ hist c, env.throws hist c = false) :
    applySettings env i currentCam tr
        = .ok .next (tr ++ codedRun env tr (stepCalls i currentCam) ++ savedAndClosed i)
      ∧ (codedRun env tr (stepCalls i currentCam)).map (fun e => e.call)
          = stepCalls i currentCam
      ∧ ((∀ hist c, env.answerBool hist c = true) →
          ∃ ext, prepareCameras env numCameras (.object cameras) tr = .ok 0 (tr ++ ext)) := by
  refine ⟨applySettings_quiet env hquiet i currentCam tr, codedRun_calls env _ tr, ?_⟩
  intro hread
  obtain ⟨ext, h⟩ := prepareEach_quiet env hquiet hread cameras numCameras tr
  refine ⟨ext, ?_⟩
  unfold prepareCameras tryCatchSpinnaker
  simp only [bind_run, h, andThen_run, pure_run]

/-- C22 for one camera whose entry asks for the pixel format "Mono8", when
`setPixelFormat` returns -1: the later steps run, the settings are saved and
`prepareCameras` returns 0. -/
theorem setter_failure_is_confined_witness :
    pixelFormatFailsEnv.answerInt [] (.setPixelFormat 0 "Mono8") = -1
      ∧ prepareCameras pixelFormatFailsEnv 1 (.object [("Camera1", sampleEntry)]) []
          = .ok 0 (serialRead ++ failedSettings)
      ∧ applySettings pixelFormatFailsEnv 0 sampleEntry serialRead
          = .ok .next (serialRead
              ++ codedRun pixelFormatFailsEnv serialRead (stepCalls 0 sampleEntry)
              ++ savedAndClosed 0) :=
  ⟨rfl, by decide,
    (setter_failure_is_confined pixelFormatFailsEnv 0 sampleEntry 1
      [("Camera1", sampleEntry)] serialRead (fun _ _ => rfl)).1⟩

/-! ## `setTrigger` without trigger parameters -/

theorem ask_run (env : Env) (c : Call) (tr : Trace) :
    ask env c tr = .ok (env.answerBool tr c) (tr ++ [⟨c, .bool (env.answerBool tr c)⟩]) :=
  rfl

theorem writeEntry_usable (env : Env) (hquiet : ∀ hist c, env.throws hist c = false)
    (hyes : ∀ hist c, env.answerBool hist c = true) (i : Nat) (node entry : String)
    (tr : Trace) :
    writeEntry env i node entry tr
      = .ok true (tr ++ [⟨.GetEntryByName i node entry, .done⟩,
          ⟨.EntryIsReadable i node entry, .bool true⟩,
          ⟨.EntryGetValue i node entry, .done⟩, ⟨.SetIntValue i node entry, .done⟩]) := by
  unfold writeEntry
  simp [bind_run, sdk_quiet env hquiet, ask_run, hyes, andThen_run, pure_run]

theorem notAccessible_usable (env : Env) (hyes : ∀ hist c, env.answerBool hist c = true)
    (i : Nat) (name : String) (tr : Trace) :
    notAccessible env i name tr
      = .ok false (tr ++ [⟨.IsReadable i name, .bool true⟩,
          ⟨.IsWritable i name, .bool true⟩]) := by
  unfold notAccessible
  simp [bind_run, ask_run, hyes, andThen_run, pure_run]

theorem minusOne_not_ge_zero : Double.minusOne.ge Double.zero = false := by decide

/-- C21.  What the code does when `setTrigger` is called without any trigger parameter
(empty strings and the delay -1).  On a camera on which no call raises and every check
succeeds, the function returns 0 after writing "Off" and then "On" to "TriggerMode": a
camera whose trigger mode was "Off" before the call has the trigger mode "On" after it,
and so has every camera, whatever its nodes held before.  On a camera whose node
"TriggerSource" is not writable the function returns -1 and leaves the trigger mode
"Off", also when it was "On" before. -/
theorem setTrigger_without_parameters_writes_TriggerMode (env : Env) (i : Nat) (tr : Trace)
    (hquiet : ∀ hist c, env.throws hist c = false)
    (hyes : ∀ hist c, env.answerBool hist c = true) :
    setTrigger env i "" "" "" "" Double.minusOne tr = .ok 0 (tr ++ emptyTriggerRun i)
      ∧ (∀ before, enumAfter i before (emptyTriggerRun i) "TriggerMode" = "On")
      ∧ enumAfter i (fun _ => "Off") (emptyTriggerRun i) "TriggerMode" ≠ "Off"
      ∧ setTrigger noTriggerSourceEnv 0 "" "" "" "" Double.minusOne []
          = .ok (-1) noTriggerSourceRun
      ∧ enumAfter 0 (fun _ => "On") noTriggerSourceRun "TriggerMode" = "Off" := by
  refine ⟨?_, ?_, ?_, by decide, by decide⟩
  · unfold setTrigger tryCatchSpinnaker
    simp [bind_run, sdk_quiet env hquiet, ask_run, hyes, andThen_run, pure_run,
      writeEntry_usable env hquiet hyes, notAccessible_usable env hyes,
      minusOne_not_ge_zero, emptyTriggerRun]
  · intro before
    simp [enumAfter, emptyTriggerRun]
  · simp [enumAfter, emptyTriggerRun]

theorem setTrigger_without_parameters_writes_TriggerMode_witness :
    setTrigger quietEnv 0 "" "" "" "" Double.minusOne [] = .ok 0 ([] ++ emptyTriggerRun 0)
      ∧ enumAfter 0 (fun _ => "Off") (emptyTriggerRun 0) "TriggerMode" = "On" :=
  ⟨(setTrigger_without_parameters_writes_TriggerMode quietEnv 0 [] (fun _ _ => rfl)
      (fun _ _ => rfl)).1,
    (setTrigger_without_parameters_writes_TriggerMode quietEnv 0 [] (fun _ _ => rfl)
      (fun _ _ => rfl)).2.1 _⟩

/-! ## The values that `setOffsetX`, `setOffsetY`, `setWidth` and `setHeight` write -/

theorem sdkInt_run (env : Env) (hquiet : ∀ hist c, env.throws hist c = false) (c : Call)
    (tr : Trace) :
    sdkInt env c tr = .ok (env.answerInt tr c) (tr ++ [⟨c, .int (env.answerInt tr c)⟩]) := by
  simp [sdkInt, hquiet]

theorem toInt64_of_range (x : Int) (h1 : -9223372036854775808 ≤ x)
    (h2 : x < 9223372036854775808) : toInt64 x = x := by
  unfold toInt64
  omega

theorem toInt32_of_range (x : Int) (h1 : -2147483648 ≤ x) (h2 : x < 2147483648) :
    toInt32 x = x := by
  unfold toInt32
  omega

theorem incrementRemainder_run (env : Env) (hquiet : ∀ hist c, env.throws hist c = false)
    (i : Nat) (name : String) (min inc v : Int)
    (hmin : ∀ hist, env.answerInt hist (.GetMin i name) = min)
    (hinc : ∀ hist, env.answerInt hist (.GetInc i name) = inc) (hpos : 0 < inc)
    (tr : Trace) :
    incrementRemainder env i name v tr
      = .ok (toInt32 (Int.tmod (toInt64 (v - min)) inc))
          (tr ++ [⟨.GetMin i name, .int min⟩, ⟨.GetInc i name, .int inc⟩]) := by
  have h0 : ¬ (inc = 0 ∨ (inc = -1 ∧ toInt64 (v - min) = -9223372036854775808)) := by
    omega
  unfold incrementRemainder
  simp only [bind_run, sdkInt_run env hquiet, hmin, hinc, andThen_run, if_neg h0, pure_run,
    List.append_assoc, List.cons_append, List.nil_append]

theorem setOffset_in_range (env : Env) (i : Nat) (name : String) (min max inc v : Int)
    (tr : Trace) (hquiet : ∀ hist c, env.throws hist c = false)
    (hyes : ∀ hist c, env.answerBool hist c = true)
    (hmin : ∀ hist, env.answerInt hist (.GetMin i name) = min)
    (hmax : ∀ hist, env.answerInt hist (.GetMax i name) = max)
    (hinc : ∀ hist, env.answerInt hist (.GetInc i name) = inc)
    (hpos : 0 < inc) (h1 : min ≤ v) (h2 : v ≤ max) :
    ∃ ext, setOffset env i name v tr = .ok 0 (tr ++ ext) ∧ intWrites ext = [(name, v)] := by
  have h3 : ¬ v < min := by omega
  have h4 : ¬ v > max := by omega
  unfold setOffset tryCatchSpinnaker
  simp only [bind_run, sdk_quiet env hquiet, notAccessible_usable env hyes, andThen_run,
    incrementRemainder_run env hquiet i name min inc v hmin hinc hpos,
    sdkInt_run env hquiet, hmin, hmax, hinc, if_neg h3, if_neg h4, pure_run,
    Bool.false_eq_true, if_false]
  by_cases h5 : toInt32 (Int.tmod (toInt64 (v - min)) inc) ≠ 0
  · simp [h5, bind_run, sdk_quiet env hquiet, sdkInt_run env hquiet, andThen_run, pure_run,
      hinc, intWrites]
  · simp [h5, bind_run, sdk_quiet env hquiet, sdkInt_run env hquiet, andThen_run, pure_run,
      hinc, intWrites]

/-- C26.  What `setOffsetX` and `setOffsetY` write for an offset inside the bounds of
the node.  On a camera on which no call raises, whose node is readable and writable and
answers with the minimum `min`, the maximum `max` and the increment `inc > 0`, both
functions return 0 after writing the requested offset `v` itself, whether or not `v - min`
is a multiple of `inc`.  With minimum 8, maximum 100, increment 4 and the request 30 the
value written is 30, not the aligned value 28 that the message names. -/
theorem offset_is_written_unaligned (env : Env) (i : Nat) (min max inc v : Int) (tr : Trace)
    (hquiet : ∀ hist c, env.throws hist c = false)
    (hyes : ∀ hist c, env.answerBool hist c = true)
    (hmin : ∀ hist name, env.answerInt hist (.GetMin i name) = min)
    (hmax : ∀ hist name, env.answerInt hist (.GetMax i name) = max)
    (hinc : ∀ hist name, env.answerInt hist (.GetInc i name) = inc)
    (hpos : 0 < inc) (h1 : min ≤ v) (h2 : v ≤ max) :
    (∃ ext, setOffsetX env i v tr = .ok 0 (tr ++ ext) ∧ intWrites ext = [("OffsetX", v)])
      ∧ (∃ ext, setOffsetY env i v tr = .ok 0 (tr ++ ext)
          ∧ intWrites ext = [("OffsetY", v)])
      ∧ (∃ ext, setOffsetX boundedEnv 0 30 [] = .ok 0 ext
          ∧ intWrites ext = [("OffsetX", 30)])
      ∧ (30 : Int) - (30 - 8) % 4 = 28 :=
  ⟨setOffset_in_range env i "OffsetX" min max inc v tr hquiet hyes (fun h => hmin h _)
      (fun h => hmax h _) (fun h => hinc h _) hpos h1 h2,
    setOffset_in_range env i "OffsetY" min max inc v tr hquiet hyes (fun h => hmin h _)
      (fun h => hmax h _) (fun h => hinc h _) hpos h1 h2,
    ⟨_, rfl, by decide⟩, by decide⟩

theorem offset_is_written_unaligned_witness :
    ∃ ext, setOffsetY boundedEnv 0 30 [] = .ok 0 ([] ++ ext)
      ∧ intWrites ext = [("OffsetY", 30)] :=
  (offset_is_written_unaligned boundedEnv 0 8 100 4 30 [] (fun _ _ => rfl) (fun _ _ => rfl)
    (fun _ _ => rfl) (fun _ _ => rfl) (fun _ _ => rfl) (by decide) (by decide)
    (by decide)).2.1

/-- The value that the specification gives for a request `v` on a node with the bounds
`min`, `max` and the increment `inc`: the maximum above the bounds, the minimum below
them, and else the request lowered by the remainder of its distance from the minimum. -/
theorem alignedValue_spec (min max inc v : Int) (hle : min ≤ max) (hpos : 0 < inc) :
    (min ≤ (if v > max then max else if v < min then min else v - (v - min) % inc)
      ∧ (if v > max then max else if v < min then min else v - (v - min) % inc) ≤ max)
      ∧ (min ≤ v → v ≤ max →
          v - (v - min) % inc ≤ v ∧ inc ∣ (v - (v - min) % inc) - min
            ∧ ∀ u, u ≤ v → inc ∣ u - min → u ≤ v - (v - min) % inc) := by
  have hr0 : 0 ≤ (v - min) % inc := Int.emod_nonneg _ (by omega)
  have hr1 : (v - min) % inc < inc := Int.emod_lt_of_pos _ hpos
  refine ⟨?_, ?_⟩
  · split_ifs with h1 h2
    · omega
    · omega
    · have hq : 0 ≤ inc * ((v - min) / inc) :=
        Int.mul_nonneg (by omega) (Int.ediv_nonneg (by omega) (by omega))
      have hdiv := Int.ediv_add_emod (v - min) inc
      omega
  · intro h1 h2
    refine ⟨by omega, ?_, ?_⟩
    · have : v - (v - min) % inc - min = (v - min) - (v - min) % inc := by ring
      rw [this]
      exact Int.dvd_sub_of_emod_eq rfl
    · intro u hu hdvd
      obtain ⟨k, hk⟩ := hdvd
      have hdiv : (v - min) = inc * ((v - min) / inc) + (v - min) % inc :=
        (Int.ediv_add_emod (v - min) inc).symm
      by_contra hcon
      have h5 : inc * ((v - min) / inc) < inc * k := by omega
      have h6 : (v - min) / inc < k := lt_of_mul_lt_mul_left h5 (by omega)
      have h7 : inc * ((v - min) / inc + 1) ≤ inc * k :=
        Int.mul_le_mul_of_nonneg_left (by omega) (by omega)
      have h8 : inc * ((v - min) / inc + 1) = inc * ((v - min) / inc) + inc := by ring
      omega

theorem remainder_in_range (min max inc v : Int) (hpos : 0 < inc)
    (hinc : inc ≤ 2147483648) (hspan : max - min < 9223372036854775808)
    (h1 : min ≤ v) (h2 : v ≤ max) :
    toInt32 (Int.tmod (toInt64 (v - min)) inc) = (v - min) % inc := by
  have hr0 : 0 ≤ (v - min) % inc := Int.emod_nonneg _ (by omega)
  have hr1 : (v - min) % inc < inc := Int.emod_lt_of_pos _ hpos
  rw [toInt64_of_range _ (by omega) (by omega),
    Int.tmod_eq_emod (by omega) (by omega), toInt32_of_range _ (by omega) (by omega)]

theorem setExtent_written (env : Env) (i : Nat) (name : String) (min max inc v : Int)
    (tr : Trace) (hquiet : ∀ hist c, env.throws hist c = false)
    (hyes : ∀ hist c, env.answerBool hist c = true)
    (hmin : ∀ hist, env.answerInt hist (.GetMin i name) = min)
    (hmax : ∀ hist, env.answerInt hist (.GetMax i name) = max)
    (hinc : ∀ hist, env.answerInt hist (.GetInc i name) = inc)
    (hle : min ≤ max) (hpos : 0 < inc) (hinc32 : inc ≤ 2147483648)
    (hlow : -9223372036854775808 ≤ min) (hhigh : max < 9223372036854775808)
    (hspan : max - min < 9223372036854775808) :
    ∃ ext, setExtent env i name v tr = .ok 0 (tr ++ ext)
      ∧ intWrites ext
          = [(name, if v > max then max else if v < min then min
                    else v - (v - min) % inc)] := by
  unfold setExtent tryCatchSpinnaker
  simp only [bind_run, sdk_quiet env hquiet, notAccessible_usable env hyes, andThen_run,
    incrementRemainder_run env hquiet i name min inc v hmin hinc hpos,
    sdkInt_run env hquiet, hmin, hmax, hinc, pure_run, Bool.false_eq_true, if_false]
  by_cases h1 : v > max
  · simp [h1, bind_run, sdk_quiet env hquiet, sdkInt_run env hquiet, andThen_run, pure_run,
      hmax, intWrites]
  · by_cases h2 : v < min
    · simp [h1, h2, bind_run, sdk_quiet env hquiet, sdkInt_run env hquiet, andThen_run,
        pure_run, hmin, intWrites]
    · have hrem := remainder_in_range min max inc v hpos hinc32 hspan (by omega) (by omega)
      have hr0 : 0 ≤ (v - min) % inc := Int.emod_nonneg _ (by omega)
      have hq : 0 ≤ inc * ((v - min) / inc) :=
        Int.mul_nonneg (by omega) (Int.ediv_nonneg (by omega) (by omega))
      have hdiv := Int.ediv_add_emod (v - min) inc
      rw [hrem]
      by_cases h3 : (v - min) % inc = 0
      · simp [h1, h2, h3, bind_run, sdk_quiet env hquiet, sdkInt_run env hquiet,
          andThen_run, pure_run, hmin, intWrites]
      · have hw : toInt64 (v - (v - min) % inc) = v - (v - min) % inc :=
          toInt64_of_range _ (by omega) (by omega)
        simp [h1, h2, h3, hw, bind_run, sdk_quiet env hquiet, sdkInt_run env hquiet,
          andThen_run, pure_run, hmin, intWrites]

/-- C27.  What `setWidth` and `setHeight` write.  On a camera on which no call raises,
whose node is readable and writable and answers with the bounds `min ≤ max` and the
increment `inc > 0`, both functions return 0 after one write to the node: of `max` when
the request is above `max`, of `min` when it is below `min`, and else of the request
lowered by the remainder of its distance from `min`.  The value written lies between `min`
and `max`, and for a request inside the bounds it is the largest value that is not above
the request and whose distance from `min` is a multiple of `inc`.  The bounds are values
of `int64_t` whose difference is one too, and the increment fits the `int` that holds the
remainder. -/
theorem extent_is_clamped_and_aligned (env : Env) (i : Nat) (min max inc v : Int)
    (tr : Trace) (hquiet : ∀ hist c, env.throws hist c = false)
    (hyes : ∀ hist c, env.answerBool hist c = true)
    (hmin : ∀ hist name, env.answerInt hist (.GetMin i name) = min)
    (hmax : ∀ hist name, env.answerInt hist (.GetMax i name) = max)
    (hinc : ∀ hist name, env.answerInt hist (.GetInc i name) = inc)
    (hle : min ≤ max) (hpos : 0 < inc) (hinc32 : inc ≤ 2147483648)
    (hlow : -9223372036854775808 ≤ min) (hhigh : max < 9223372036854775808)
    (hspan : max - min < 9223372036854775808) :
    ∃ written,
      written = (if v > max then max else if v < min then min else v - (v - min) % inc)
        ∧ (∃ ext, setWidth env i v tr = .ok 0 (tr ++ ext)
            ∧ intWrites ext = [("Width", written)])
        ∧ (∃ ext, setHeight env i v tr = .ok 0 (tr ++ ext)
            ∧ intWrites ext = [("Height", written)])
        ∧ min ≤ written ∧ written ≤ max
        ∧ (min ≤ v → v ≤ max →
            written ≤ v ∧ inc ∣ written - min
              ∧ ∀ u, u ≤ v → inc ∣ u - min → u ≤ written) := by
  refine ⟨_, rfl,
    setExtent_written env i "Width" min max inc v tr hquiet hyes (fun h => hmin h _)
      (fun h => hmax h _) (fun h => hinc h _) hle hpos hinc32 hlow hhigh hspan,
    setExtent_written env i "Height" min max inc v tr hquiet hyes (fun h => hmin h _)
      (fun h => hmax h _) (fun h => hinc h _) hle hpos hinc32 hlow hhigh hspan,
    (alignedValue_spec min max inc v hle hpos).1.1,
    (alignedValue_spec min max inc v hle hpos).1.2, ?_⟩
  intro h1 h2
  have h3 : ¬ v > max := by omega
  have h4 : ¬ v < min := by omega
  rw [if_neg h3, if_neg h4]
  exact (alignedValue_spec min max inc v hle hpos).2 h1 h2

theorem extent_is_clamped_and_aligned_witness :
    ∃ written,
      written = (if (30 : Int) > 100 then 100 else if (30 : Int) < 8 then 8
                 else 30 - (30 - 8) % 4)
        ∧ (∃ ext, setWidth boundedEnv 0 30 [] = .ok 0 ([] ++ ext)
            ∧ intWrites ext = [("Width", written)])
        ∧ (∃ ext, setHeight boundedEnv 0 30 [] = .ok 0 ([] ++ ext)
            ∧ intWrites ext = [("Height", written)])
        ∧ 8 ≤ written ∧ written ≤ 100
        ∧ ((8 : Int) ≤ 30 → (30 : Int) ≤ 100 →
            written ≤ 30 ∧ 4 ∣ written - 8
              ∧ ∀ u, u ≤ 30 → 4 ∣ u - 8 → u ≤ written) :=
  extent_is_clamped_and_aligned boundedEnv 0 8 100 4 30 [] (fun _ _ => rfl) (fun _ _ => rfl)
    (fun _ _ => rfl) (fun _ _ => rfl) (fun _ _ => rfl) (by decide) (by decide) (by decide)
    (by decide) (by decide) (by decide)

/-- The run of `setWidth` with minimum 8, maximum 100, increment 4 and the request 30
writes 28. -/
theorem setWidth_sample :
    ∃ ext, setWidth boundedEnv 0 30 [] = .ok 0 ext ∧ intWrites ext = [("Width", 28)] :=
  ⟨_, rfl, by decide⟩

end prepareCamera

namespace prepareCameraTest

/-! ## The trigger delay in `ConfigureCamera` of the preparation test -/

theorem adds_pure {α : Type} (a : α) (P : Event → Prop) : Adds (pure a : Prog α) P :=
  fun tr => ⟨[], (List.append_nil tr).symm, fun _ he => (List.not_mem_nil _ he).elim⟩

theorem adds_bind {α β : Type} (m : Prog α) (f : α → Prog β) (P : Event → Prop)
    (hm : Adds m P) (hf : ∀ a, Adds (f a) P) : Adds (m >>= f) P := by
  intro tr
  obtain ⟨ext, h1, h2⟩ := hm tr
  show ∃ ext, ((m tr).andThen f).trace = tr ++ ext ∧ ∀ e ∈ ext, P e
  cases hmt : m tr with
  | ok a t =>
    rw [hmt] at h1
    have ht : t = tr ++ ext := h1
    subst ht
    obtain ⟨ext2, h3, h4⟩ := hf a (tr ++ ext)
    refine ⟨ext ++ ext2, ?_, ?_⟩
    · show (f a (tr ++ ext)).trace = tr ++ (ext ++ ext2)
      rw [h3, List.append_assoc]
    · intro e he
      rcases List.mem_append.mp he with he | he
      · exact h2 e he
      · exact h4 e he
  | raise t =>
    rw [hmt] at h1
    exact ⟨ext, h1, h2⟩

theorem adds_sdk (env : Env) (c : Call) (P : Event → Prop) (h1 : P ⟨c, .done⟩)
    (h2 : P ⟨c, .raised⟩) : Adds (sdk env c) P := by
  intro tr
  unfold sdk
  by_cases h : env.throws tr c = true
  · refine ⟨[⟨c, .raised⟩], by simp [h, Res.trace], ?_⟩
    intro e he
    rw [List.mem_singleton.mp he]
    exact h2
  · refine ⟨[⟨c, .done⟩], by simp [h, Res.trace], ?_⟩
    intro e he
    rw [List.mem_singleton.mp he]
    exact h1

theorem adds_ask (env : Env) (c : Call) (P : Event → Prop) (h : ∀ b, P ⟨c, .bool b⟩) :
    Adds (ask env c) P :=
  fun tr => ⟨[⟨c, .bool (env.answerBool tr c)⟩], rfl, fun e he => by
    rw [List.mem_singleton.mp he]
    exact h _⟩

theorem adds_ite {α : Type} (c : Prop) [Decidable c] (p q : Prog α) (P : Event → Prop)
    (hp : Adds p P) (hq : Adds q P) : Adds (if c then p else q) P := by
  split
  · exact hp
  · exact hq

theorem notUsable_adds (env : Env) (first second : Call) (P : Event → Prop)
    (h1 : ∀ b, P ⟨first, .bool b⟩) (h2 : ∀ b, P ⟨second, .bool b⟩) :
    Adds (notUsable env first second) P := by
  unfold notUsable
  apply adds_bind
  · exact adds_ask env first P h1
  · intro a
    apply adds_ite
    · exact adds_pure _ _
    · apply adds_bind
      · exact adds_ask env second P h2
      · intro b
        exact adds_pure _ _

theorem ConfigureCamera_adds (env : Env) :
    Adds (ConfigureCamera env) (fun e => ¬ checksDelayNode e) := by
  unfold ConfigureCamera
  repeat' (with_reducible first
    | apply adds_bind | apply adds_sdk | apply notUsable_adds | apply adds_pure
    | apply adds_ite | intro _)
  all_goals simp [checksDelayNode]

/-- C24.  What the code does with the node "TriggerDelay".  In no run of
`ConfigureCamera`, after any history and whatever the camera answers, is the node
"TriggerDelay" asked whether it is available, readable or writable: line 108 repeats the
check of the node "TriggerActivation".  With a camera on which no call raises and every
check succeeds, except that "TriggerDelay" is not available and not writable,
`ConfigureCamera` writes 65520 to "TriggerDelay" and returns 0. -/
theorem trigger_delay_written_without_check :
    (∀ env tr, ∃ ext, (ConfigureCamera env tr).trace = tr ++ ext
        ∧ ∀ e ∈ ext, ¬ checksDelayNode e)
      ∧ (∀ hist, noDelayNodeEnv.answerBool hist (.IsAvailable "TriggerDelay") = false
          ∧ noDelayNodeEnv.answerBool hist (.IsWritable "TriggerDelay") = false)
      ∧ ConfigureCamera noDelayNodeEnv [] = .ok 0 noDelayNodeRun
      ∧ (⟨.SetValue "TriggerDelay" 65520, .done⟩ : Event) ∈ noDelayNodeRun := by
  refine ⟨fun env tr => ConfigureCamera_adds env tr, fun _ => ⟨rfl, rfl⟩, by decide, by decide⟩

end prepareCameraTest
